import Mathlib

/-!
# Asset runtime: shallow embedding and verified properties

The definitions below embed `engine/src/asset/AssetManager.cpp`,
`AssetPipeline.cpp`, `LoaderRegistry.cpp`, `AssetCatalog.cpp`,
`loaders/TextLoader.cpp` and the headers `AssetManager.hpp`, `AssetRecord.hpp`,
`Error.hpp`, `AssetError.hpp`.

Stateful C++ code is written in state-passing style: a member function of
`AssetManager` takes the manager value and returns the result together with the
manager after the call.  A `Core::AssetRecord&` obtained from the storage is
modelled by reading the record, transforming it and writing it back under the
same identifier.  The 32-bit counters (`generation`, `refCount`,
`maxLoadsPerFrame`) are natural numbers with explicit reduction modulo `2^32`
at every increment.
-/

namespace Engine.Asset

/-! ## Basic value types -/

/-- Number of values of a `std::uint32_t`. -/
def U32 : Nat := 4294967296

/-- Byte of a `std::vector<std::byte>` payload. -/
abbrev Byte := Fin 256

/-- Owned byte buffer (`Loading::ByteBuffer`). -/
abbrev ByteBuffer := List Byte

/-- Modelled from the spec: `AssetId.hpp` is absent; the identifier is an opaque,
equality-comparable value, represented here by its numeric value. -/
structure AssetId where
  value : Nat
deriving DecidableEq, Repr

/-- Modelled from the spec: `AssetType.hpp` is absent; a type tag with a numeric
`value` whose zero is reserved as invalid (the sources read `type.value`). -/
structure AssetType where
  value : Nat
deriving DecidableEq, Repr

/-- Modelled from the spec: `AssetState.hpp` is absent; the four record states. -/
inductive AssetState where
  | Unloaded
  | Loading
  | Ready
  | Failed
deriving DecidableEq, Repr

/-- Failure classification of `AssetError.hpp`. -/
inductive AssetErrorCode where
  | None
  | CatalogNotFound
  | InvalidCatalogEntry
  | InvalidPath
  | PathEscapesRoot
  | SourceNotFound
  | SourceReadFailed
  | UnsupportedType
  | UnsupportedFormat
  | DecodeFailed
  | ParseFailed
  | InternalError
deriving DecidableEq, Repr

/-- Value of `Base::Error<AssetErrorCode>` (`Error.hpp`): code, message, detail. -/
structure AssetError where
  code : AssetErrorCode
  message : String
  detail : String
deriving DecidableEq, Repr

namespace AssetError

/-- Default-constructed error `Error{}`: code `None`, empty strings. -/
def empty : AssetError := ⟨AssetErrorCode.None, "", ""⟩

/-- Member `Error::ok()`: the code is the zero enumerator. -/
def ok (e : AssetError) : Bool := decide (e.code = AssetErrorCode.None)

/-- Factory `Error::Make(c, msg, det)`. -/
def Make (c : AssetErrorCode) (msg : String) (det : String) : AssetError := ⟨c, msg, det⟩

end AssetError

/-! ## Payloads -/

/-- Decoded text (`Loaders::TextAsset`), a byte string. -/
structure TextAsset where
  text : List Byte
deriving DecidableEq, Repr

/-- Raw bytes (`Loaders::BinaryAsset`). -/
structure BinaryAsset where
  bytes : List Byte
deriving DecidableEq, Repr

/-- Font blob (`Loaders::FontAsset`). -/
structure FontAsset where
  bytes : List Byte
deriving DecidableEq, Repr

/-- RGBA8 texture (`Loaders::TextureAsset`). -/
structure TextureAsset where
  width : Nat
  height : Nat
  rgba : List Nat
deriving DecidableEq, Repr

/-- PCM16 sound (`Loaders::SoundAsset`). -/
structure SoundAsset where
  sampleRate : Nat
  channels : Nat
  pcm16 : List Int
deriving DecidableEq, Repr

/-- The C++ payload types a type-erased `AnyAsset` can hold (its `type()`). -/
inductive PayloadKind where
  | Text
  | Binary
  | Font
  | Texture
  | Sound
deriving DecidableEq, Repr

/-- A payload object of one of the C++ payload types. -/
inductive Payload where
  | text (a : TextAsset)
  | binary (a : BinaryAsset)
  | font (a : FontAsset)
  | texture (a : TextureAsset)
  | sound (a : SoundAsset)
deriving DecidableEq, Repr

/-- The C++ type of a payload object. -/
def Payload.kind : Payload → PayloadKind
  | Payload.text _ => PayloadKind.Text
  | Payload.binary _ => PayloadKind.Binary
  | Payload.font _ => PayloadKind.Font
  | Payload.texture _ => PayloadKind.Texture
  | Payload.sound _ => PayloadKind.Sound

/-- Modelled from the spec: `AnyAsset.hpp` is absent; a type-erased, shared
payload holder that is either empty or holds one payload object together with
its type, with a type-checked downcast that is empty on mismatch. -/
structure AnyAsset where
  holder : Option Payload
deriving DecidableEq, Repr

namespace AnyAsset

/-- Default-constructed, empty holder. -/
def none : AnyAsset := ⟨Option.none⟩

/-- Factory `AnyAsset::FromShared<T>(ptr)`. -/
def FromShared (p : Payload) : AnyAsset := ⟨some p⟩

/-- Member `Reset()`: drop the payload. -/
def Reset (_a : AnyAsset) : AnyAsset := ⟨Option.none⟩

/-- Member `type()`: the held type, if any. -/
def type (a : AnyAsset) : Option PayloadKind := a.holder.map Payload.kind

/-- Member `ShareAs<T>()`: the payload when it has type `T`, nothing otherwise. -/
def ShareAs (T : PayloadKind) (a : AnyAsset) : Option Payload :=
  match a.holder with
  | some p => if p.kind = T then some p else Option.none
  | Option.none => Option.none

end AnyAsset

/-! ## Handles and requests -/

/-- Modelled from the spec: `AssetHandle.hpp` is absent; a handle is
`(identifier, generation, optional type hint)`. -/
structure AssetHandle where
  id : AssetId
  generation : Nat
  typeHint : Option PayloadKind
deriving DecidableEq, Repr

/-- Factory `AssetHandle::Make(id, generation)`: an untyped handle. -/
def AssetHandle.Make (id : AssetId) (generation : Nat) : AssetHandle :=
  ⟨id, generation, Option.none⟩

/-- Request option `AssetRequest::SyncWith`. -/
inductive SyncWith where
  | Sync
  | Async
deriving DecidableEq, Repr

/-- Request option `AssetRequest::Fallback`. -/
inductive Fallback where
  | None
  | KeepOldIfAny
deriving DecidableEq, Repr

/-- Modelled from the spec: `AssetRequest.hpp` is absent; the per-call request
configuration with the fields the manager reads and the internal reload flag. -/
structure AssetRequest where
  sync : SyncWith
  fallback : Fallback
  pin : Bool
  overridePath : String
  useTypeHint : Bool
  expectedType : AssetType
  keepAliveFramesOverride : Nat
  reload : Bool
deriving DecidableEq, Repr

namespace AssetRequest

/-- Member `IsReload()`: the internal reload flag. -/
def IsReload (r : AssetRequest) : Bool := r.reload

/-- Member `IsAsync()`. -/
def IsAsync (r : AssetRequest) : Bool := decide (r.sync = SyncWith.Async)

/-- Modelled from the spec: factory `AssetRequest::Default()`, a plain request
with no option set. -/
def Default : AssetRequest :=
  ⟨SyncWith.Sync, Fallback.None, false, "", false, ⟨0⟩, 0, false⟩

/-- Modelled from the spec: the dedicated reload factory `AssetRequest::Reload()`,
which sets the internal reload flag. -/
def Reload : AssetRequest :=
  ⟨SyncWith.Sync, Fallback.None, false, "", false, ⟨0⟩, 0, true⟩

end AssetRequest

/-! ## Record (`AssetRecord.hpp`) -/

/-- Per-identifier record `Core::AssetRecord`. -/
structure AssetRecord where
  id : AssetId
  type : AssetType
  resolvedPath : String
  state : AssetState
  generation : Nat
  asset : AnyAsset
  error : AssetError
  refCount : Nat
deriving DecidableEq, Repr

namespace AssetRecord

/-- Member `IsReady()`. -/
def IsReady (r : AssetRecord) : Bool := decide (r.state = AssetState.Ready)

/-- Member `IsFailed()`. -/
def IsFailed (r : AssetRecord) : Bool := decide (r.state = AssetState.Failed)

/-- Member `IsLoading()`. -/
def IsLoading (r : AssetRecord) : Bool := decide (r.state = AssetState.Loading)

/-- Member `MarkLoading()`. -/
def MarkLoading (r : AssetRecord) : AssetRecord := { r with state := AssetState.Loading }

/-- Member `SetReady(a)`: store the payload, clear the error, become `Ready`. -/
def SetReady (r : AssetRecord) (a : AnyAsset) : AssetRecord :=
  { r with asset := a, error := AssetError.empty, state := AssetState.Ready }

/-- Member `SetFailed(e)`: drop the payload, store the error, become `Failed`. -/
def SetFailed (r : AssetRecord) (e : AssetError) : AssetRecord :=
  { r with asset := r.asset.Reset, error := e, state := AssetState.Failed }

/-- Member `ResetToUnloaded()`. -/
def ResetToUnloaded (r : AssetRecord) : AssetRecord :=
  { r with asset := r.asset.Reset, error := AssetError.empty, state := AssetState.Unloaded }

end AssetRecord

/-! ## Collaborators -/

/-- Catalog entry (`Catalog::CatalogEntry`, fields as written by
`AssetCatalog::BuildFromRaw_`). -/
structure CatalogEntry where
  id : AssetId
  type : AssetType
  sourcePath : String
  resolvedPath : String
deriving DecidableEq, Repr

/-- Catalog `AssetCatalog`: the map from identifier to entry. -/
structure AssetCatalog where
  map : AssetId → Option CatalogEntry

/-- Member `AssetCatalog::Find`. -/
def AssetCatalog.Find (c : AssetCatalog) (id : AssetId) : Option CatalogEntry := c.map id

/-- Default-constructed catalog: no entry. -/
def AssetCatalog.empty : AssetCatalog := ⟨fun _ => none⟩

/-- Events reported to the optional statistics collaborator. -/
inductive StatEvent where
  | LoadRequest
  | CacheHit (id : AssetId)
  | CacheMiss
  | CatalogLookup
  | CatalogMiss
  | LoadStart
  | LoadSuccess (id : AssetId) (type : AssetType) (frame : Nat) (bytesRead : Nat) (decoded : Nat)
  | LoadFailure (id : AssetId) (type : AssetType) (frame : Nat)
  | Evict (id : AssetId)
  | Reload (id : AssetId)
deriving DecidableEq, Repr

/-- Modelled from the spec: `AssetStatistics.hpp` is absent; the statistics
collaborator only receives event hooks, recorded here in call order. -/
structure AssetStatistics where
  events : List StatEvent
deriving DecidableEq, Repr

/-- Guarded hook call `if (stats) stats->OnX(...)` on an optional collaborator. -/
def statHook (s : Option AssetStatistics) (e : StatEvent) : Option AssetStatistics :=
  s.map (fun st => ⟨st.events ++ [e]⟩)

/-- Load context `Loading::LoadContext`, with the fields `DoLoadSync_` fills. -/
structure LoadContext where
  id : AssetId
  type : AssetType
  resolvedPath : String
  request : AssetRequest
  statistics : Option AssetStatistics
  nowFrame : Nat

/-- Modelled from the spec: `LoadContext.hpp` is absent; `HasPath()` holds when the
context carries a non-empty resolved path. -/
def LoadContext.HasPath (ctx : LoadContext) : Bool := decide (ctx.resolvedPath ≠ "")

/-- Decoder interface `Loading::IAssetLoader`: its type and its decode function. -/
structure IAssetLoader where
  GetType : AssetType
  Load : ByteBuffer → LoadContext → Except AssetError AnyAsset

/-- Byte source interface `Loading::IAssetSource`. -/
structure IAssetSource where
  ReadAll : String → Except AssetError ByteBuffer

/-- Registry `Loading::LoaderRegistry`: the map from type key to decoder. -/
structure LoaderRegistry where
  map : Nat → Option IAssetLoader

namespace LoaderRegistry

/-- Static member `Key(type)`. -/
def Key (t : AssetType) : Nat := t.value

/-- Default-constructed registry. -/
def empty : LoaderRegistry := ⟨fun _ => none⟩

/-- Member `Register(loader)`; a null `unique_ptr` is `none`. -/
def Register (r : LoaderRegistry) (loader : Option IAssetLoader) :
    Except AssetError Unit × LoaderRegistry :=
  match loader with
  | none =>
    (Except.error (AssetError.Make AssetErrorCode.InternalError "Register: loader is null" ""), r)
  | some l =>
    let k := Key l.GetType
    if k = 0 then
      (Except.error
        (AssetError.Make AssetErrorCode.UnsupportedType "Register: invalid AssetType (0)" ""), r)
    else
      match r.map k with
      | some _ =>
        (Except.error
          (AssetError.Make AssetErrorCode.InternalError
            "Register: loader already exists for type" ""), r)
      | none => (Except.ok (), ⟨Function.update r.map k (some l)⟩)

/-- Member `Find(type)`. -/
def Find (r : LoaderRegistry) (t : AssetType) : Option IAssetLoader := r.map (Key t)

/-- Member `Clear()`. -/
def Clear (_r : LoaderRegistry) : LoaderRegistry := ⟨fun _ => none⟩

end LoaderRegistry

/-- Pipeline `Loading::AssetPipeline`: a byte source and a registry. -/
structure AssetPipeline where
  source : IAssetSource
  registry : LoaderRegistry

/-- Member `AssetPipeline::Load(ctx)`: the result and the statistics collaborator
after the hooks of this load. -/
def AssetPipeline.Load (p : AssetPipeline) (ctx : LoadContext) :
    Except AssetError AnyAsset × Option AssetStatistics :=
  if ctx.HasPath = false then
    (Except.error
      (AssetError.Make AssetErrorCode.InvalidPath "AssetPipeline: resolvedPath is empty" ""),
      ctx.statistics)
  else
    let st := statHook ctx.statistics StatEvent.LoadStart
    match p.registry.Find ctx.type with
    | none =>
      (Except.error
        (AssetError.Make AssetErrorCode.UnsupportedType "AssetPipeline: no loader for type"
          ctx.resolvedPath),
        statHook st (StatEvent.LoadFailure ctx.id ctx.type ctx.nowFrame))
    | some loader =>
      match p.source.ReadAll ctx.resolvedPath with
      | Except.error e =>
        (Except.error e, statHook st (StatEvent.LoadFailure ctx.id ctx.type ctx.nowFrame))
      | Except.ok buf =>
        match loader.Load buf ctx with
        | Except.error e =>
          (Except.error e, statHook st (StatEvent.LoadFailure ctx.id ctx.type ctx.nowFrame))
        | Except.ok a =>
          (Except.ok a,
            statHook st (StatEvent.LoadSuccess ctx.id ctx.type ctx.nowFrame buf.length 0))

/-- Storage `Core::AssetStorage`: the map from identifier to record. -/
structure AssetStorage where
  map : AssetId → Option AssetRecord

namespace AssetStorage

/-- Default-constructed storage: no record. -/
def empty : AssetStorage := ⟨fun _ => none⟩

/-- Modelled from the spec: `AssetStorage.hpp` is absent; `Find(id)` is a
non-creating lookup. -/
def Find (s : AssetStorage) (id : AssetId) : Option AssetRecord := s.map id

/-- Write a record back under an identifier (the effect of mutating through the
`AssetRecord&` that `Find`/`GetOrCreate` returned for that identifier). -/
def put (s : AssetStorage) (id : AssetId) (r : AssetRecord) : AssetStorage :=
  ⟨Function.update s.map id (some r)⟩

/-- The record `GetOrCreate` creates when the identifier has none: `Unloaded`,
generation 1, no payload, no error, no reference (the member initialisers of
`AssetRecord`). -/
def fresh (id : AssetId) (type : AssetType) (path : String) : AssetRecord :=
  ⟨id, type, path, AssetState.Unloaded, 1, AnyAsset.none, AssetError.empty, 0⟩

/-- Modelled from the spec: `AssetStorage.hpp` is absent; `GetOrCreate(id, type,
path)` creates the record with `state = Unloaded, generation = 1` if absent and
otherwise returns the existing record unchanged. -/
def GetOrCreate (s : AssetStorage) (id : AssetId) (type : AssetType) (path : String) :
    AssetRecord × AssetStorage :=
  match s.map id with
  | some r => (r, s)
  | none => (fresh id type path, s.put id (fresh id type path))

/-- Modelled from the spec: `AssetStorage.hpp` is absent; `EraseIf(id, force)`
removes the record only if `force` or it is safe (no reference is held). -/
def EraseIf (s : AssetStorage) (id : AssetId) (force : Bool) : Bool × AssetStorage :=
  match s.map id with
  | none => (false, s)
  | some r =>
    if force || decide (r.refCount = 0) then (true, ⟨Function.update s.map id none⟩)
    else (false, s)

end AssetStorage

/-- Per-identifier lifetime facts: last touched frame and pinned flag. -/
structure LifetimeEntry where
  lastTouchedFrame : Nat
  pinned : Bool
deriving DecidableEq, Repr

/-- Modelled from the spec: `AssetLifetime.hpp` is absent; the tracker records,
per identifier, the last touched frame and the pinned flag. -/
structure AssetLifetime where
  map : AssetId → Option LifetimeEntry

namespace AssetLifetime

/-- Default-constructed tracker: no entry. -/
def empty : AssetLifetime := ⟨fun _ => none⟩

/-- Modelled from the spec: `Touch(id, frame)` records the frame as last touched. -/
def Touch (l : AssetLifetime) (id : AssetId) (frame : Nat) : AssetLifetime :=
  match l.map id with
  | some e => ⟨Function.update l.map id (some { e with lastTouchedFrame := frame })⟩
  | none => ⟨Function.update l.map id (some ⟨frame, false⟩)⟩

/-- Modelled from the spec: `Pin(id)` sets the pinned flag. -/
def Pin (l : AssetLifetime) (id : AssetId) : AssetLifetime :=
  match l.map id with
  | some e => ⟨Function.update l.map id (some { e with pinned := true })⟩
  | none => ⟨Function.update l.map id (some ⟨0, true⟩)⟩

/-- Modelled from the spec: `OnLoaded(id, frame)` touches the identifier at the
frame of the successful load. -/
def OnLoaded (l : AssetLifetime) (id : AssetId) (frame : Nat) : AssetLifetime :=
  l.Touch id frame

/-- Modelled from the spec: `OnEvicted(id)` forgets the identifier. -/
def OnEvicted (l : AssetLifetime) (id : AssetId) : AssetLifetime :=
  ⟨Function.update l.map id none⟩

/-- Pinned status of an identifier. -/
def IsPinned (l : AssetLifetime) (id : AssetId) : Bool :=
  match l.map id with
  | some e => e.pinned
  | none => false

/-- Idle-frame count `currentFrame - lastTouchedFrame`; an identifier never
touched counts from frame 0. -/
def IdleFrames (l : AssetLifetime) (id : AssetId) (frame : Nat) : Nat :=
  match l.map id with
  | some e => frame - e.lastTouchedFrame
  | none => frame

end AssetLifetime

/-- Modelled from the spec: `AssetCachePolicy.hpp` is absent; the policy holds the
configured idle-frame threshold. -/
structure AssetCachePolicy where
  idleFrameThreshold : Nat
deriving DecidableEq, Repr

/-- Modelled from the spec: `IsEvictable(record, lifetime, frame)` holds iff
`refCount == 0`, the identifier is not pinned and its idle-frame count exceeds
the threshold. -/
def AssetCachePolicy.IsEvictable (p : AssetCachePolicy) (r : AssetRecord)
    (l : AssetLifetime) (frame : Nat) : Bool :=
  decide (r.refCount = 0) && !(l.IsPinned r.id) &&
    decide (p.idleFrameThreshold < l.IdleFrames r.id frame)

/-- Change notification reported by the watcher. -/
structure AssetChange where
  id : AssetId
deriving DecidableEq, Repr

/-- Modelled from the spec: `AssetWatcher.hpp` is absent; the change source keeps
the watched paths and the changes not yet reported. -/
structure AssetWatcher where
  watched : List (AssetId × String)
  pending : List AssetChange
deriving DecidableEq, Repr

namespace AssetWatcher

/-- Modelled from the spec: `Poll()` is non-blocking, returns the changes since
the last poll and is empty when nothing changed. -/
def Poll (w : AssetWatcher) : List AssetChange × AssetWatcher :=
  (w.pending, { w with pending := [] })

/-- Modelled from the spec: `Watch(id, path)` registers a path. -/
def Watch (w : AssetWatcher) (id : AssetId) (path : String) : AssetWatcher :=
  { w with watched := (id, path) :: w.watched.filter (fun e => decide (e.1 ≠ id)) }

/-- Modelled from the spec: `Unwatch(id)` removes the registration. -/
def Unwatch (w : AssetWatcher) (id : AssetId) : AssetWatcher :=
  { w with watched := w.watched.filter (fun e => decide (e.1 ≠ id)) }

end AssetWatcher

/-! ## Manager (`AssetManager.hpp`, `AssetManager.cpp`) -/

/-- Manager-wide configuration `AssetManager::Options`. -/
structure Options where
  maxLoadsPerFrame : Nat
  enableHotReload : Bool
  reloadKeepOldIfAny : Bool
deriving DecidableEq, Repr

/-- Default member initialisers of `AssetManager::Options`. -/
def Options.default : Options := ⟨2, false, true⟩

/-- Queued job `AssetManager::PendingLoad`. -/
structure PendingLoad where
  id : AssetId
  req : AssetRequest
deriving DecidableEq, Repr

/-- Result of catalog resolution `AssetManager::ResolvedEntry`. -/
structure ResolvedEntry where
  type : AssetType
  resolvedPath : String
deriving DecidableEq, Repr

/-- State of an `AssetManager` together with the collaborators it references. -/
structure AssetManager where
  catalog : AssetCatalog
  pipeline : AssetPipeline
  storage : AssetStorage
  lifetime : AssetLifetime
  cachePolicy : AssetCachePolicy
  stats : Option AssetStatistics
  watcher : Option AssetWatcher
  opt : Options
  frame : Nat
  queue : List PendingLoad
  queued : Finset AssetId

namespace AssetManager

/-- Constructor: the collaborators as given, default options, frame 0, empty queue. -/
def new (catalog : AssetCatalog) (pipeline : AssetPipeline) (storage : AssetStorage)
    (lifetime : AssetLifetime) (cachePolicy : AssetCachePolicy)
    (stats : Option AssetStatistics) (watcher : Option AssetWatcher) : AssetManager :=
  ⟨catalog, pipeline, storage, lifetime, cachePolicy, stats, watcher, Options.default, 0, [], ∅⟩

/-- Guarded statistics hook `if (stats_) stats_->OnX(...)`. -/
def stat (m : AssetManager) (e : StatEvent) : AssetManager :=
  { m with stats := statHook m.stats e }

/-- Member `SetOptions`. -/
def SetOptions (m : AssetManager) (o : Options) : AssetManager := { m with opt := o }

/-- Member `BeginFrame`. -/
def BeginFrame (m : AssetManager) (frameIndex : Nat) : AssetManager :=
  { m with frame := frameIndex }

/-- Member `ResolveEntry_`: catalog lookup, type-hint check, override path.  The
only state it changes is the statistics collaborator, which is returned. -/
def ResolveEntry_ (m : AssetManager) (id : AssetId) (req : AssetRequest) :
    Except AssetError ResolvedEntry × Option AssetStatistics :=
  match m.catalog.Find id with
  | none =>
    (Except.error
      (AssetError.Make AssetErrorCode.CatalogNotFound "AssetCatalog: id not found" ""),
      statHook (statHook m.stats StatEvent.CatalogLookup) StatEvent.CatalogMiss)
  | some entry =>
    if req.useTypeHint = true ∧ req.expectedType.value ≠ 0 ∧
        req.expectedType.value ≠ entry.type.value then
      (Except.error
        (AssetError.Make AssetErrorCode.InvalidCatalogEntry
          "AssetRequest: expectedType mismatch" ""),
        statHook m.stats StatEvent.CatalogLookup)
    else if (if req.overridePath = "" then entry.resolvedPath else req.overridePath) = "" then
      (Except.error
        (AssetError.Make AssetErrorCode.InvalidPath "AssetCatalog: resolvedPath is empty" ""),
        statHook m.stats StatEvent.CatalogLookup)
    else
      (Except.ok ⟨entry.type,
          if req.overridePath = "" then entry.resolvedPath else req.overridePath⟩,
        statHook m.stats StatEvent.CatalogLookup)

/-- Member `DoLoadSync_`: run the pipeline for a record and apply the outcome.
It changes the record passed by reference and the statistics collaborator;
the result, the record after the call and the statistics after the call are
returned. -/
def DoLoadSync_ (m : AssetManager) (rcd : AssetRecord) (e : ResolvedEntry)
    (req : AssetRequest) : Except AssetError Unit × AssetRecord × Option AssetStatistics :=
  let wasReady := rcd.IsReady
  let rcd1 := rcd.MarkLoading
  let r := m.pipeline.Load ⟨rcd1.id, e.type, e.resolvedPath, req, m.stats, m.frame⟩
  match r.1 with
  | Except.error err =>
    if req.fallback = Fallback.KeepOldIfAny ∧ wasReady = true then
      (Except.ok (), { rcd1 with state := AssetState.Ready, error := err },
        statHook r.2 (StatEvent.Reload rcd1.id))
    else
      (Except.error (rcd1.SetFailed err).error, rcd1.SetFailed err, r.2)
  | Except.ok a =>
    let rcd2 : AssetRecord :=
      { rcd1 with
        generation :=
          if req.IsReload = true ∧ wasReady = true then (rcd1.generation + 1) % U32
          else rcd1.generation }
    let rcd3 := rcd2.SetReady a
    (Except.ok (),
      { rcd3 with
        resolvedPath := if rcd3.resolvedPath = "" then e.resolvedPath else rcd3.resolvedPath },
      if req.IsReload = true ∧ wasReady = true then statHook r.2 (StatEvent.Reload rcd1.id)
      else r.2)

/-- Member `EnqueueLoad_`: append a job unless the identifier is already queued. -/
def EnqueueLoad_ (m : AssetManager) (id : AssetId) (req : AssetRequest) : AssetManager :=
  if id ∈ m.queued then m
  else { m with queue := m.queue ++ [⟨id, req⟩], queued := insert id m.queued }

/-- Member `Load`. -/
def Load (m : AssetManager) (id : AssetId) (request : AssetRequest) :
    Except AssetError AssetHandle × AssetManager :=
  let res := (m.stat StatEvent.LoadRequest).ResolveEntry_ id request
  match res.1 with
  | Except.error err => (Except.error err, { m with stats := res.2 })
  | Except.ok e =>
    let rcd := (m.storage.GetOrCreate id e.type e.resolvedPath).1
    let store := (m.storage.GetOrCreate id e.type e.resolvedPath).2
    if rcd.IsReady = true ∧ request.IsReload = false then
      (Except.ok (AssetHandle.Make id rcd.generation),
        { m with
          stats := statHook res.2 (StatEvent.CacheHit id)
          lifetime := m.lifetime.Touch id m.frame
          storage := store.put id { rcd with refCount := (rcd.refCount + 1) % U32 } })
    else
      let stats1 :=
        if rcd.IsReady = false ∧ request.IsReload = false then statHook res.2 StatEvent.CacheMiss
        else res.2
      let lifetime1 := if request.pin = true then m.lifetime.Pin id else m.lifetime
      if request.IsAsync = true then
        if rcd.IsLoading = false then
          (Except.ok (AssetHandle.Make id rcd.generation),
            { m with
              stats := statHook stats1 StatEvent.LoadStart
              lifetime := lifetime1
              queue := (m.EnqueueLoad_ id request).queue
              queued := (m.EnqueueLoad_ id request).queued
              storage :=
                store.put id { rcd.MarkLoading with refCount := (rcd.refCount + 1) % U32 } })
        else
          (Except.ok (AssetHandle.Make id rcd.generation),
            { m with
              stats := stats1
              lifetime := lifetime1
              storage := store.put id { rcd with refCount := (rcd.refCount + 1) % U32 } })
      else
        let loadR := DoLoadSync_ { m with stats := stats1 } rcd e request
        let rcd1 := loadR.2.1
        match loadR.1 with
        | Except.error err =>
          if request.fallback = Fallback.KeepOldIfAny ∧ rcd1.IsReady = true then
            (Except.ok (AssetHandle.Make id rcd1.generation),
              { m with stats := loadR.2.2, lifetime := lifetime1, storage := store.put id rcd1 })
          else
            (Except.error err,
              { m with stats := loadR.2.2, lifetime := lifetime1, storage := store.put id rcd1 })
        | Except.ok _ =>
          (Except.ok (AssetHandle.Make id rcd1.generation),
            { m with
              stats := loadR.2.2
              lifetime := lifetime1.OnLoaded id m.frame
              storage := store.put id { rcd1 with refCount := (rcd1.refCount + 1) % U32 } })

/-- Member `FindRecord_` (and `FindRecordConst_`): plain lookup by the handle's id. -/
def FindRecord_ (m : AssetManager) (h : AssetHandle) : Option AssetRecord :=
  m.storage.Find h.id

/-- Member `Acquire`. -/
def Acquire (m : AssetManager) (h : AssetHandle) : Bool × AssetManager :=
  match m.FindRecord_ h with
  | none => (false, m)
  | some rcd =>
    if rcd.generation ≠ h.generation then (false, m)
    else
      (true,
        { m with
          storage := m.storage.put h.id { rcd with refCount := (rcd.refCount + 1) % U32 }
          lifetime := m.lifetime.Touch h.id m.frame })

/-- Member `Release`. -/
def Release (m : AssetManager) (h : AssetHandle) : AssetManager :=
  match m.FindRecord_ h with
  | none => m
  | some rcd =>
    if rcd.generation ≠ h.generation then m
    else if 0 < rcd.refCount then
      { m with storage := m.storage.put h.id { rcd with refCount := rcd.refCount - 1 } }
    else m

/-- Member `GetState`. -/
def GetState (m : AssetManager) (h : AssetHandle) : AssetState :=
  match m.FindRecord_ h with
  | none => AssetState.Unloaded
  | some rcd => if rcd.generation ≠ h.generation then AssetState.Unloaded else rcd.state

/-- Member `GetError`; a null result is `none`. -/
def GetError (m : AssetManager) (h : AssetHandle) : Option AssetError :=
  match m.FindRecord_ h with
  | none => none
  | some rcd =>
    if rcd.generation ≠ h.generation then none
    else if rcd.error.ok = true then none
    else some rcd.error

/-- Member template `GetShared<T>`; a null pointer is `none`. -/
def GetShared (T : PayloadKind) (m : AssetManager) (h : AssetHandle) : Option Payload :=
  match m.FindRecord_ h with
  | none => none
  | some rcd =>
    if rcd.IsReady = false then none
    else if rcd.generation ≠ h.generation then none
    else
      match h.typeHint with
      | some t => if rcd.asset.type ≠ some t then none else rcd.asset.ShareAs T
      | none => rcd.asset.ShareAs T

/-- Member template `GetSharedConst<T>`: the same checks as `GetShared<T>`. -/
def GetSharedConst (T : PayloadKind) (m : AssetManager) (h : AssetHandle) : Option Payload :=
  match m.FindRecord_ h with
  | none => none
  | some rcd =>
    if rcd.IsReady = false then none
    else if rcd.generation ≠ h.generation then none
    else
      match h.typeHint with
      | some t => if rcd.asset.type ≠ some t then none else rcd.asset.ShareAs T
      | none => rcd.asset.ShareAs T

/-- Member `EvictIfPossible`. -/
def EvictIfPossible (m : AssetManager) (id : AssetId) : Bool × AssetManager :=
  match m.storage.Find id with
  | none => (false, m)
  | some rcd =>
    if m.cachePolicy.IsEvictable rcd m.lifetime m.frame = false then (false, m)
    else
      (true,
        { m with
          lifetime := m.lifetime.OnEvicted id
          stats := statHook m.stats (StatEvent.Evict id)
          storage := (m.storage.EraseIf id true).2 })

/-- Member `Watch`. -/
def Watch (m : AssetManager) (id : AssetId) (resolvedPath : String) : AssetManager :=
  match m.watcher with
  | none => m
  | some w => { m with watcher := some (w.Watch id resolvedPath) }

/-- Member `Unwatch`. -/
def Unwatch (m : AssetManager) (id : AssetId) : AssetManager :=
  match m.watcher with
  | none => m
  | some w => { m with watcher := some (w.Unwatch id) }

/-- Body of the `while` loop of `ProcessQueue_` for the job at the queue's front
(already popped and removed from `queued_`). -/
def ProcessJob_ (m : AssetManager) (job : PendingLoad) : AssetManager :=
  let res := m.ResolveEntry_ job.id job.req
  match res.1 with
  | Except.error err =>
    match m.storage.Find job.id with
    | some rcd => { m with stats := res.2, storage := m.storage.put job.id (rcd.SetFailed err) }
    | none => { m with stats := res.2 }
  | Except.ok e =>
    let rcd := (m.storage.GetOrCreate job.id e.type e.resolvedPath).1
    let store := (m.storage.GetOrCreate job.id e.type e.resolvedPath).2
    let loadR := DoLoadSync_ { m with stats := res.2 } rcd e job.req
    let rcd1 := loadR.2.1
    { m with
      stats := loadR.2.2
      storage := store.put job.id rcd1
      lifetime := if rcd1.IsReady = true then m.lifetime.OnLoaded rcd1.id m.frame else m.lifetime }

/-- The `while (budget > 0 && !queue_.empty())` loop of `ProcessQueue_`. -/
def ProcessQueueLoop_ : Nat → AssetManager → AssetManager
  | 0, m => m
  | budget + 1, m =>
    match m.queue with
    | [] => m
    | job :: rest =>
      ProcessQueueLoop_ budget
        (ProcessJob_ { m with queue := rest, queued := m.queued.erase job.id } job)

/-- Member `ProcessQueue_`. -/
def ProcessQueue_ (m : AssetManager) : AssetManager :=
  match m.queue with
  | [] => m
  | _ :: _ => ProcessQueueLoop_ m.opt.maxLoadsPerFrame m

/-- The reload request `ProcessHotReload_` builds for a reported change. -/
def hotReloadRequest (o : Options) : AssetRequest :=
  { AssetRequest.Reload with
    sync := SyncWith.Async
    fallback := if o.reloadKeepOldIfAny = true then Fallback.KeepOldIfAny else Fallback.None }

/-- Member `ProcessHotReload_`. -/
def ProcessHotReload_ (m : AssetManager) : AssetManager :=
  match m.watcher with
  | none => m
  | some w =>
    let m1 : AssetManager := { m with watcher := some w.Poll.2 }
    match w.Poll.1 with
    | [] => m1
    | c :: cs =>
      (c :: cs).foldl (fun acc ch => acc.EnqueueLoad_ ch.id (hotReloadRequest acc.opt)) m1

/-- Member `Update`. -/
def Update (m : AssetManager) : AssetManager :=
  if m.opt.enableHotReload = true ∧ m.watcher.isSome = true then
    (m.ProcessHotReload_).ProcessQueue_
  else m.ProcessQueue_

end AssetManager

/-! ## Text decoder (`loaders/TextLoader.cpp`) and the in-memory byte source of the tests -/

/-- Function `TextLoader::Load`: strip one UTF-8 byte-order mark, keep the rest. -/
def TextLoader.Load (bytes : ByteBuffer) (_ctx : LoadContext) : Except AssetError AnyAsset :=
  match bytes with
  | [] => Except.ok (AnyAsset.FromShared (Payload.text ⟨[]⟩))
  | b0 :: b1 :: b2 :: rest =>
    if b0 = 0xEF ∧ b1 = 0xBB ∧ b2 = 0xBF then
      Except.ok (AnyAsset.FromShared (Payload.text ⟨rest⟩))
    else Except.ok (AnyAsset.FromShared (Payload.text ⟨b0 :: b1 :: b2 :: rest⟩))
  | bs => Except.ok (AnyAsset.FromShared (Payload.text ⟨bs⟩))

/-- The text decoder as a registered loader; its type tag is `FromString("text")`,
a hash that the sources do not show and that is therefore a parameter. -/
def TextLoader (textType : AssetType) : IAssetLoader := ⟨textType, TextLoader.Load⟩

/-- Test double `MemoryAssetSource` of `AssetManagerTests.cpp`: a path-to-bytes map
whose `ReadAll` fails with `SourceReadFailed` on an unknown path. -/
def MemoryAssetSource (files : List (String × ByteBuffer)) : IAssetSource :=
  ⟨fun path =>
    match files.lookup path with
    | some bytes => Except.ok bytes
    | none =>
      Except.error (AssetError.Make AssetErrorCode.SourceReadFailed
        "MemoryAssetSource: not found" path)⟩

/-! ## Operations and reachable states -/

/-- One call of the public interface of the manager, or a change made to the
collaborators between two calls (`env`: the catalog is rebuilt, the backing
bytes or the registered decoders change, the watcher observes changes). -/
inductive Op where
  | Load (id : AssetId) (req : AssetRequest)
  | Acquire (h : AssetHandle)
  | Release (h : AssetHandle)
  | Update
  | EvictIfPossible (id : AssetId)
  | BeginFrame (frameIndex : Nat)
  | SetOptions (o : Options)
  | Watch (id : AssetId) (path : String)
  | Unwatch (id : AssetId)
  | env (c : AssetCatalog) (p : AssetPipeline) (w : Option AssetWatcher)

/-- Manager after one operation. -/
def AssetManager.run (m : AssetManager) : Op → AssetManager
  | Op.Load id req => (m.Load id req).2
  | Op.Acquire h => (m.Acquire h).2
  | Op.Release h => m.Release h
  | Op.Update => m.Update
  | Op.EvictIfPossible id => (m.EvictIfPossible id).2
  | Op.BeginFrame n => m.BeginFrame n
  | Op.SetOptions o => m.SetOptions o
  | Op.Watch id path => m.Watch id path
  | Op.Unwatch id => m.Unwatch id
  | Op.env c p w => { m with catalog := c, pipeline := p, watcher := w }

/-- Manager after a sequence of operations, first operation first. -/
def AssetManager.runAll (m : AssetManager) (ops : List Op) : AssetManager :=
  ops.foldl AssetManager.run m

/-- States of a manager constructed over an empty storage and then driven through
its operations. -/
inductive Reachable : AssetManager → Prop where
  | init (c : AssetCatalog) (p : AssetPipeline) (l : AssetLifetime) (pol : AssetCachePolicy)
      (st : Option AssetStatistics) (w : Option AssetWatcher) :
      Reachable (AssetManager.new c p AssetStorage.empty l pol st w)
  | step (m : AssetManager) (op : Op) : Reachable m → Reachable (m.run op)

/-- The pipeline outcome for a load of record `cid` resolved to `e` under request
`req` is `r`, whichever statistics collaborator is attached to the context. -/
def PipelineGives (m : AssetManager) (cid : AssetId) (e : ResolvedEntry) (req : AssetRequest)
    (r : Except AssetError AnyAsset) : Prop :=
  ∀ st : Option AssetStatistics,
    (m.pipeline.Load ⟨cid, e.type, e.resolvedPath, req, st, m.frame⟩).1 = r

/-- The record a load of `id` resolved to `e` works on. -/
def workRecord (m : AssetManager) (id : AssetId) (e : ResolvedEntry) : AssetRecord :=
  (m.storage.Find id).getD (AssetStorage.fresh id e.type e.resolvedPath)

/-- The record after a successful pipeline load that produced `a`. -/
def loadedRecord (r : AssetRecord) (e : ResolvedEntry) (req : AssetRequest) (a : AnyAsset) :
    AssetRecord :=
  { id := r.id, type := r.type,
    resolvedPath := if r.resolvedPath = "" then e.resolvedPath else r.resolvedPath,
    state := AssetState.Ready,
    generation :=
      if req.reload = true ∧ r.state = AssetState.Ready then (r.generation + 1) % U32
      else r.generation,
    asset := a, error := AssetError.empty, refCount := r.refCount }

/-! ## Path resolver (`resolver/AssetPathResolver.hpp`, `AssetPathResolver.cpp`)

A `std::string` is a `String`, processed as its list of characters.  The
characters the resolver looks at (`/`, `\`, `:`, `.` and the ASCII letters) are
single bytes that occur in no multi-byte encoding of another character, so the
character-wise loops agree with the byte-wise loops of the code. -/

namespace AssetPathResolver

/-- Resolver options (`AssetPathResolver::Options`) with the member initialisers
of the header. -/
structure Options where
  assetsRoot : String := "assets"
  allowAbsolutePath : Bool := false
  allowEscapeAssetsRoot : Bool := false
  normalizeSeparators : Bool := true
  squashSlashes : Bool := true
  allowSchemes : Bool := true
deriving DecidableEq, Repr

/-- Helper `IsSlash(c)`. -/
def IsSlash (c : Char) : Bool := c == '/' || c == '\\'

/-- The `for (char c : path)` loop of `NormalizePath`; the first argument after the
flags is `prevSlash`. -/
def NormalizeLoop (normalizeSeparators squashSlashes : Bool) : Bool → List Char → List Char
  | _, [] => []
  | prevSlash, c :: cs =>
    let x : Char := if normalizeSeparators = true ∧ c = '\\' then '/' else c
    if squashSlashes = true then
      if x = '/' then
        if prevSlash = true then NormalizeLoop normalizeSeparators squashSlashes true cs
        else x :: NormalizeLoop normalizeSeparators squashSlashes true cs
      else x :: NormalizeLoop normalizeSeparators squashSlashes false cs
    else x :: NormalizeLoop normalizeSeparators squashSlashes prevSlash cs

/-- Static member `NormalizePath(path, normalizeSeparators, squashSlashes)`. -/
def NormalizePath (path : String) (normalizeSeparators squashSlashes : Bool) : String :=
  ⟨NormalizeLoop normalizeSeparators squashSlashes false path.data⟩

/-- Static member `IsAbsolutePath(p)`. -/
def IsAbsolutePath (p : String) : Bool :=
  match p.data with
  | [] => false
  | c0 :: rest =>
    if c0 = '/' then true
    else
      match rest with
      | [] => false
      | c1 :: rest2 =>
        if IsSlash c0 = true ∧ IsSlash c1 = true then true
        else
          match rest2 with
          | [] => false
          | c2 :: _ => c0.isAlpha && c1 == ':' && IsSlash c2

/-- Position of the first occurrence of `"://"`: `p.find("://")`, with `npos` as
`none`. -/
def findScheme : List Char → Option Nat
  | [] => none
  | c :: cs =>
    if c = ':' ∧ cs.take 2 = ['/', '/'] then some 0
    else (findScheme cs).map (fun pos => pos + 1)

/-- The loops `while (!rest.empty() && IsSlash(rest.front())) rest.remove_prefix(1)`
of `StripScheme` and `JoinRootAndRelative`. -/
def dropSlashes : List Char → List Char
  | [] => []
  | c :: cs => if IsSlash c = true then dropSlashes cs else c :: cs

/-- Static member `StripScheme(p, stripped)`: the result and the out-parameter
`stripped`. -/
def StripScheme (p : String) : String × Bool :=
  match findScheme p.data with
  | none => (p, false)
  | some pos => (⟨dropSlashes (p.data.drop (pos + 3))⟩, true)

/-- Static member `JoinRootAndRelative(root, rel)`. -/
def JoinRootAndRelative (root rel : String) : String :=
  let r0 : List Char := if root.data = [] then "assets".data else root.data
  let r1 : List Char := r0.map (fun c => if c = '\\' then '/' else c)
  let r2 : List Char := if r1 ≠ [] ∧ r1.getLast? ≠ some '/' then r1 ++ ['/'] else r1
  ⟨r2 ++ dropSlashes rel.data⟩

/-- The segments the `while (i <= p.size())` loop of `RemoveDotSegments` visits:
the pieces of `p` between consecutive `/`, the empty ones included. -/
def segments : List Char → List (List Char)
  | [] => [[]]
  | c :: cs =>
    if c = '/' then [] :: segments cs
    else
      match segments cs with
      | [] => [[c]]
      | seg :: rest => (c :: seg) :: rest

/-- Body of the segment loop of `RemoveDotSegments` on the stack and the flag
`escapedAboveRoot`. -/
def dotStep (acc : List (List Char) × Bool) (seg : List Char) : List (List Char) × Bool :=
  if seg = [] ∨ seg = ['.'] then acc
  else if seg = ['.', '.'] then
    (if acc.1 ≠ [] then (acc.1.dropLast, acc.2) else (acc.1, true))
  else (acc.1 ++ [seg], acc.2)

/-- The output loop of `RemoveDotSegments`: append the stacked segments, with a `/`
before each unless the output is empty or ends in `/`. -/
def joinSegments (out : List Char) : List (List Char) → List Char
  | [] => out
  | seg :: rest =>
    joinSegments ((if out ≠ [] ∧ out.getLast? ≠ some '/' then out ++ ['/'] else out) ++ seg) rest

/-- The drive, UNC or root part `RemoveDotSegments` keeps in front, and the rest of
the path. -/
def splitRoot (p : List Char) : List Char × List Char :=
  match p with
  | c0 :: c1 :: c2 :: rest =>
    if c0.isAlpha = true ∧ c1 = ':' ∧ c2 = '/' then ([c0, c1, c2], rest)
    else if c0 = '/' ∧ c1 = '/' then (['/', '/'], c2 :: rest)
    else if c0 = '/' then (['/'], c1 :: c2 :: rest)
    else ([], p)
  | c0 :: c1 :: rest =>
    if c0 = '/' ∧ c1 = '/' then (['/', '/'], rest)
    else if c0 = '/' then (['/'], c1 :: rest)
    else ([], p)
  | c0 :: rest => if c0 = '/' then (['/'], rest) else ([], p)
  | [] => ([], [])

/-- Static member `RemoveDotSegments(path, escapedAboveRoot)`: the result and the
out-parameter. -/
def RemoveDotSegments (path : String) : String × Bool :=
  let front := (splitRoot path.data).1
  let p := (splitRoot path.data).2
  let r := (segments p).foldl dotStep ([], false)
  let out := joinSegments front r.1
  if front ≠ [] ∧ r.1 = [] then (⟨if out = [] then front else out⟩, r.2)
  else (⟨out⟩, r.2)

/-- Member `Resolve(catalogPath)` of a resolver with options `opt`. -/
def Resolve (opt : Options) (catalogPath : String) : Except AssetError String :=
  if catalogPath.data = [] then
    Except.error
      (AssetError.Make AssetErrorCode.InvalidPath "AssetPathResolver: empty path" catalogPath)
  else
    let p0 : String := if opt.allowSchemes = true then (StripScheme catalogPath).1 else catalogPath
    let p : String := NormalizePath p0 opt.normalizeSeparators opt.squashSlashes
    if IsAbsolutePath p = true then
      if opt.allowAbsolutePath = false then
        Except.error
          (AssetError.Make AssetErrorCode.InvalidPath
            "AssetPathResolver: absolute path is not allowed" catalogPath)
      else Except.ok (RemoveDotSegments p).1
    else
      let joined : String :=
        NormalizePath (JoinRootAndRelative opt.assetsRoot p) opt.normalizeSeparators
          opt.squashSlashes
      let cleaned := RemoveDotSegments joined
      if cleaned.2 = true ∧ opt.allowEscapeAssetsRoot = false then
        Except.error
          (AssetError.Make AssetErrorCode.InvalidPath
            "AssetPathResolver: path escapes assetsRoot via '..' which is not allowed"
            catalogPath)
      else Except.ok cleaned.1

end AssetPathResolver

/-! ## PPM texture decoder (`loaders/TextureLoader.cpp`)

A pointer `p` into the input with the fixed end pointer `end` is the list of the
bytes from `p` to `end`.  `int` values are integers reduced to 32-bit two's
complement after every arithmetic step (`wrapInt`); `std::size_t` is taken to
have 64 bits, which no product of two positive `int` values times 4 exceeds. -/

namespace TextureLoader

/-- An `int` result: the value reduced to 32-bit two's complement. -/
def wrapInt (x : Int) : Int := (x + 2147483648) % 4294967296 - 2147483648

/-- Character test `std::isspace` ("C" locale): space, `\t`, `\n`, `\v`, `\f`, `\r`. -/
def isSpace (b : Byte) : Bool := decide (b.val = 32 ∨ (9 ≤ b.val ∧ b.val ≤ 13))

/-- Character test `std::isdigit`. -/
def isDigit (b : Byte) : Bool := decide (48 ≤ b.val ∧ b.val ≤ 57)

/-- Helper `SkipSpaces(p, end)`. -/
def SkipSpaces : List Byte → List Byte
  | [] => []
  | b :: rest => if isSpace b = true then SkipSpaces rest else b :: rest

/-- The inner loop `while (p < end && *p != '\n') ++p` of `SkipCommentsAndSpaces`. -/
def skipToNewline : List Byte → List Byte
  | [] => []
  | b :: rest => if b.val = 10 then b :: rest else skipToNewline rest

/-- The `while (true)` loop of `SkipCommentsAndSpaces`, with a bound on the number
of iterations; each iteration that does not return consumes a `#`. -/
def SkipCommentsLoop : Nat → List Byte → List Byte
  | 0, p => p
  | fuel + 1, p =>
    match SkipSpaces p with
    | [] => []
    | b :: rest =>
      if b.val = 35 then SkipCommentsLoop fuel (skipToNewline (b :: rest)) else b :: rest

/-- Helper `SkipCommentsAndSpaces(p, end)`. -/
def SkipCommentsAndSpaces (p : List Byte) : List Byte := SkipCommentsLoop (p.length + 1) p

/-- The digit loop of `ReadInt`: the accumulated value and the pointer after it. -/
def readDigits (v : Int) : List Byte → Int × List Byte
  | [] => (v, [])
  | b :: rest =>
    if isDigit b = true then readDigits (wrapInt (v * 10 + ((b.val : Int) - 48))) rest
    else (v, b :: rest)

/-- Helper `ReadInt(p, end, out)`: on success the value and the advanced pointer. -/
def ReadInt (p : List Byte) : Option (Int × List Byte) :=
  match SkipCommentsAndSpaces p with
  | [] => none
  | b :: rest =>
    let sign : Int := if b.val = 45 then -1 else 1
    let q : List Byte := if b.val = 45 then rest else b :: rest
    match q with
    | [] => none
    | d :: _ =>
      if isDigit d = true then
        some (wrapInt ((readDigits 0 q).1 * sign), (readDigits 0 q).2)
      else none

/-- The pixel loop of the `P6` branch over the `need` source bytes: three colour
bytes and alpha 255 per pixel. -/
def p6Pixels : List Byte → List Nat
  | r :: g :: b :: rest => r.val :: g.val :: b.val :: 255 :: p6Pixels rest
  | _ => []

/-- The pixel loop of the `P3` branch for the given number of iterations: the bytes
written, or the error of the iteration that failed. -/
def p3Pixels (path : String) : Nat → List Byte → Except AssetError (List Nat)
  | 0, _ => Except.ok []
  | n + 1, p =>
    match ReadInt p with
    | none =>
      Except.error (AssetError.Make AssetErrorCode.DecodeFailed "PPM(P3): body parse failed" path)
    | some (r, p1) =>
      match ReadInt p1 with
      | none =>
        Except.error
          (AssetError.Make AssetErrorCode.DecodeFailed "PPM(P3): body parse failed" path)
      | some (g, p2) =>
        match ReadInt p2 with
        | none =>
          Except.error
            (AssetError.Make AssetErrorCode.DecodeFailed "PPM(P3): body parse failed" path)
        | some (b, p3) =>
          if (r < 0 ∨ 255 < r) ∨ (g < 0 ∨ 255 < g) ∨ (b < 0 ∨ 255 < b) then
            Except.error
              (AssetError.Make AssetErrorCode.DecodeFailed "PPM(P3): color out of range" path)
          else
            match p3Pixels path n p3 with
            | Except.error e => Except.error e
            | Except.ok px => Except.ok (r.toNat :: g.toNat :: b.toNat :: 255 :: px)

/-- Function `DecodePPM(bytes, ctx)`.  The `int` product `w * h` of the `P3` loop
bound is reduced by `wrapInt`; the `std::size_t` products of the `resize`
and of the `P6` branch, taken 64 bits wide, do not wrap for two positive
`int` factors. -/
def DecodePPM (bytes : ByteBuffer) (ctx : LoadContext) : Except AssetError TextureAsset :=
  match bytes with
  | b0 :: b1 :: p =>
    if ¬(b0.val = 80 ∧ b1.val = 54) ∧ ¬(b0.val = 80 ∧ b1.val = 51) then
      Except.error
        (AssetError.Make AssetErrorCode.UnsupportedFormat
          "Texture: only PPM(P6/P3) supported (no external decoder)" ctx.resolvedPath)
    else
      match ReadInt p with
      | none =>
        Except.error
          (AssetError.Make AssetErrorCode.DecodeFailed "PPM: header parse failed"
            ctx.resolvedPath)
      | some (w, p1) =>
        match ReadInt p1 with
        | none =>
          Except.error
            (AssetError.Make AssetErrorCode.DecodeFailed "PPM: header parse failed"
              ctx.resolvedPath)
        | some (h, p2) =>
          match ReadInt p2 with
          | none =>
            Except.error
              (AssetError.Make AssetErrorCode.DecodeFailed "PPM: header parse failed"
                ctx.resolvedPath)
          | some (maxv, p3) =>
            if w ≤ 0 ∨ h ≤ 0 then
              Except.error
                (AssetError.Make AssetErrorCode.DecodeFailed "PPM: invalid width/height"
                  ctx.resolvedPath)
            else if maxv ≠ 255 then
              Except.error
                (AssetError.Make AssetErrorCode.UnsupportedFormat
                  "PPM: only maxval=255 supported" ctx.resolvedPath)
            else
              match SkipCommentsAndSpaces p3 with
              | [] =>
                Except.error
                  (AssetError.Make AssetErrorCode.DecodeFailed "PPM: missing body"
                    ctx.resolvedPath)
              | body =>
                if b0.val = 80 ∧ b1.val = 54 then
                  if body.length < w.toNat * h.toNat * 3 then
                    Except.error
                      (AssetError.Make AssetErrorCode.DecodeFailed "PPM(P6): body too small"
                        ctx.resolvedPath)
                  else
                    Except.ok
                      ⟨w.toNat, h.toNat, p6Pixels (body.take (w.toNat * h.toNat * 3))⟩
                else
                  match p3Pixels ctx.resolvedPath (wrapInt (w * h)).toNat body with
                  | Except.error e => Except.error e
                  | Except.ok px =>
                    Except.ok
                      ⟨w.toNat, h.toNat,
                        px ++ List.replicate (w.toNat * h.toNat * 4 - px.length) 0⟩
  | _ =>
    Except.error
      (AssetError.Make AssetErrorCode.DecodeFailed "PPM: file too small" ctx.resolvedPath)

/-- Member `TextureLoader::Load`. -/
def Load (bytes : ByteBuffer) (ctx : LoadContext) : Except AssetError AnyAsset :=
  match DecodePPM bytes ctx with
  | Except.error e => Except.error e
  | Except.ok t => Except.ok (AnyAsset.FromShared (Payload.texture t))

end TextureLoader

/-! ## WAV sound decoder (`loaders/SoundLoader.cpp`)

A read `p[i]` is a lookup that has no result when `i` lies outside the input, and
a function that reads is `none` when one of its reads has no result or when
its loop is cut off by the iteration bound.  `std::uint32_t` arithmetic is
reduced modulo `2^32`; `std::size_t` offsets are natural numbers. -/

namespace SoundLoader

/-- A read `p[i]` of one byte. -/
def readU8 (bytes : ByteBuffer) (i : Nat) : Option Nat := (bytes.get? i).map (fun b => b.val)

/-- Helper `ReadU16LE(p + i)`. -/
def ReadU16LE (bytes : ByteBuffer) (i : Nat) : Option Nat :=
  match readU8 bytes i, readU8 bytes (i + 1) with
  | some b0, some b1 => some (b0 + b1 * 256)
  | _, _ => none

/-- Helper `ReadU32LE(p + i)`. -/
def ReadU32LE (bytes : ByteBuffer) (i : Nat) : Option Nat :=
  match readU8 bytes i, readU8 bytes (i + 1), readU8 bytes (i + 2), readU8 bytes (i + 3) with
  | some b0, some b1, some b2, some b3 => some (b0 + b1 * 256 + b2 * 65536 + b3 * 16777216)
  | _, _, _, _ => none

/-- Comparison `std::memcmp(p + i, tag, 4) == 0` with a four-byte tag. -/
def tagAt (bytes : ByteBuffer) (i : Nat) (tag : List Nat) : Option Bool :=
  match readU8 bytes i, readU8 bytes (i + 1), readU8 bytes (i + 2), readU8 bytes (i + 3) with
  | some b0, some b1, some b2, some b3 => some (decide ([b0, b1, b2, b3] = tag))
  | _, _, _, _ => none

/-- The bytes of `"RIFF"`. -/
def riffTag : List Nat := [82, 73, 70, 70]

/-- The bytes of `"WAVE"`. -/
def waveTag : List Nat := [87, 65, 86, 69]

/-- The bytes of `"fmt "`. -/
def fmtTag : List Nat := [102, 109, 116, 32]

/-- The bytes of `"data"`. -/
def dataTag : List Nat := [100, 97, 116, 97]

/-- The local variables the chunk loop of `SoundLoader::Load` fills; `dataPtr` is
the offset of the data in the input, a null pointer is `none`. -/
structure WavFields where
  audioFormat : Nat
  channels : Nat
  sampleRate : Nat
  bitsPerSample : Nat
  dataPtr : Option Nat
  dataSize : Nat
deriving DecidableEq, Repr

/-- The initial values of the local variables. -/
def WavFields.init : WavFields := ⟨0, 0, 0, 0, none, 0⟩

/-- The loop `while (off + 8 <= n)` of `SoundLoader::Load`, started at offset `off`
and run for at most `fuel` iterations: the fields at the loop's exit, or the
error of the early return.  The chunk size is a `std::uint32_t`, so the padded
size `ckSize + (ckSize & 1u)` is reduced modulo `2 ^ 32`; the offset is a
`std::size_t`, taken 64 bits wide, whose sums with a 32-bit size do not
wrap. -/
def chunkWalk (bytes : ByteBuffer) (path : String) :
    Nat → Nat → WavFields → Option (Except AssetError WavFields)
  | 0, off, f => if off + 8 ≤ bytes.length then none else some (Except.ok f)
  | fuel + 1, off, f =>
    if off + 8 ≤ bytes.length then
      match ReadU32LE bytes (off + 4) with
      | none => none
      | some ckSize =>
        if bytes.length < off + 8 + ckSize then some (Except.ok f)
        else
          match tagAt bytes off fmtTag with
          | none => none
          | some true =>
            if ckSize < 16 then
              some (Except.error
                (AssetError.Make AssetErrorCode.DecodeFailed "WAV: invalid fmt chunk" path))
            else
              match ReadU16LE bytes (off + 8 + 0), ReadU16LE bytes (off + 8 + 2),
                ReadU32LE bytes (off + 8 + 4), ReadU16LE bytes (off + 8 + 14) with
              | some af, some ch, some sr, some bits =>
                chunkWalk bytes path fuel (off + 8 + (ckSize + ckSize % 2) % 4294967296)
                  { f with audioFormat := af, channels := ch, sampleRate := sr,
                           bitsPerSample := bits }
              | _, _, _, _ => none
          | some false =>
            match tagAt bytes off dataTag with
            | none => none
            | some true =>
              chunkWalk bytes path fuel (off + 8 + (ckSize + ckSize % 2) % 4294967296)
                { f with dataPtr := some (off + 8), dataSize := ckSize }
            | some false =>
              chunkWalk bytes path fuel (off + 8 + (ckSize + ckSize % 2) % 4294967296) f
    else some (Except.ok f)

/-- Conversion `static_cast<std::int16_t>(u)` of a 16-bit value. -/
def toInt16 (u : Nat) : Int := if u < 32768 then (u : Int) else (u : Int) - 65536

/-- The sample loop of `SoundLoader::Load`: `count` samples read from offset `d`. -/
def readSamples (bytes : ByteBuffer) (d : Nat) : Nat → Option (List Int)
  | 0 => some []
  | count + 1 =>
    match readSamples bytes d count, ReadU16LE bytes (d + count * 2) with
    | some xs, some u => some (xs ++ [toInt16 u])
    | _, _ => none

/-- Member `SoundLoader::Load`; the chunk loop is given one iteration per input
byte. -/
def Load (bytes : ByteBuffer) (ctx : LoadContext) : Option (Except AssetError AnyAsset) :=
  if bytes.length < 12 then
    some (Except.error
      (AssetError.Make AssetErrorCode.DecodeFailed "WAV: file too small" ctx.resolvedPath))
  else
    match tagAt bytes 0 riffTag, tagAt bytes 8 waveTag with
    | some isRiff, some isWave =>
      if isRiff = false ∨ isWave = false then
        some (Except.error
          (AssetError.Make AssetErrorCode.UnsupportedFormat
            "Sound: only WAV(RIFF/WAVE) supported (PCM16)" ctx.resolvedPath))
      else
        match chunkWalk bytes ctx.resolvedPath bytes.length 12 WavFields.init with
        | none => none
        | some (Except.error e) => some (Except.error e)
        | some (Except.ok f) =>
          if f.audioFormat ≠ 1 then
            some (Except.error
              (AssetError.Make AssetErrorCode.UnsupportedFormat "WAV: only PCM supported"
                ctx.resolvedPath))
          else if f.channels = 0 ∨ (f.channels ≠ 1 ∧ f.channels ≠ 2) then
            some (Except.error
              (AssetError.Make AssetErrorCode.UnsupportedFormat
                "WAV: only mono/stereo supported" ctx.resolvedPath))
          else if f.bitsPerSample ≠ 16 then
            some (Except.error
              (AssetError.Make AssetErrorCode.UnsupportedFormat "WAV: only 16-bit supported"
                ctx.resolvedPath))
          else
            match f.dataPtr with
            | none =>
              some (Except.error
                (AssetError.Make AssetErrorCode.DecodeFailed "WAV: missing data chunk"
                  ctx.resolvedPath))
            | some d =>
              if f.dataSize = 0 then
                some (Except.error
                  (AssetError.Make AssetErrorCode.DecodeFailed "WAV: missing data chunk"
                    ctx.resolvedPath))
              else if f.dataSize % 2 ≠ 0 then
                some (Except.error
                  (AssetError.Make AssetErrorCode.DecodeFailed "WAV: data size not aligned"
                    ctx.resolvedPath))
              else
                match readSamples bytes d (f.dataSize / 2) with
                | none => none
                | some pcm =>
                  some (Except.ok
                    (AnyAsset.FromShared (Payload.sound ⟨f.sampleRate, f.channels, pcm⟩)))
    | _, _ => none

end SoundLoader

/-! ## Fixtures of `AssetManagerTests.cpp` -/

/-- The bytes of `"hello"`. -/
def helloBytes : ByteBuffer := [104, 101, 108, 108, 111]

/-- The bytes of `"world"`. -/
def worldBytes : ByteBuffer := [119, 111, 114, 108, 100]

/-- The path `"mem://ui/title.txt"` of the tests. -/
def titlePath : String := "mem://ui/title.txt"

/-- Pipeline of the tests: the text decoder registered in an empty registry, and a
memory source holding the given files. -/
def testPipeline (textType : AssetType) (files : List (String × ByteBuffer)) : AssetPipeline :=
  ⟨MemoryAssetSource files, (LoaderRegistry.empty.Register (some (TextLoader textType))).2⟩

/-- Manager of the tests: fresh storage and lifetime tracker, no statistics, no
watcher. -/
def testManager (c : AssetCatalog) (textType : AssetType) (files : List (String × ByteBuffer)) :
    AssetManager :=
  AssetManager.new c (testPipeline textType files) AssetStorage.empty AssetLifetime.empty ⟨0⟩
    none none

/-- Request of the test "sync load -> cache hit": synchronous, override path, type
hint `text`. -/
def testRequest (textType : AssetType) : AssetRequest :=
  { AssetRequest.Default with
    sync := SyncWith.Sync
    overridePath := titlePath
    useTypeHint := true
    expectedType := textType }

/-- A catalog with the single entry `id ↦ (type, path)`. -/
def singleCatalog (id : AssetId) (t : AssetType) (path : String) : AssetCatalog :=
  ⟨fun i => if i = id then some ⟨id, t, path, path⟩ else none⟩

/-- A storage with the single record `r`, stored under its own identifier. -/
def singleStorage (r : AssetRecord) : AssetStorage :=
  AssetStorage.empty.put r.id r

/-- A `Ready` text record for identifier 1 with the given generation and reference
count, holding the given bytes as text. -/
def readyRecord (generation refCount : Nat) (content : ByteBuffer) : AssetRecord :=
  ⟨⟨1⟩, ⟨7⟩, titlePath, AssetState.Ready, generation,
    AnyAsset.FromShared (Payload.text ⟨content⟩), AssetError.empty, refCount⟩

/-- Manager state in which identifier 1 is a `Ready` text asset holding `content`,
with the given generation and reference count, last loaded at frame 0, while
the byte source holds `bytes` at `titlePath`. -/
def readyManager (generation refCount : Nat) (content bytes : ByteBuffer) : AssetManager :=
  { testManager (singleCatalog ⟨1⟩ ⟨7⟩ titlePath) ⟨7⟩ [(titlePath, bytes)] with
    storage := singleStorage (readyRecord generation refCount content)
    lifetime := AssetLifetime.empty.OnLoaded ⟨1⟩ 0 }

/-- Synchronous reload request. -/
def reloadRequest : AssetRequest := { AssetRequest.Reload with sync := SyncWith.Sync }

/-- Catalog of the scenarios: identifier 1 is a text asset at `titlePath`. -/
def titleCatalog : AssetCatalog := singleCatalog ⟨1⟩ ⟨7⟩ titlePath

/-- Fresh manager of the scenarios, with `"hello"` stored at `titlePath`. -/
def freshManager : AssetManager := testManager titleCatalog ⟨7⟩ [(titlePath, helloBytes)]

/-- Scenario "eviction followed by a new load": load, release the handle, let
frames pass, evict, replace the backing bytes by `"world"`, load again. -/
def evictThenLoad : List Op :=
  [Op.Load ⟨1⟩ AssetRequest.Default, Op.Release (AssetHandle.Make ⟨1⟩ 1), Op.BeginFrame 5,
    Op.EvictIfPossible ⟨1⟩, Op.env titleCatalog (testPipeline ⟨7⟩ [(titlePath, worldBytes)]) none,
    Op.Load ⟨1⟩ AssetRequest.Default]

/-- Scenario "queued job": an asynchronous load is queued, a synchronous load makes
the record `Ready`, the backing bytes are replaced by `"world"`, and `Update`
drains the queued job. -/
def queuedJobAfterLoad : List Op :=
  [Op.Load ⟨1⟩ { AssetRequest.Default with sync := SyncWith.Async },
    Op.Load ⟨1⟩ AssetRequest.Default,
    Op.env titleCatalog (testPipeline ⟨7⟩ [(titlePath, worldBytes)]) none, Op.Update]

/-- Number of reload jobs for identifier `i` in a queue. -/
def reloadJobs (q : List PendingLoad) (i : AssetId) : Nat :=
  (q.filter (fun j => decide (j.id = i) && j.req.reload)).length

/-- The circumstances under which operation `op` can have advanced the generation
of the stored record `r` of identifier `i` by `k` steps: a synchronous reload
`Load` of that identifier on a `Ready` record, resolved and with a successful
pipeline load (one step), or an `Update` that drained at most
`maxLoadsPerFrame` jobs, `k` of them reload jobs queued for `i`. -/
def AdvancedBy (m : AssetManager) (i : AssetId) (r : AssetRecord) (k : Nat) : Op → Prop
  | Op.Load id req =>
    k = 1 ∧ i = id ∧ req.reload = true ∧ req.sync = SyncWith.Sync ∧
      r.state = AssetState.Ready ∧
      ∃ e a st, (m.ResolveEntry_ id req).1 = Except.ok e ∧
        (m.pipeline.Load ⟨r.id, e.type, e.resolvedPath, req, st, m.frame⟩).1 = Except.ok a
  | Op.Update =>
    k ≤ m.opt.maxLoadsPerFrame ∧
      k ≤ reloadJobs (if m.opt.enableHotReload = true ∧ m.watcher.isSome = true then
        m.ProcessHotReload_.queue else m.queue) i
  | _ => False

/-- No stored record is in state `Unloaded`. -/
def NoUnloadedRecord (m : AssetManager) : Prop :=
  ∀ (i : AssetId) (r : AssetRecord), m.storage.Find i = some r → r.state ≠ AssetState.Unloaded

/-- Identifiers of the queued jobs, front of the queue first. -/
def queueIds (m : AssetManager) : List AssetId := m.queue.map PendingLoad.id

/-- The queue holds at most one job per identifier, and the dedup set `queued_` is
exactly the set of identifiers that have a job in the queue. -/
def QueueInv (m : AssetManager) : Prop :=
  (queueIds m).Nodup ∧ ∀ i : AssetId, i ∈ m.queued ↔ i ∈ queueIds m

/-- Every stored record in state `Loading` has its identifier in `queued_`. -/
def LoadingQueued (m : AssetManager) : Prop :=
  ∀ (i : AssetId) (r : AssetRecord), m.storage.Find i = some r →
    r.state = AssetState.Loading → i ∈ m.queued

/-- Manager after the loop body of `ProcessQueue_` ran for the given jobs in order. -/
def drainJobs (m : AssetManager) (jobs : List PendingLoad) : AssetManager :=
  jobs.foldl AssetManager.ProcessJob_ m

/-- The dedup set after the given jobs were popped. -/
def eraseJobs (s : Finset AssetId) (jobs : List PendingLoad) : Finset AssetId :=
  jobs.foldl (fun acc j => acc.erase j.id) s

/-- Asynchronous reload request with the given fallback. -/
def asyncReloadRequest (fb : Fallback) : AssetRequest :=
  { AssetRequest.Reload with sync := SyncWith.Async, fallback := fb }

/-- Scenario "asynchronous reload": a synchronous load makes the record `Ready`
with `"hello"`, an asynchronous reload is requested through `Load`, the
backing bytes are replaced by `"world"`, and `Update` drains the queued job. -/
def asyncReloadDrained : List Op :=
  [Op.Load ⟨1⟩ AssetRequest.Default, Op.Load ⟨1⟩ (asyncReloadRequest Fallback.None),
    Op.env titleCatalog (testPipeline ⟨7⟩ [(titlePath, worldBytes)]) none, Op.Update]

/-- Scenario "asynchronous reload fails": a synchronous load makes the record
`Ready` with `"hello"`, an asynchronous keep-old reload is requested through
`Load`, the backing file disappears, and `Update` drains the queued job. -/
def asyncReloadFailed : List Op :=
  [Op.Load ⟨1⟩ AssetRequest.Default, Op.Load ⟨1⟩ (asyncReloadRequest Fallback.KeepOldIfAny),
    Op.env titleCatalog (testPipeline ⟨7⟩ []) none, Op.Update]

/-- Scenario "hot reload fails": a synchronous load makes the record `Ready` with
`"hello"`, hot reload is enabled with keep-old, the backing file disappears
and the watcher reports a change of identifier 1, and `Update` polls the
watcher and drains the reload job. -/
def hotReloadFailed : List Op :=
  [Op.Load ⟨1⟩ AssetRequest.Default, Op.SetOptions ⟨2, true, true⟩,
    Op.env titleCatalog (testPipeline ⟨7⟩ []) (some ⟨[], [⟨⟨1⟩⟩]⟩), Op.Update]

/-- Catalog with three text assets, identifiers 1, 2 and 3. -/
def threeCatalog : AssetCatalog :=
  ⟨fun i =>
    if i = ⟨1⟩ then some ⟨⟨1⟩, ⟨7⟩, "mem://a.txt", "mem://a.txt"⟩
    else if i = ⟨2⟩ then some ⟨⟨2⟩, ⟨7⟩, "mem://b.txt", "mem://b.txt"⟩
    else if i = ⟨3⟩ then some ⟨⟨3⟩, ⟨7⟩, "mem://c.txt", "mem://c.txt"⟩
    else none⟩

/-- Fresh manager over `threeCatalog`, with default options (`maxLoadsPerFrame`
is 2, hot reload disabled) and the three files in the memory source. -/
def threeManager : AssetManager :=
  testManager threeCatalog ⟨7⟩
    [("mem://a.txt", helloBytes), ("mem://b.txt", worldBytes), ("mem://c.txt", helloBytes)]

/-- Asynchronous loads of the three assets, in the order 1, 2, 3. -/
def threeAsyncLoads : List Op :=
  [Op.Load ⟨1⟩ { AssetRequest.Default with sync := SyncWith.Async },
    Op.Load ⟨2⟩ { AssetRequest.Default with sync := SyncWith.Async },
    Op.Load ⟨3⟩ { AssetRequest.Default with sync := SyncWith.Async }]

/-- Registry after the given `Register` calls, first call first, starting from a
default-constructed registry; failed calls leave the registry as it is. -/
def registerAll (loaders : List (Option IAssetLoader)) : LoaderRegistry :=
  loaders.foldl (fun r l => (r.Register l).2) LoaderRegistry.empty

/-- A decoder of type 7 that reads the `statistics` pointer of the context it is
handed: it decodes like the text decoder when no collaborator is attached and
reports `InternalError` otherwise. -/
def statisticsProbe : IAssetLoader :=
  ⟨⟨7⟩, fun bytes ctx =>
    match ctx.statistics with
    | none => TextLoader.Load bytes ctx
    | some _ =>
      Except.error (AssetError.Make AssetErrorCode.InternalError "probe: statistics attached" "")⟩

/-- Pipeline over the memory source holding `"hello"` at `titlePath`, with
`statisticsProbe` as the registered decoder of type 7. -/
def probePipeline : AssetPipeline :=
  ⟨MemoryAssetSource [(titlePath, helloBytes)],
    (LoaderRegistry.empty.Register (some statisticsProbe)).2⟩

/-- Load context for identifier 1, type 7, at `titlePath`, frame 0, with the given
statistics collaborator. -/
def titleContext (st : Option AssetStatistics) : LoadContext :=
  ⟨⟨1⟩, ⟨7⟩, titlePath, AssetRequest.Default, st, 0⟩

/-- Scenario "hot reload": a synchronous load makes the record `Ready` with
`"hello"`, hot reload is enabled, the backing bytes become `"world"` and the
watcher reports a change of identifier 1, and `Update` is called once. -/
def hotReloadOnce : List Op :=
  [Op.Load ⟨1⟩ AssetRequest.Default, Op.SetOptions ⟨2, true, true⟩,
    Op.env titleCatalog (testPipeline ⟨7⟩ [(titlePath, worldBytes)]) (some ⟨[], [⟨⟨1⟩⟩]⟩),
    Op.Update]

/-- Every stored record in state `Failed` or `Unloaded` holds no payload. -/
def FailedEmpty (m : AssetManager) : Prop :=
  ∀ (i : AssetId) (r : AssetRecord), m.storage.Find i = some r →
    r.state = AssetState.Failed ∨ r.state = AssetState.Unloaded → r.asset = AnyAsset.none

/-- The bytes of the PPM header `"P6\n1 1\n255\n"`: binary format, one pixel, the
last byte being the single whitespace after the maximum value. -/
def ppmHeader1x1 : ByteBuffer := [80, 54, 10, 49, 32, 49, 10, 50, 53, 53, 10]

/-- The bytes of `"P3 65536 32768 255 0"`. -/
def ppmHugeAscii : ByteBuffer :=
  [80, 51, 32, 54, 53, 53, 51, 54, 32, 51, 50, 55, 54, 56, 32, 50, 53, 53, 32, 48]

/-- A 48-byte WAV file: `RIFF`/`WAVE`, a 16-byte `fmt ` chunk (PCM, mono,
44100 Hz, 16 bits) and a `data` chunk with the two samples `1` and `-1`. -/
def wavTwoSamples : ByteBuffer :=
  [82, 73, 70, 70, 40, 0, 0, 0, 87, 65, 86, 69,
    102, 109, 116, 32, 16, 0, 0, 0, 1, 0, 1, 0, 68, 172, 0, 0, 136, 88, 1, 0, 2, 0, 16, 0,
    100, 97, 116, 97, 4, 0, 0, 0, 1, 0, 255, 255]

/-- The format fields are still the initial zeros or were read from a `fmt ` chunk
of at least 16 bytes that lies inside the input, with its header at offset `c`. -/
def SoundLoader.FmtFrom (bytes : ByteBuffer) (f : SoundLoader.WavFields) : Prop :=
  (f.audioFormat = 0 ∧ f.channels = 0 ∧ f.sampleRate = 0 ∧ f.bitsPerSample = 0) ∨
    ∃ c size : Nat, SoundLoader.tagAt bytes c SoundLoader.fmtTag = some true ∧
      SoundLoader.ReadU32LE bytes (c + 4) = some size ∧ 16 ≤ size ∧
      c + 8 + size ≤ bytes.length ∧
      SoundLoader.ReadU16LE bytes (c + 8 + 0) = some f.audioFormat ∧
      SoundLoader.ReadU16LE bytes (c + 8 + 2) = some f.channels ∧
      SoundLoader.ReadU32LE bytes (c + 8 + 4) = some f.sampleRate ∧
      SoundLoader.ReadU16LE bytes (c + 8 + 14) = some f.bitsPerSample

/-- The data pointer is still null or points at the content of a `data` chunk that
lies inside the input, with its header at offset `c` and its size in
`dataSize`. -/
def SoundLoader.DataFrom (bytes : ByteBuffer) (f : SoundLoader.WavFields) : Prop :=
  f.dataPtr = none ∨
    ∃ c : Nat, f.dataPtr = some (c + 8) ∧
      SoundLoader.tagAt bytes c SoundLoader.dataTag = some true ∧
      SoundLoader.ReadU32LE bytes (c + 4) = some f.dataSize ∧
      c + 8 + f.dataSize ≤ bytes.length

/-- The request `req` with its `keepAliveFramesOverride` field set to `k`: the
requests that differ from `req` in that field only. -/
def withKeepAlive (req : AssetRequest) (k : Nat) : AssetRequest :=
  { req with keepAliveFramesOverride := k }

/-- The outcome of the pipeline (result and statistics reports) does not depend on
the `keepAliveFramesOverride` of the request the context points to. -/
def KeepAliveBlind (p : AssetPipeline) : Prop :=
  ∀ (ctx : LoadContext) (k : Nat),
    p.Load { ctx with request := withKeepAlive ctx.request k } = p.Load ctx

/-- An operation that, when it replaces the collaborators, installs a pipeline
whose outcome does not depend on `keepAliveFramesOverride`. -/
def OpBlind : Op → Prop
  | Op.env _ p _ => KeepAliveBlind p
  | _ => True

/-- The manager with the `keepAliveFramesOverride` of every queued request set to
zero; all other state is kept. -/
def forgetKeepAlive (m : AssetManager) : AssetManager :=
  { m with queue := m.queue.map (fun j => ⟨j.id, withKeepAlive j.req 0⟩) }

/-- A decoder of type 7 that reads the request the context points to: it decodes
like the text decoder when `keepAliveFramesOverride` is zero and reports
`InternalError` otherwise. -/
def keepAliveProbe : IAssetLoader :=
  ⟨⟨7⟩, fun bytes ctx =>
    if ctx.request.keepAliveFramesOverride = 0 then TextLoader.Load bytes ctx
    else
      Except.error (AssetError.Make AssetErrorCode.InternalError "probe: keep-alive set" "")⟩

/-- Manager over the title catalog and the memory source holding `"hello"` at
`titlePath`, with `keepAliveProbe` as the registered decoder of type 7. -/
def keepAliveManager : AssetManager :=
  AssetManager.new titleCatalog
    ⟨MemoryAssetSource [(titlePath, helloBytes)],
      (LoaderRegistry.empty.Register (some keepAliveProbe)).2⟩
    AssetStorage.empty AssetLifetime.empty ⟨0⟩ none none

/-- Manager state of the scenarios after the record of identifier 1, `Ready` with
the given generation and reference count, was reset with
`AssetRecord::ResetToUnloaded()` in the store the manager is constructed
over: the record is `Unloaded` and without payload, and keeps its generation
and its reference count. -/
def resetManager (generation refCount : Nat) : AssetManager :=
  { readyManager generation refCount helloBytes helloBytes with
    storage := singleStorage (readyRecord generation refCount helloBytes).ResetToUnloaded }

open AssetManager

/-! ## Auxiliary lemmas -/

section Aux

variable (m : AssetManager) (id : AssetId) (req : AssetRequest)

@[simp] theorem stat_catalog (ev : StatEvent) : (m.stat ev).catalog = m.catalog := rfl
@[simp] theorem stat_pipeline (ev : StatEvent) : (m.stat ev).pipeline = m.pipeline := rfl
@[simp] theorem stat_storage (ev : StatEvent) : (m.stat ev).storage = m.storage := rfl
@[simp] theorem stat_lifetime (ev : StatEvent) : (m.stat ev).lifetime = m.lifetime := rfl
@[simp] theorem stat_cachePolicy (ev : StatEvent) : (m.stat ev).cachePolicy = m.cachePolicy := rfl
@[simp] theorem stat_watcher (ev : StatEvent) : (m.stat ev).watcher = m.watcher := rfl
@[simp] theorem stat_opt (ev : StatEvent) : (m.stat ev).opt = m.opt := rfl
@[simp] theorem stat_frame (ev : StatEvent) : (m.stat ev).frame = m.frame := rfl
@[simp] theorem stat_queue (ev : StatEvent) : (m.stat ev).queue = m.queue := rfl
@[simp] theorem stat_stats (ev : StatEvent) : (m.stat ev).stats = statHook m.stats ev := rfl
@[simp] theorem stat_queued (ev : StatEvent) : (m.stat ev).queued = m.queued := rfl

/-- The outcome of `ResolveEntry_` does not depend on the statistics collaborator. -/
@[simp] theorem resolve_stat_fst (ev : StatEvent) :
    ((m.stat ev).ResolveEntry_ id req).1 = (m.ResolveEntry_ id req).1 := by
  unfold ResolveEntry_
  simp only [stat_catalog]
  split <;> [rfl; (split_ifs <;> rfl)]

/-- A successful resolution yields a non-empty path. -/
theorem resolve_ok_path {e : ResolvedEntry} (h : (m.ResolveEntry_ id req).1 = Except.ok e) :
    e.resolvedPath ≠ "" := by
  unfold ResolveEntry_ at h
  split at h
  · simp at h
  · split_ifs at h <;> first
      | (exfalso; simpa using h)
      | (simp only [Except.ok.injEq] at h; subst h; assumption)

end Aux

section LoadPaths

variable (m : AssetManager) (id : AssetId) (req : AssetRequest)

/-- Writing a record under an identifier overrides what `GetOrCreate` put there. -/
theorem getOrCreate_put (s : AssetStorage) (t : AssetType) (p : String) (r : AssetRecord) :
    (s.GetOrCreate id t p).2.put id r = s.put id r := by
  unfold AssetStorage.GetOrCreate
  cases h : s.map id <;> simp [AssetStorage.put]

/-- The record `GetOrCreate` hands out: the stored one, or a fresh one. -/
theorem getOrCreate_fst (s : AssetStorage) (t : AssetType) (p : String) :
    (s.GetOrCreate id t p).1 = (s.Find id).getD (AssetStorage.fresh id t p) := by
  unfold AssetStorage.GetOrCreate AssetStorage.Find
  cases h : s.map id <;> simp

theorem doLoad_ok (r : AssetRecord) (e : ResolvedEntry) (a : AnyAsset)
    (hp : PipelineGives m r.id e req (Except.ok a)) (st : Option AssetStatistics) :
    (DoLoadSync_ { m with stats := st } r e req).1 = Except.ok () ∧
      (DoLoadSync_ { m with stats := st } r e req).2.1 = loadedRecord r e req a := by
  unfold PipelineGives at hp
  simp [DoLoadSync_, AssetRecord.MarkLoading, hp, loadedRecord, AssetRecord.SetReady,
    AssetRecord.IsReady, AssetRequest.IsReload]

theorem doLoad_err_keep (r : AssetRecord) (e : ResolvedEntry) (err : AssetError)
    (hp : PipelineGives m r.id e req (Except.error err))
    (hk : req.fallback = Fallback.KeepOldIfAny) (hr : r.state = AssetState.Ready)
    (st : Option AssetStatistics) :
    (DoLoadSync_ { m with stats := st } r e req).1 = Except.ok () ∧
      (DoLoadSync_ { m with stats := st } r e req).2.1 = { r with error := err } := by
  unfold PipelineGives at hp
  simp [DoLoadSync_, AssetRecord.MarkLoading, hp, AssetRecord.IsReady, hk, hr]

theorem doLoad_err_fail (r : AssetRecord) (e : ResolvedEntry) (err : AssetError)
    (hp : PipelineGives m r.id e req (Except.error err))
    (hk : ¬(req.fallback = Fallback.KeepOldIfAny ∧ r.state = AssetState.Ready))
    (st : Option AssetStatistics) :
    (DoLoadSync_ { m with stats := st } r e req).1 = Except.error err ∧
      (DoLoadSync_ { m with stats := st } r e req).2.1 = r.SetFailed err := by
  unfold PipelineGives at hp
  simp [DoLoadSync_, AssetRecord.MarkLoading, hp, AssetRecord.IsReady, hk, AssetRecord.SetFailed,
    AnyAsset.Reset]

/-- Statistics after a successful resolution. -/
theorem resolve_ok_snd {e : ResolvedEntry} (h : (m.ResolveEntry_ id req).1 = Except.ok e) :
    (m.ResolveEntry_ id req).2 = statHook m.stats StatEvent.CatalogLookup := by
  unfold ResolveEntry_ at h ⊢
  cases hc : m.catalog.Find id with
  | none => simp [hc] at h
  | some entry =>
    simp only [hc] at h ⊢
    split_ifs at h ⊢ <;> rfl

/-- Load whose resolution fails: the error is returned and only the statistics change. -/
theorem load_resolve_error {err : AssetError}
    (h : (m.ResolveEntry_ id req).1 = Except.error err) :
    (m.Load id req).1 = Except.error err ∧
      (m.Load id req).2 = { m with stats := (m.Load id req).2.stats } := by
  simp [Load, h]

/-- Cache hit: a `Ready` record and no reload request. -/
theorem load_cache_hit {e : ResolvedEntry} {rcd : AssetRecord}
    (hres : (m.ResolveEntry_ id req).1 = Except.ok e)
    (hrec : m.storage.Find id = some rcd) (hready : rcd.state = AssetState.Ready)
    (hnr : req.reload = false) :
    m.Load id req =
      (Except.ok (AssetHandle.Make id rcd.generation),
        { m with
          stats := statHook (statHook (statHook m.stats StatEvent.LoadRequest)
            StatEvent.CatalogLookup) (StatEvent.CacheHit id)
          lifetime := m.lifetime.Touch id m.frame
          storage := m.storage.put id { rcd with refCount := (rcd.refCount + 1) % U32 } }) := by
  have hsnd := resolve_ok_snd (m.stat StatEvent.LoadRequest) id req (e := e) (by simpa using hres)
  simp [Load, hres, hsnd, getOrCreate_fst, getOrCreate_put, hrec, AssetRecord.IsReady, hready,
    AssetRequest.IsReload, hnr]

/-- Asynchronous load that is not a cache hit. -/
theorem load_async {e : ResolvedEntry}
    (hres : (m.ResolveEntry_ id req).1 = Except.ok e)
    (hmiss : (workRecord m id e).state = AssetState.Ready → req.reload = true)
    (hasync : req.sync = SyncWith.Async) :
    (m.Load id req).1 = Except.ok (AssetHandle.Make id (workRecord m id e).generation) ∧
      (m.Load id req).2.storage =
        m.storage.put id
          { workRecord m id e with
            state := AssetState.Loading
            refCount := ((workRecord m id e).refCount + 1) % U32 } ∧
      (m.Load id req).2.lifetime = (if req.pin = true then m.lifetime.Pin id else m.lifetime) ∧
      (m.Load id req).2.queue =
        (if (workRecord m id e).state = AssetState.Loading then m.queue
          else (m.EnqueueLoad_ id req).queue) ∧
      (m.Load id req).2.queued =
        (if (workRecord m id e).state = AssetState.Loading then m.queued
          else (m.EnqueueLoad_ id req).queued) := by
  have hw : (m.storage.GetOrCreate id e.type e.resolvedPath).1 = workRecord m id e :=
    getOrCreate_fst id m.storage e.type e.resolvedPath
  generalize workRecord m id e = w at hw hmiss ⊢
  have hhit : ¬(w.state = AssetState.Ready ∧ req.reload = false) := by
    intro h; have := hmiss h.1; simp [h.2] at this
  by_cases hl : w.state = AssetState.Loading
  · simp [Load, hres, hw, getOrCreate_put, AssetRecord.IsReady, AssetRequest.IsReload,
      AssetRequest.IsAsync, hasync, AssetRecord.IsLoading, hhit, hl]
  · simp [Load, hres, hw, getOrCreate_put, AssetRecord.IsReady, AssetRequest.IsReload,
      AssetRequest.IsAsync, hasync, AssetRecord.IsLoading, hhit, hl, AssetRecord.MarkLoading]

/-- Synchronous load that is not a cache hit and whose pipeline load succeeds. -/
theorem load_sync_ok {e : ResolvedEntry} {a : AnyAsset}
    (hres : (m.ResolveEntry_ id req).1 = Except.ok e)
    (hmiss : (workRecord m id e).state = AssetState.Ready → req.reload = true)
    (hsync : req.sync = SyncWith.Sync)
    (hpipe : PipelineGives m (workRecord m id e).id e req (Except.ok a)) :
    (m.Load id req).1 =
        Except.ok (AssetHandle.Make id (loadedRecord (workRecord m id e) e req a).generation) ∧
      (m.Load id req).2.storage =
        m.storage.put id
          { loadedRecord (workRecord m id e) e req a with
            refCount := ((workRecord m id e).refCount + 1) % U32 } ∧
      (m.Load id req).2.lifetime =
        (if req.pin = true then m.lifetime.Pin id else m.lifetime).OnLoaded id m.frame ∧
      (m.Load id req).2.queue = m.queue ∧ (m.Load id req).2.queued = m.queued := by
  have hw : (m.storage.GetOrCreate id e.type e.resolvedPath).1 = workRecord m id e :=
    getOrCreate_fst id m.storage e.type e.resolvedPath
  generalize workRecord m id e = w at hw hmiss hpipe ⊢
  have hhit : ¬(w.state = AssetState.Ready ∧ req.reload = false) := by
    intro h; have := hmiss h.1; simp [h.2] at this
  simp [Load, hres, hw, getOrCreate_put, AssetRecord.IsReady, AssetRequest.IsReload,
    AssetRequest.IsAsync, hsync, hhit, fun st => (doLoad_ok m req w e a hpipe st).1,
    fun st => (doLoad_ok m req w e a hpipe st).2, loadedRecord]

/-- Synchronous load whose pipeline load fails and is recovered by the keep-old
fallback on a record that was `Ready`. -/
theorem load_sync_err_keep {e : ResolvedEntry} {err : AssetError} {rcd : AssetRecord}
    (hres : (m.ResolveEntry_ id req).1 = Except.ok e)
    (hrec : m.storage.Find id = some rcd) (hready : rcd.state = AssetState.Ready)
    (hreload : req.reload = true) (hsync : req.sync = SyncWith.Sync)
    (hk : req.fallback = Fallback.KeepOldIfAny)
    (hpipe : PipelineGives m rcd.id e req (Except.error err)) :
    (m.Load id req).1 = Except.ok (AssetHandle.Make id rcd.generation) ∧
      (m.Load id req).2.storage =
        m.storage.put id { rcd with error := err, refCount := (rcd.refCount + 1) % U32 } ∧
      (m.Load id req).2.lifetime =
        (if req.pin = true then m.lifetime.Pin id else m.lifetime).OnLoaded id m.frame ∧
      (m.Load id req).2.queue = m.queue ∧ (m.Load id req).2.queued = m.queued := by
  simp [Load, hres, getOrCreate_fst, getOrCreate_put, hrec, AssetRecord.IsReady,
    AssetRequest.IsReload, AssetRequest.IsAsync, hsync, hready, hreload,
    fun st => (doLoad_err_keep m req rcd e err hpipe hk hready st).1,
    fun st => (doLoad_err_keep m req rcd e err hpipe hk hready st).2]

/-- Synchronous load that is not a cache hit, whose pipeline load fails and is not
recovered. -/
theorem load_sync_err_fail {e : ResolvedEntry} {err : AssetError}
    (hres : (m.ResolveEntry_ id req).1 = Except.ok e)
    (hmiss : (workRecord m id e).state = AssetState.Ready → req.reload = true)
    (hsync : req.sync = SyncWith.Sync)
    (hk : ¬(req.fallback = Fallback.KeepOldIfAny ∧ (workRecord m id e).state = AssetState.Ready))
    (hpipe : PipelineGives m (workRecord m id e).id e req (Except.error err)) :
    (m.Load id req).1 = Except.error err ∧
      (m.Load id req).2.storage = m.storage.put id ((workRecord m id e).SetFailed err) ∧
      (m.Load id req).2.lifetime = (if req.pin = true then m.lifetime.Pin id else m.lifetime) ∧
      (m.Load id req).2.queue = m.queue ∧ (m.Load id req).2.queued = m.queued := by
  have hw : (m.storage.GetOrCreate id e.type e.resolvedPath).1 = workRecord m id e :=
    getOrCreate_fst id m.storage e.type e.resolvedPath
  generalize workRecord m id e = w at hw hmiss hpipe hk ⊢
  have hhit : ¬(w.state = AssetState.Ready ∧ req.reload = false) := by
    intro h; have := hmiss h.1; simp [h.2] at this
  simp [Load, hres, hw, getOrCreate_put, AssetRecord.IsReady, AssetRequest.IsReload,
    AssetRequest.IsAsync, hsync, hhit, fun st => (doLoad_err_fail m req w e err hpipe hk st).1,
    fun st => (doLoad_err_fail m req w e err hpipe hk st).2, AssetRecord.SetFailed]

end LoadPaths

section Generations

variable (m : AssetManager) (id : AssetId) (req : AssetRequest)

/-- What `DoLoadSync_` does to the record it is given: the identifier and the
reference count are kept, the state is never `Unloaded`, and the generation
is kept unless the request is a reload, the record was `Ready` and the
pipeline load succeeded, in which case it advances by one modulo `2^32`. -/
theorem doLoad_record (r : AssetRecord) (e : ResolvedEntry) :
    (m.DoLoadSync_ r e req).2.1.state ≠ AssetState.Unloaded ∧
      (m.DoLoadSync_ r e req).2.1.id = r.id ∧
      (m.DoLoadSync_ r e req).2.1.refCount = r.refCount ∧
      ((m.DoLoadSync_ r e req).2.1.generation = r.generation ∨
        ((m.DoLoadSync_ r e req).2.1.generation = (r.generation + 1) % U32 ∧
          req.reload = true ∧ r.state = AssetState.Ready ∧
          ∃ a, (m.pipeline.Load ⟨r.id, e.type, e.resolvedPath, req, m.stats, m.frame⟩).1 =
            Except.ok a)) := by
  unfold DoLoadSync_
  cases hp : (m.pipeline.Load ⟨r.id, e.type, e.resolvedPath, req, m.stats, m.frame⟩).1 with
  | error err =>
    by_cases hk : req.fallback = Fallback.KeepOldIfAny ∧ r.IsReady = true
    · simp [AssetRecord.MarkLoading, hp, hk]
    · simp [AssetRecord.MarkLoading, hp, hk, AssetRecord.SetFailed]
  | ok a =>
    by_cases hb : req.IsReload = true ∧ r.IsReady = true
    · simp [AssetRecord.MarkLoading, hp, hb, AssetRecord.SetReady]
      right
      simpa [AssetRequest.IsReload, AssetRecord.IsReady] using hb
    · simp [AssetRecord.MarkLoading, hp, hb, AssetRecord.SetReady]

/-- What `Load` does to the store: nothing, or it writes one record under `id`,
never `Unloaded`, whose generation is the one of the record worked on unless
the load was a synchronous reload of a `Ready` record whose pipeline load
succeeded. -/
theorem load_storage_cases :
    (m.Load id req).2.storage = m.storage ∨
      ∃ e r', (m.ResolveEntry_ id req).1 = Except.ok e ∧
        (m.Load id req).2.storage = m.storage.put id r' ∧
        r'.state ≠ AssetState.Unloaded ∧ r'.id = (workRecord m id e).id ∧
        (r'.generation = (workRecord m id e).generation ∨
          (r'.generation = ((workRecord m id e).generation + 1) % U32 ∧
            req.reload = true ∧ req.sync = SyncWith.Sync ∧
            (workRecord m id e).state = AssetState.Ready ∧
            ∃ a st, (m.pipeline.Load
              ⟨(workRecord m id e).id, e.type, e.resolvedPath, req, st, m.frame⟩).1 =
                Except.ok a)) := by
  cases hres : (m.ResolveEntry_ id req).1 with
  | error err =>
    left
    rw [(load_resolve_error m id req hres).2]
  | ok e =>
    right
    refine ⟨e, ?_⟩
    have hw : (m.storage.GetOrCreate id e.type e.resolvedPath).1 = workRecord m id e :=
      getOrCreate_fst id m.storage e.type e.resolvedPath
    generalize workRecord m id e = w at hw ⊢
    by_cases hhit : w.state = AssetState.Ready ∧ req.reload = false
    · refine ⟨{ w with refCount := (w.refCount + 1) % U32 }, rfl, ?_, ?_, rfl, Or.inl rfl⟩
      · simp [Load, hres, hw, getOrCreate_put, AssetRecord.IsReady, AssetRequest.IsReload, hhit]
      · simp [hhit.1]
    · by_cases hasync : req.sync = SyncWith.Async
      · by_cases hl : w.state = AssetState.Loading
        · refine ⟨{ w with refCount := (w.refCount + 1) % U32 }, rfl, ?_, ?_, rfl, Or.inl rfl⟩
          · simp [Load, hres, hw, getOrCreate_put, AssetRecord.IsReady, AssetRequest.IsReload,
              AssetRequest.IsAsync, hasync, AssetRecord.IsLoading, hhit, hl]
          · simp [hl]
        · refine ⟨{ w.MarkLoading with refCount := (w.refCount + 1) % U32 }, rfl, ?_, ?_, rfl,
            Or.inl rfl⟩
          · simp [Load, hres, hw, getOrCreate_put, AssetRecord.IsReady, AssetRequest.IsReload,
              AssetRequest.IsAsync, hasync, AssetRecord.IsLoading, hhit, hl]
          · simp [AssetRecord.MarkLoading]
      · have hsync : req.sync = SyncWith.Sync := by
          cases hs : req.sync <;> simp_all
        set st1 : Option AssetStatistics :=
          (if w.IsReady = false ∧ req.IsReload = false then
            statHook ((m.stat StatEvent.LoadRequest).ResolveEntry_ id req).2 StatEvent.CacheMiss
          else ((m.stat StatEvent.LoadRequest).ResolveEntry_ id req).2) with hst1
        obtain ⟨d1, d2, d3, d4⟩ := doLoad_record { m with stats := st1 } req w e
        cases hd : (DoLoadSync_ { m with stats := st1 } w e req).1 with
        | error err =>
          refine ⟨(DoLoadSync_ { m with stats := st1 } w e req).2.1, rfl, ?_, d1, d2, ?_⟩
          · simp only [Load, resolve_stat_fst, hres, hw, getOrCreate_put, ← hst1, hd]
            simp [AssetRecord.IsReady, AssetRequest.IsReload, AssetRequest.IsAsync, hsync, hhit]
            split_ifs <;> rfl
          · rcases d4 with d4 | ⟨g, hr, hrd, a, ha⟩
            · exact Or.inl d4
            · exact Or.inr ⟨g, hr, hsync, hrd, a, st1, ha⟩
        | ok u =>
          refine ⟨{ (DoLoadSync_ { m with stats := st1 } w e req).2.1 with
            refCount := ((DoLoadSync_ { m with stats := st1 } w e req).2.1.refCount + 1) % U32 },
            rfl, ?_, d1, d2, ?_⟩
          · simp only [Load, resolve_stat_fst, hres, hw, getOrCreate_put, ← hst1, hd]
            simp [AssetRecord.IsReady, AssetRequest.IsReload, AssetRequest.IsAsync, hsync, hhit]
          · rcases d4 with d4 | ⟨g, hr, hrd, a, ha⟩
            · exact Or.inl d4
            · exact Or.inr ⟨g, hr, hsync, hrd, a, st1, ha⟩

/-- What one drained job does to the store: nothing, or it writes one record under
the job's identifier, never `Unloaded`, whose generation is the one of the
record worked on unless the job was a reload of a `Ready` record whose
pipeline load succeeded. -/
theorem processJob_storage_cases (job : PendingLoad) :
    (m.ProcessJob_ job).storage = m.storage ∨
      ∃ r', (m.ProcessJob_ job).storage = m.storage.put job.id r' ∧
        r'.state ≠ AssetState.Unloaded ∧
        ((∃ r, m.storage.Find job.id = some r ∧ r'.generation = r.generation) ∨
          ∃ e, (m.ResolveEntry_ job.id job.req).1 = Except.ok e ∧
            (r'.generation = (workRecord m job.id e).generation ∨
              (r'.generation = ((workRecord m job.id e).generation + 1) % U32 ∧
                job.req.reload = true ∧ (workRecord m job.id e).state = AssetState.Ready ∧
                ∃ a st, (m.pipeline.Load
                  ⟨(workRecord m job.id e).id, e.type, e.resolvedPath, job.req, st, m.frame⟩).1 =
                    Except.ok a))) := by
  cases hres : (m.ResolveEntry_ job.id job.req).1 with
  | error err =>
    cases hf : m.storage.Find job.id with
    | none =>
      left
      simp [ProcessJob_, hres, hf]
    | some rcd =>
      right
      refine ⟨rcd.SetFailed err, ?_, ?_, Or.inl ⟨rcd, rfl, rfl⟩⟩
      · simp [ProcessJob_, hres, hf]
      · simp [AssetRecord.SetFailed]
  | ok e =>
    right
    have hw : (m.storage.GetOrCreate job.id e.type e.resolvedPath).1 = workRecord m job.id e :=
      getOrCreate_fst job.id m.storage e.type e.resolvedPath
    obtain ⟨d1, -, -, d4⟩ :=
      doLoad_record { m with stats := (m.ResolveEntry_ job.id job.req).2 } job.req
        (workRecord m job.id e) e
    refine ⟨(DoLoadSync_ { m with stats := (m.ResolveEntry_ job.id job.req).2 }
      (workRecord m job.id e) e job.req).2.1, ?_, d1, Or.inr ⟨e, rfl, ?_⟩⟩
    · simp [ProcessJob_, hres, hw, getOrCreate_put]
    · rcases d4 with d4 | ⟨g, hr, hrd, a, ha⟩
      · exact Or.inl d4
      · exact Or.inr ⟨g, hr, hrd, a, _, ha⟩

/-- Lookup after a write. -/
theorem find_put (s : AssetStorage) (i j : AssetId) (r : AssetRecord) :
    (s.put i r).Find j = if j = i then some r else s.Find j := by
  unfold AssetStorage.put AssetStorage.Find
  by_cases h : j = i
  · subst h; simp
  · simp [h]

/-- A load leaves every stored record's generation as it is, except that a
synchronous reload of a `Ready` record whose pipeline load succeeded advances
that record's generation by one modulo `2^32`; and no stored record is removed. -/
theorem load_generation (i : AssetId) (r : AssetRecord) (hr : m.storage.Find i = some r) :
    ∃ r', (m.Load id req).2.storage.Find i = some r' ∧
      (r'.generation = r.generation ∨
        (r'.generation = (r.generation + 1) % U32 ∧ i = id ∧ req.reload = true ∧
          req.sync = SyncWith.Sync ∧ r.state = AssetState.Ready ∧
          ∃ e a st, (m.ResolveEntry_ id req).1 = Except.ok e ∧
            (m.pipeline.Load ⟨r.id, e.type, e.resolvedPath, req, st, m.frame⟩).1 =
              Except.ok a)) := by
  rcases load_storage_cases m id req with h | ⟨e, r', hres, hst, -, -, hg⟩
  · exact ⟨r, by rw [h]; exact hr, Or.inl rfl⟩
  · by_cases hi : i = id
    · subst hi
      have hw : workRecord m i e = r := by simp [workRecord, hr]
      rw [hw] at hg
      refine ⟨r', by simp [hst, find_put], ?_⟩
      rcases hg with hg | ⟨g, h1, h2, h3, a, st, ha⟩
      · exact Or.inl hg
      · exact Or.inr ⟨g, rfl, h1, h2, h3, e, a, st, hres, ha⟩
    · exact ⟨r, by simp [hst, find_put, hi, hr], Or.inl rfl⟩

/-- One drained job leaves every stored record's generation as it is, except that
a reload job on a `Ready` record whose pipeline load succeeded advances that
record's generation by one modulo `2^32`; and no stored record is removed. -/
theorem processJob_generation (job : PendingLoad) (i : AssetId) (r : AssetRecord)
    (hr : m.storage.Find i = some r) :
    ∃ r', (m.ProcessJob_ job).storage.Find i = some r' ∧
      (r'.generation = r.generation ∨
        (r'.generation = (r.generation + 1) % U32 ∧ i = job.id ∧ job.req.reload = true ∧
          r.state = AssetState.Ready ∧
          ∃ e a st, (m.ResolveEntry_ job.id job.req).1 = Except.ok e ∧
            (m.pipeline.Load ⟨r.id, e.type, e.resolvedPath, job.req, st, m.frame⟩).1 =
              Except.ok a)) := by
  rcases processJob_storage_cases m job with h | ⟨r', hst, -, hg⟩
  · exact ⟨r, by rw [h]; exact hr, Or.inl rfl⟩
  · by_cases hi : i = job.id
    · subst hi
      refine ⟨r', by simp [hst, find_put], ?_⟩
      rcases hg with ⟨r0, h0, hg⟩ | ⟨e, hres, hg⟩
      · rw [hr] at h0
        cases h0
        exact Or.inl hg
      · have hw : workRecord m job.id e = r := by simp [workRecord, hr]
        rw [hw] at hg
        rcases hg with hg | ⟨g, h1, h3, a, st, ha⟩
        · exact Or.inl hg
        · exact Or.inr ⟨g, rfl, h1, h3, e, a, st, hres, ha⟩
    · exact ⟨r, by simp [hst, find_put, hi, hr], Or.inl rfl⟩

@[simp] theorem enqueue_storage : (m.EnqueueLoad_ id req).storage = m.storage := by
  unfold EnqueueLoad_; split_ifs <;> rfl

@[simp] theorem enqueue_opt : (m.EnqueueLoad_ id req).opt = m.opt := by
  unfold EnqueueLoad_; split_ifs <;> rfl

@[simp] theorem enqueue_frame : (m.EnqueueLoad_ id req).frame = m.frame := by
  unfold EnqueueLoad_; split_ifs <;> rfl

@[simp] theorem enqueue_pipeline : (m.EnqueueLoad_ id req).pipeline = m.pipeline := by
  unfold EnqueueLoad_; split_ifs <;> rfl

@[simp] theorem enqueue_catalog : (m.EnqueueLoad_ id req).catalog = m.catalog := by
  unfold EnqueueLoad_; split_ifs <;> rfl

theorem foldl_enqueue_keeps (l : List AssetChange) (acc : AssetManager) :
    (l.foldl (fun acc ch => acc.EnqueueLoad_ ch.id (hotReloadRequest acc.opt)) acc).storage =
        acc.storage ∧
      (l.foldl (fun acc ch => acc.EnqueueLoad_ ch.id (hotReloadRequest acc.opt)) acc).opt =
        acc.opt := by
  induction l generalizing acc with
  | nil => exact ⟨rfl, rfl⟩
  | cons c cs ih =>
    simp only [List.foldl_cons]
    obtain ⟨h1, h2⟩ := ih (acc.EnqueueLoad_ c.id (hotReloadRequest acc.opt))
    exact ⟨by rw [h1]; simp, by rw [h2]; simp⟩

/-- Hot-reload polling touches neither the store nor the options. -/
theorem hotReload_keeps :
    m.ProcessHotReload_.storage = m.storage ∧ m.ProcessHotReload_.opt = m.opt := by
  unfold ProcessHotReload_
  cases hw : m.watcher with
  | none => exact ⟨rfl, rfl⟩
  | some w =>
    cases hp : w.Poll.1 with
    | nil => simp only [hp]; trivial
    | cons c cs =>
      simp only [hp]
      exact foldl_enqueue_keeps (c :: cs) _

@[simp] theorem processJob_queue (job : PendingLoad) : (m.ProcessJob_ job).queue = m.queue := by
  cases hres : (m.ResolveEntry_ job.id job.req).1 with
  | error err => cases hf : m.storage.Find job.id <;> simp [ProcessJob_, hres, hf]
  | ok e => simp [ProcessJob_, hres]

theorem reloadJobs_cons (job : PendingLoad) (rest : List PendingLoad) (i : AssetId) :
    reloadJobs (job :: rest) i =
      (if job.id = i ∧ job.req.reload = true then 1 else 0) + reloadJobs rest i := by
  unfold reloadJobs
  by_cases h : job.id = i ∧ job.req.reload = true
  · simp [List.filter_cons, h.1, h.2]; omega
  · have : (decide (job.id = i) && job.req.reload) = false := by
      by_cases h1 : job.id = i
      · simp [h1] at h ⊢; exact h
      · simp [h1]
    simp [List.filter_cons, this, h]

/-- The drain loop removes no stored record and changes a record's generation only
by adding, modulo `2^32`, a number of steps bounded by the budget and by the
number of reload jobs queued for that identifier. -/
theorem loop_generation (budget : Nat) :
    ∀ (m : AssetManager) (i : AssetId) (r : AssetRecord), m.storage.Find i = some r →
      ∃ r', (ProcessQueueLoop_ budget m).storage.Find i = some r' ∧
        (r'.generation = r.generation ∨
          ∃ k, 0 < k ∧ k ≤ budget ∧ k ≤ reloadJobs m.queue i ∧
            r'.generation = (r.generation + k) % U32) := by
  induction budget with
  | zero =>
    intro m i r hr
    exact ⟨r, by simpa [ProcessQueueLoop_] using hr, Or.inl rfl⟩
  | succ b ih =>
    intro m i r hr
    cases hq : m.queue with
    | nil => exact ⟨r, by simpa [ProcessQueueLoop_, hq] using hr, Or.inl rfl⟩
    | cons job rest =>
      simp only [ProcessQueueLoop_, hq]
      obtain ⟨r1, hr1, hg1⟩ :=
        processJob_generation { m with queue := rest, queued := m.queued.erase job.id } job i r hr
      obtain ⟨r2, hr2, hg2⟩ := ih _ i r1 hr1
      refine ⟨r2, hr2, ?_⟩
      rw [processJob_queue] at hg2
      simp only [] at hg2
      rw [reloadJobs_cons]
      rcases hg1 with hg1 | ⟨hg1, hi, hre, -⟩
      · rcases hg2 with hg2 | ⟨k, hk0, hkb, hkq, hg2⟩
        · exact Or.inl (hg2.trans hg1)
        · exact Or.inr ⟨k, hk0, by omega, by omega, by rw [hg2, hg1]⟩
      · have hone : (if job.id = i ∧ job.req.reload = true then 1 else 0) = 1 := by
          simp [hi, hre]
        rw [hone]
        rcases hg2 with hg2 | ⟨k, hk0, hkb, hkq, hg2⟩
        · exact Or.inr ⟨1, by omega, by omega, by omega, by rw [hg2, hg1]⟩
        · refine Or.inr ⟨k + 1, by omega, by omega, by omega, ?_⟩
          rw [hg2, hg1]
          unfold U32
          omega

end Generations

section Invariant

variable (m : AssetManager)

/-- Acquire writes at most the reference count of the handle's record. -/
theorem acquire_storage_cases (h : AssetHandle) :
    (m.Acquire h).2.storage = m.storage ∨
      ∃ r, m.storage.Find h.id = some r ∧
        (m.Acquire h).2.storage =
          m.storage.put h.id { r with refCount := (r.refCount + 1) % U32 } := by
  unfold Acquire FindRecord_
  cases hf : m.storage.Find h.id with
  | none => left; rfl
  | some r =>
    by_cases hg : r.generation ≠ h.generation
    · left; simp [hg]
    · right; exact ⟨r, rfl, by simp [hg]⟩

/-- Release writes at most the reference count of the handle's record. -/
theorem release_storage_cases (h : AssetHandle) :
    (m.Release h).storage = m.storage ∨
      ∃ r, m.storage.Find h.id = some r ∧
        (m.Release h).storage = m.storage.put h.id { r with refCount := r.refCount - 1 } := by
  unfold Release FindRecord_
  cases hf : m.storage.Find h.id with
  | none => left; rfl
  | some r =>
    by_cases hg : r.generation ≠ h.generation
    · left; simp [hg]
    · by_cases hc : 0 < r.refCount
      · right; exact ⟨r, rfl, by simp [hg, hc]⟩
      · left; simp [hg, hc]

/-- Eviction either leaves the store as it is or erases the record of `id`. -/
theorem evict_storage_cases (id : AssetId) :
    (m.EvictIfPossible id).2.storage = m.storage ∨
      ((m.EvictIfPossible id).1 = true ∧
        (m.EvictIfPossible id).2.storage = ⟨Function.update m.storage.map id none⟩) := by
  unfold EvictIfPossible
  cases hf : m.storage.Find id with
  | none => left; rfl
  | some r =>
    by_cases he : m.cachePolicy.IsEvictable r m.lifetime m.frame = false
    · left; simp [he]
    · right
      have hm : m.storage.map id = some r := hf
      simp [he, AssetStorage.EraseIf, hm]

/-- The drain loop keeps the invariant that no stored record is `Unloaded`. -/
theorem loop_noUnloaded (budget : Nat) :
    ∀ m : AssetManager, NoUnloadedRecord m → NoUnloadedRecord (ProcessQueueLoop_ budget m) := by
  induction budget with
  | zero => intro m h; simpa [ProcessQueueLoop_] using h
  | succ b ih =>
    intro m h
    cases hq : m.queue with
    | nil => simpa [ProcessQueueLoop_, hq] using h
    | cons job rest =>
      simp only [ProcessQueueLoop_, hq]
      apply ih
      intro i r hr
      rcases processJob_storage_cases
        { m with queue := rest, queued := m.queued.erase job.id } job with hs | ⟨r', hs, hne, -⟩
      · rw [hs] at hr
        exact h i r hr
      · rw [hs, find_put] at hr
        by_cases hi : i = job.id
        · simp [hi] at hr
          subst hr
          exact hne
        · simp [hi] at hr
          exact h i r hr

/-- Every operation keeps the invariant that no stored record is `Unloaded`. -/
theorem run_noUnloaded (op : Op) (h : NoUnloadedRecord m) : NoUnloadedRecord (m.run op) := by
  cases op with
  | Load id req =>
    intro i r hr
    simp only [AssetManager.run] at hr
    rcases load_storage_cases m id req with hs | ⟨e, r', -, hs, hne, -, -⟩
    · rw [hs] at hr
      exact h i r hr
    · rw [hs, find_put] at hr
      by_cases hi : i = id
      · simp [hi] at hr
        subst hr
        exact hne
      · simp [hi] at hr
        exact h i r hr
  | Acquire hd =>
    intro i r hr
    simp only [AssetManager.run] at hr
    rcases acquire_storage_cases m hd with hs | ⟨r0, h0, hs⟩
    · rw [hs] at hr
      exact h i r hr
    · rw [hs, find_put] at hr
      by_cases hi : i = hd.id
      · simp [hi] at hr
        subst hr
        exact h hd.id r0 h0
      · simp [hi] at hr
        exact h i r hr
  | Release hd =>
    intro i r hr
    simp only [AssetManager.run] at hr
    rcases release_storage_cases m hd with hs | ⟨r0, h0, hs⟩
    · rw [hs] at hr
      exact h i r hr
    · rw [hs, find_put] at hr
      by_cases hi : i = hd.id
      · simp [hi] at hr
        subst hr
        exact h hd.id r0 h0
      · simp [hi] at hr
        exact h i r hr
  | Update =>
    have hq : ∀ m : AssetManager, NoUnloadedRecord m → NoUnloadedRecord m.ProcessQueue_ := by
      intro m hm
      unfold ProcessQueue_
      cases hq : m.queue with
      | nil => exact hm
      | cons j js => exact loop_noUnloaded _ m hm
    have hh : NoUnloadedRecord m.ProcessHotReload_ := by
      intro i r hr
      rw [(hotReload_keeps m).1] at hr
      exact h i r hr
    simp only [AssetManager.run, Update]
    split_ifs
    · exact hq _ hh
    · exact hq _ h
  | EvictIfPossible id =>
    intro i r hr
    simp only [AssetManager.run] at hr
    rcases evict_storage_cases m id with hs | ⟨-, hs⟩
    · rw [hs] at hr
      exact h i r hr
    · rw [hs] at hr
      by_cases hi : i = id
      · subst hi
        simp [AssetStorage.Find] at hr
      · simp [AssetStorage.Find, hi] at hr
        exact h i r hr
  | BeginFrame n => exact h
  | SetOptions o => exact h
  | Watch id path =>
    intro i r hr
    simp only [AssetManager.run, Watch] at hr
    cases hw : m.watcher <;> simp only [hw] at hr <;> exact h i r hr
  | Unwatch id =>
    intro i r hr
    simp only [AssetManager.run, Unwatch] at hr
    cases hw : m.watcher <;> simp only [hw] at hr <;> exact h i r hr
  | env c p w => exact h

/-- In every reachable state no stored record is `Unloaded`. -/
theorem reachable_noUnloaded {m : AssetManager} (h : Reachable m) : NoUnloadedRecord m := by
  induction h with
  | init c p l pol st w =>
    intro i r hr
    simp [AssetManager.new, AssetStorage.Find, AssetStorage.empty] at hr
  | step m op _ ih => exact run_noUnloaded m op ih

end Invariant

section UpdateGenerations

variable (m : AssetManager)

/-- An advanced generation differs from the previous one, also when the counter wraps. -/
theorem succ_mod_ne (g : Nat) : (g + 1) % U32 ≠ g := by
  unfold U32
  omega

/-- `Update` removes no stored record and changes a record's generation only by
adding, modulo `2^32`, a number of steps bounded by `maxLoadsPerFrame` and by
the number of reload jobs queued for that identifier once the watcher was
polled. -/
theorem update_generation (i : AssetId) (r : AssetRecord) (hr : m.storage.Find i = some r) :
    ∃ r', m.Update.storage.Find i = some r' ∧
      (r'.generation = r.generation ∨
        ∃ k, 0 < k ∧ k ≤ m.opt.maxLoadsPerFrame ∧
          k ≤ reloadJobs (if m.opt.enableHotReload = true ∧ m.watcher.isSome = true then
            m.ProcessHotReload_.queue else m.queue) i ∧
          r'.generation = (r.generation + k) % U32) := by
  have hq : ∀ m1 : AssetManager, m1.storage.Find i = some r →
      ∃ r', m1.ProcessQueue_.storage.Find i = some r' ∧
        (r'.generation = r.generation ∨
          ∃ k, 0 < k ∧ k ≤ m1.opt.maxLoadsPerFrame ∧ k ≤ reloadJobs m1.queue i ∧
            r'.generation = (r.generation + k) % U32) := by
    intro m1 h1
    unfold ProcessQueue_
    cases hq : m1.queue with
    | nil => exact ⟨r, h1, Or.inl rfl⟩
    | cons j js =>
      simp only []
      have := loop_generation m1.opt.maxLoadsPerFrame m1 i r h1
      rw [hq] at this
      exact this
  unfold Update
  by_cases hh : m.opt.enableHotReload = true ∧ m.watcher.isSome = true
  · simp only [hh, and_self, if_true]
    have h1 : m.ProcessHotReload_.storage.Find i = some r := by
      rw [(hotReload_keeps m).1]; exact hr
    have := hq m.ProcessHotReload_ h1
    rw [(hotReload_keeps m).2] at this
    exact this
  · simp only [hh, if_false]
    exact hq m hr

/-- A reload job drained on a `Ready` record whose pipeline load succeeds stores
the loaded record with the advanced generation. -/
theorem processJob_reload_ok (id : AssetId) (req : AssetRequest) {e : ResolvedEntry}
    {a : AnyAsset} {rcd : AssetRecord}
    (hres : (m.ResolveEntry_ id req).1 = Except.ok e)
    (hrec : m.storage.Find id = some rcd)
    (hpipe : PipelineGives m rcd.id e req (Except.ok a)) :
    (m.ProcessJob_ ⟨id, req⟩).storage = m.storage.put id (loadedRecord rcd e req a) := by
  simp [ProcessJob_, hres, getOrCreate_fst, getOrCreate_put, hrec,
    fun st => (doLoad_ok m req rcd e a hpipe st).2]

end UpdateGenerations

section ReachableStates

/-- Two managers with equal components are equal. -/
theorem manager_eq {a b : AssetManager} (h1 : a.catalog = b.catalog)
    (h2 : a.pipeline = b.pipeline) (h3 : a.storage = b.storage) (h4 : a.lifetime = b.lifetime)
    (h5 : a.cachePolicy = b.cachePolicy) (h6 : a.stats = b.stats) (h7 : a.watcher = b.watcher)
    (h8 : a.opt = b.opt) (h9 : a.frame = b.frame) (h10 : a.queue = b.queue)
    (h11 : a.queued = b.queued) : a = b := by
  cases a
  cases b
  simp_all

/-- Without a statistics collaborator the pipeline reports to nobody. -/
theorem pipeline_stats_none (p : AssetPipeline) (ctx : LoadContext)
    (h : ctx.statistics = none) : (p.Load ctx).2 = none := by
  unfold AssetPipeline.Load
  split_ifs
  · exact h
  · simp only [h, statHook, Option.map_none']
    split
    · rfl
    · split
      · rfl
      · split <;> rfl

/-- `Load` changes neither the collaborators nor the options nor the frame, and
attaches no statistics collaborator. -/
theorem load_env (m : AssetManager) (id : AssetId) (req : AssetRequest) :
    (m.Load id req).2.catalog = m.catalog ∧ (m.Load id req).2.pipeline = m.pipeline ∧
      (m.Load id req).2.cachePolicy = m.cachePolicy ∧ (m.Load id req).2.watcher = m.watcher ∧
      (m.Load id req).2.opt = m.opt ∧ (m.Load id req).2.frame = m.frame := by
  unfold Load
  simp only []
  repeat' (first | exact ⟨rfl, rfl, rfl, rfl, rfl, rfl⟩ | split)

@[simp] theorem statHook_none (ev : StatEvent) : statHook none ev = none := rfl

theorem resolve_stats_none (m : AssetManager) (id : AssetId) (req : AssetRequest)
    (h : m.stats = none) : (m.ResolveEntry_ id req).2 = none := by
  unfold ResolveEntry_
  rw [h]
  repeat' (first | rfl | split)

theorem doLoad_stats_none (m : AssetManager) (r : AssetRecord) (e : ResolvedEntry)
    (req : AssetRequest) (h : m.stats = none) : (m.DoLoadSync_ r e req).2.2 = none := by
  have hp : (m.pipeline.Load
      ⟨r.MarkLoading.id, e.type, e.resolvedPath, req, m.stats, m.frame⟩).2 = none :=
    pipeline_stats_none m.pipeline _ h
  unfold DoLoadSync_
  simp only [hp, statHook_none]
  repeat' (first | rfl | split)

/-- Without a statistics collaborator `Load` attaches none. -/
theorem load_stats_none (m : AssetManager) (id : AssetId) (req : AssetRequest)
    (h : m.stats = none) : (m.Load id req).2.stats = none := by
  have h1 : ((m.stat StatEvent.LoadRequest).ResolveEntry_ id req).2 = none :=
    resolve_stats_none _ id req (by simp [h])
  have h2 : ∀ r e, (DoLoadSync_ { m with stats := none } r e req).2.2 = none :=
    fun r e => doLoad_stats_none _ r e req rfl
  unfold Load
  simp only [h1, statHook_none, ite_self, h2]
  repeat' (first | rfl | split)

/-- The first load of the scenarios leads to the `Ready` state of generation 1. -/
theorem fresh_load_state :
    (freshManager.Load ⟨1⟩ AssetRequest.Default).2 = readyManager 1 1 helloBytes helloBytes := by
  obtain ⟨e1, e2, e3, e4, e5, e6⟩ := load_env freshManager ⟨1⟩ AssetRequest.Default
  have hs := load_stats_none freshManager ⟨1⟩ AssetRequest.Default rfl
  obtain ⟨-, s2, s3, s4, s5⟩ := load_sync_ok freshManager ⟨1⟩ AssetRequest.Default
    (e := ⟨⟨7⟩, titlePath⟩) (a := AnyAsset.FromShared (Payload.text ⟨helloBytes⟩)) rfl
    (by decide) rfl (fun _ => rfl)
  exact manager_eq e1 e2 (by rw [s2]; rfl) (by rw [s3]; rfl) e3 hs e4 e5 e6 s4 s5

/-- A cache hit in a `Ready` state of the scenarios only adds to the reference count. -/
theorem ready_cache_hit_state (g c : Nat) (content bytes : ByteBuffer) :
    ((readyManager g c content bytes).Load ⟨1⟩ AssetRequest.Default).2 =
      readyManager g ((c + 1) % U32) content bytes := by
  have hit : (readyManager g c content bytes).storage.Find ⟨1⟩ =
      some (readyRecord g c content) := rfl
  rw [load_cache_hit (readyManager g c content bytes) ⟨1⟩ AssetRequest.Default
    (e := ⟨⟨7⟩, titlePath⟩) rfl hit rfl rfl]
  apply manager_eq <;> try rfl
  · simp [readyManager, singleStorage, readyRecord, AssetStorage.put]
  · simp [readyManager, AssetLifetime.OnLoaded, AssetLifetime.Touch, AssetLifetime.empty,
      testManager, AssetManager.new]

/-- A successful synchronous reload in a `Ready` state of the scenarios advances the
generation and the reference count and stores the bytes of the source. -/
theorem ready_reload_state (g c : Nat) (content bytes : ByteBuffer)
    (hb : ∀ ctx, TextLoader.Load bytes ctx =
      Except.ok (AnyAsset.FromShared (Payload.text ⟨bytes⟩))) :
    ((readyManager g c content bytes).Load ⟨1⟩ reloadRequest).2 =
      readyManager ((g + 1) % U32) ((c + 1) % U32) bytes bytes := by
  obtain ⟨e1, e2, e3, e4, e5, e6⟩ := load_env (readyManager g c content bytes) ⟨1⟩ reloadRequest
  have hs := load_stats_none (readyManager g c content bytes) ⟨1⟩ reloadRequest rfl
  obtain ⟨-, s2, s3, s4, s5⟩ := load_sync_ok (readyManager g c content bytes) ⟨1⟩ reloadRequest
    (e := ⟨⟨7⟩, titlePath⟩) (a := AnyAsset.FromShared (Payload.text ⟨bytes⟩)) rfl
    (fun _ => rfl) rfl
    (by
      intro st
      show ((testPipeline ⟨7⟩ [(titlePath, bytes)]).Load _).1 = _
      simp [AssetPipeline.Load, testPipeline, LoadContext.HasPath, titlePath, LoaderRegistry.Find,
        LoaderRegistry.Register, LoaderRegistry.Key, TextLoader, LoaderRegistry.empty,
        MemoryAssetSource, List.lookup, hb])
  refine manager_eq e1 e2 ?_ ?_ e3 hs e4 e5 e6 s4 s5
  · rw [s2]
    simp [readyManager, singleStorage, readyRecord, AssetStorage.put, workRecord,
      AssetStorage.Find, AssetStorage.empty, loadedRecord, reloadRequest, AssetRequest.Reload,
      titlePath]
  · rw [s3]
    simp [readyManager, AssetLifetime.OnLoaded, AssetLifetime.Touch, AssetLifetime.empty,
      reloadRequest, AssetRequest.Reload, testManager, AssetManager.new]

/-- The `Ready` states of the scenarios with equal generation and reference count
`(1 + n) mod 2^32`, reached by `n` successful reloads after the first load. -/
theorem reachable_after_reloads (n : Nat) :
    Reachable (readyManager ((1 + n) % U32) ((1 + n) % U32) helloBytes helloBytes) := by
  induction n with
  | zero =>
    have h := Reachable.step freshManager (Op.Load ⟨1⟩ AssetRequest.Default)
      (Reachable.init _ _ _ _ _ _)
    simp only [AssetManager.run, fresh_load_state] at h
    exact h
  | succ k ih =>
    have h := Reachable.step _ (Op.Load ⟨1⟩ reloadRequest) ih
    simp only [AssetManager.run] at h
    rw [ready_reload_state _ _ helloBytes helloBytes (fun _ => rfl)] at h
    have e : ((1 + k) % U32 + 1) % U32 = (1 + (k + 1)) % U32 := by
      unfold U32
      omega
    rw [e] at h
    exact h

/-- The `Ready` states of the scenarios with generation 1 and reference count
`(1 + n) mod 2^32`, reached by `n` cache hits after the first load. -/
theorem reachable_after_hits (n : Nat) :
    Reachable (readyManager 1 ((1 + n) % U32) helloBytes helloBytes) := by
  induction n with
  | zero =>
    have h := Reachable.step freshManager (Op.Load ⟨1⟩ AssetRequest.Default)
      (Reachable.init _ _ _ _ _ _)
    simp only [AssetManager.run, fresh_load_state] at h
    exact h
  | succ k ih =>
    have h := Reachable.step _ (Op.Load ⟨1⟩ AssetRequest.Default) ih
    simp only [AssetManager.run] at h
    rw [ready_cache_hit_state] at h
    have e : ((1 + k) % U32 + 1) % U32 = (1 + (k + 1)) % U32 := by
      unfold U32
      omega
    rw [e] at h
    exact h

/-- Replacing the backing bytes of a scenario state is an operation on the
collaborators. -/
theorem reachable_replace_bytes (g c : Nat) (content bytes bytes2 : ByteBuffer)
    (h : Reachable (readyManager g c content bytes)) :
    Reachable (readyManager g c content bytes2) :=
  Reachable.step _
    (Op.env (singleCatalog ⟨1⟩ ⟨7⟩ titlePath) (testPipeline ⟨7⟩ [(titlePath, bytes2)]) none) h

/-- The state with generation and reference count `2^32 - 1` is reachable. -/
theorem reachable_wrap_generation (bytes : ByteBuffer) :
    Reachable (readyManager 4294967295 4294967295 helloBytes bytes) :=
  reachable_replace_bytes _ _ _ _ _ (reachable_after_reloads 4294967294)

/-- The state with generation 1 and reference count `2^32 - 1` is reachable. -/
theorem reachable_wrap_refCount :
    Reachable (readyManager 1 4294967295 helloBytes helloBytes) :=
  reachable_after_hits 4294967294

end ReachableStates

section RefCounts

variable (m : AssetManager) (id : AssetId) (req : AssetRequest)

/-- The record `DoLoadSync_` leaves is `Ready` or `Failed`, and `Failed` whenever
the call reports an error. -/
theorem doLoad_state (r : AssetRecord) (e : ResolvedEntry) :
    ((m.DoLoadSync_ r e req).2.1.state = AssetState.Ready ∨
        (m.DoLoadSync_ r e req).2.1.state = AssetState.Failed) ∧
      ∀ err, (m.DoLoadSync_ r e req).1 = Except.error err →
        (m.DoLoadSync_ r e req).2.1.state = AssetState.Failed := by
  unfold DoLoadSync_
  cases hp : (m.pipeline.Load ⟨r.id, e.type, e.resolvedPath, req, m.stats, m.frame⟩).1 with
  | error err =>
    by_cases hk : req.fallback = Fallback.KeepOldIfAny ∧ r.IsReady = true
    · simp [AssetRecord.MarkLoading, hp, hk]
    · simp [AssetRecord.MarkLoading, hp, hk, AssetRecord.SetFailed]
  | ok a => simp [AssetRecord.MarkLoading, hp, AssetRecord.SetReady]

/-- Result and reference count of `Load`: an error leaves the store as it is or
writes the worked record with its reference count unchanged; success writes
the worked record with its reference count advanced by one modulo `2^32` and
returns a handle of the written generation. -/
theorem load_refCount_cases :
    ((∃ err, (m.Load id req).1 = Except.error err) ∧
        ((m.Load id req).2.storage = m.storage ∨
          ∃ e r', (m.ResolveEntry_ id req).1 = Except.ok e ∧
            (m.Load id req).2.storage = m.storage.put id r' ∧
            r'.refCount = (workRecord m id e).refCount)) ∨
      ∃ e r', (m.ResolveEntry_ id req).1 = Except.ok e ∧
        (m.Load id req).1 = Except.ok (AssetHandle.Make id r'.generation) ∧
        (m.Load id req).2.storage = m.storage.put id r' ∧
        r'.refCount = ((workRecord m id e).refCount + 1) % U32 := by
  cases hres : (m.ResolveEntry_ id req).1 with
  | error err =>
    left
    obtain ⟨h1, h2⟩ := load_resolve_error m id req hres
    exact ⟨⟨err, h1⟩, Or.inl (by rw [h2])⟩
  | ok e =>
    have key : ∀ w : AssetRecord, (m.storage.GetOrCreate id e.type e.resolvedPath).1 = w →
        ((∃ err, (m.Load id req).1 = Except.error err) ∧
          ∃ r', (m.Load id req).2.storage = m.storage.put id r' ∧ r'.refCount = w.refCount) ∨
        ∃ r', (m.Load id req).1 = Except.ok (AssetHandle.Make id r'.generation) ∧
          (m.Load id req).2.storage = m.storage.put id r' ∧
          r'.refCount = (w.refCount + 1) % U32 := by
      intro w hw
      by_cases hhit : w.state = AssetState.Ready ∧ req.reload = false
      · right
        refine ⟨{ w with refCount := (w.refCount + 1) % U32 }, ?_, ?_, rfl⟩
        · simp [Load, hres, hw, AssetRecord.IsReady, AssetRequest.IsReload, hhit]
        · simp [Load, hres, hw, getOrCreate_put, AssetRecord.IsReady, AssetRequest.IsReload,
            hhit]
      · by_cases hasync : req.sync = SyncWith.Async
        · right
          by_cases hl : w.state = AssetState.Loading
          · refine ⟨{ w with refCount := (w.refCount + 1) % U32 }, ?_, ?_, rfl⟩
            · simp [Load, hres, hw, AssetRecord.IsReady, AssetRequest.IsReload,
                AssetRequest.IsAsync, hasync, AssetRecord.IsLoading, hhit, hl]
            · simp [Load, hres, hw, getOrCreate_put, AssetRecord.IsReady,
                AssetRequest.IsReload, AssetRequest.IsAsync, hasync, AssetRecord.IsLoading, hhit,
                hl]
          · refine ⟨{ w.MarkLoading with refCount := (w.refCount + 1) % U32 }, ?_, ?_, rfl⟩
            · simp [Load, hres, hw, AssetRecord.IsReady, AssetRequest.IsReload,
                AssetRequest.IsAsync, hasync, AssetRecord.IsLoading, hhit, hl,
                AssetRecord.MarkLoading]
            · simp [Load, hres, hw, getOrCreate_put, AssetRecord.IsReady,
                AssetRequest.IsReload, AssetRequest.IsAsync, hasync, AssetRecord.IsLoading, hhit,
                hl]
        · have hsync : req.sync = SyncWith.Sync := by
            cases hs : req.sync <;> simp_all
          set st1 : Option AssetStatistics :=
            (if w.IsReady = false ∧ req.IsReload = false then
              statHook ((m.stat StatEvent.LoadRequest).ResolveEntry_ id req).2
                StatEvent.CacheMiss
            else ((m.stat StatEvent.LoadRequest).ResolveEntry_ id req).2) with hst1
          obtain ⟨-, -, d3, -⟩ := doLoad_record { m with stats := st1 } req w e
          obtain ⟨-, dfail⟩ := doLoad_state { m with stats := st1 } req w e
          cases hd : (DoLoadSync_ { m with stats := st1 } w e req).1 with
          | error err =>
            left
            have hf := dfail err hd
            refine ⟨⟨err, ?_⟩, (DoLoadSync_ { m with stats := st1 } w e req).2.1, ?_, d3⟩
            · simp only [Load, resolve_stat_fst, hres, hw, ← hst1, hd]
              simp [AssetRecord.IsReady, AssetRequest.IsReload, AssetRequest.IsAsync, hsync,
                hhit, hf]
            · simp only [Load, resolve_stat_fst, hres, hw, getOrCreate_put, ← hst1, hd]
              simp [AssetRecord.IsReady, AssetRequest.IsReload, AssetRequest.IsAsync, hsync,
                hhit, hf]
          | ok u =>
            right
            refine ⟨{ (DoLoadSync_ { m with stats := st1 } w e req).2.1 with
              refCount :=
                ((DoLoadSync_ { m with stats := st1 } w e req).2.1.refCount + 1) % U32 },
              ?_, ?_, by simp [d3]⟩
            · simp only [Load, resolve_stat_fst, hres, hw, ← hst1, hd]
              simp [AssetRecord.IsReady, AssetRequest.IsReload, AssetRequest.IsAsync, hsync,
                hhit]
            · simp only [Load, resolve_stat_fst, hres, hw, getOrCreate_put, ← hst1, hd]
              simp [AssetRecord.IsReady, AssetRequest.IsReload, AssetRequest.IsAsync, hsync,
                hhit]
    rcases key _ (getOrCreate_fst id m.storage e.type e.resolvedPath) with
      ⟨herr, r', h1, h2⟩ | ⟨r', h1, h2, h3⟩
    · exact Or.inl ⟨herr, Or.inr ⟨e, r', rfl, h1, h2⟩⟩
    · exact Or.inr ⟨e, r', rfl, h1, h2, h3⟩

end RefCounts

section Drain

variable (m : AssetManager)

/-- What one drained job does to the record of its identifier: when the job does
not resolve and no record is stored, nothing; otherwise it writes a record
that is `Ready` or `Failed` and keeps the reference count of the record that
was stored. -/
theorem processJob_record_cases (job : PendingLoad) :
    ((m.ProcessJob_ job).storage = m.storage ∧ m.storage.Find job.id = none) ∨
      ∃ r', (m.ProcessJob_ job).storage = m.storage.put job.id r' ∧
        (r'.state = AssetState.Ready ∨ r'.state = AssetState.Failed) ∧
        ∀ r, m.storage.Find job.id = some r → r'.refCount = r.refCount := by
  cases hres : (m.ResolveEntry_ job.id job.req).1 with
  | error err =>
    cases hf : m.storage.Find job.id with
    | none =>
      left
      simp [ProcessJob_, hres, hf]
    | some rcd =>
      right
      refine ⟨rcd.SetFailed err, ?_, Or.inr rfl, ?_⟩
      · simp [ProcessJob_, hres, hf]
      · intro r hr
        cases hr
        rfl
  | ok e =>
    right
    have hw : (m.storage.GetOrCreate job.id e.type e.resolvedPath).1 = workRecord m job.id e :=
      getOrCreate_fst job.id m.storage e.type e.resolvedPath
    obtain ⟨-, -, d3, -⟩ :=
      doLoad_record { m with stats := (m.ResolveEntry_ job.id job.req).2 } job.req
        (workRecord m job.id e) e
    obtain ⟨ds, -⟩ :=
      doLoad_state { m with stats := (m.ResolveEntry_ job.id job.req).2 } job.req
        (workRecord m job.id e) e
    refine ⟨(DoLoadSync_ { m with stats := (m.ResolveEntry_ job.id job.req).2 }
      (workRecord m job.id e) e job.req).2.1, ?_, ds, ?_⟩
    · simp [ProcessJob_, hres, hw, getOrCreate_put]
    · intro r hr
      rw [d3]
      simp [workRecord, hr]

/-- One drained job changes neither the collaborators, the options, the frame, the
queue nor the dedup set. -/
theorem processJob_env (job : PendingLoad) :
    (m.ProcessJob_ job).catalog = m.catalog ∧ (m.ProcessJob_ job).pipeline = m.pipeline ∧
      (m.ProcessJob_ job).cachePolicy = m.cachePolicy ∧
      (m.ProcessJob_ job).watcher = m.watcher ∧ (m.ProcessJob_ job).opt = m.opt ∧
      (m.ProcessJob_ job).frame = m.frame ∧ (m.ProcessJob_ job).queue = m.queue ∧
      (m.ProcessJob_ job).queued = m.queued := by
  cases hres : (m.ResolveEntry_ job.id job.req).1 with
  | error err => cases hf : m.storage.Find job.id <;> simp [ProcessJob_, hres, hf]
  | ok e => simp [ProcessJob_, hres]

/-- The loop body does not read the queue or the dedup set. -/
theorem processJob_congr (job : PendingLoad) (q : List PendingLoad) (s : Finset AssetId) :
    ProcessJob_ { m with queue := q, queued := s } job =
      { m.ProcessJob_ job with queue := q, queued := s } := by
  have hr : ResolveEntry_ { m with queue := q, queued := s } job.id job.req =
      m.ResolveEntry_ job.id job.req := rfl
  cases hres : (m.ResolveEntry_ job.id job.req).1 with
  | error err =>
    cases hf : m.storage.Find job.id <;> simp [ProcessJob_, hr, hres, hf]
  | ok e =>
    have hd : ∀ st r, DoLoadSync_
        { ({ m with queue := q, queued := s } : AssetManager) with stats := st } r e job.req =
        DoLoadSync_ { m with stats := st } r e job.req := fun _ _ => rfl
    simp [ProcessJob_, hr, hres, hd]

/-- One drained job leaves the records of the other identifiers as they are. -/
theorem processJob_other (job : PendingLoad) (i : AssetId) (hi : i ≠ job.id) :
    (m.ProcessJob_ job).storage.Find i = m.storage.Find i := by
  rcases processJob_record_cases m job with ⟨hs, -⟩ | ⟨r', hs, -, -⟩
  · rw [hs]
  · rw [hs, find_put]
    simp [hi]

/-- After a drained job the record of its identifier, if any, is `Ready` or `Failed`. -/
theorem processJob_self_state (job : PendingLoad) (r' : AssetRecord)
    (h : (m.ProcessJob_ job).storage.Find job.id = some r') :
    r'.state = AssetState.Ready ∨ r'.state = AssetState.Failed := by
  rcases processJob_record_cases m job with ⟨hs, hn⟩ | ⟨r1, hs, hst, -⟩
  · rw [hs, hn] at h
    cases h
  · rw [hs, find_put] at h
    simp at h
    subst h
    exact hst

/-- A drained job removes no record and keeps every reference count. -/
theorem processJob_keeps (job : PendingLoad) (i : AssetId) (r : AssetRecord)
    (hr : m.storage.Find i = some r) :
    ∃ r', (m.ProcessJob_ job).storage.Find i = some r' ∧ r'.refCount = r.refCount := by
  by_cases hi : i = job.id
  · subst hi
    rcases processJob_record_cases m job with ⟨hs, hn⟩ | ⟨r1, hs, -, hc⟩
    · rw [hn] at hr
      cases hr
    · exact ⟨r1, by rw [hs, find_put]; simp, hc r hr⟩
  · exact ⟨r, by rw [processJob_other m job i hi]; exact hr, rfl⟩

theorem drainJobs_cons (job : PendingLoad) (jobs : List PendingLoad) :
    drainJobs m (job :: jobs) = drainJobs (m.ProcessJob_ job) jobs := rfl

/-- Draining does not read the queue or the dedup set. -/
theorem drainJobs_congr (jobs : List PendingLoad) :
    ∀ (m : AssetManager) (q : List PendingLoad) (s : Finset AssetId),
      drainJobs { m with queue := q, queued := s } jobs =
        { drainJobs m jobs with queue := q, queued := s } := by
  induction jobs with
  | nil => intro m q s; rfl
  | cons job rest ih =>
    intro m q s
    rw [drainJobs_cons, drainJobs_cons, processJob_congr, ih]

/-- The drain loop with budget `b` runs the loop body for the first `b` queued jobs
in queue order, pops them and erases their identifiers from the dedup set. -/
theorem loop_eq (b : Nat) :
    ∀ m : AssetManager, ProcessQueueLoop_ b m =
      { drainJobs m (m.queue.take b) with
        queue := m.queue.drop b
        queued := eraseJobs m.queued (m.queue.take b) } := by
  induction b with
  | zero => intro m; rfl
  | succ b ih =>
    intro m
    cases hq : m.queue with
    | nil =>
      simp only [ProcessQueueLoop_, hq, List.take_nil, List.drop_nil]
      cases m
      simp_all [drainJobs, eraseJobs]
    | cons job rest =>
      simp only [ProcessQueueLoop_, hq, List.take_succ_cons, List.drop_succ_cons]
      rw [ih, processJob_congr, drainJobs_cons]
      simp only []
      rw [drainJobs_congr]
      rfl

/-- Draining leaves the records of identifiers without a drained job as they are. -/
theorem drainJobs_other (jobs : List PendingLoad) :
    ∀ (m : AssetManager) (i : AssetId), i ∉ jobs.map PendingLoad.id →
      (drainJobs m jobs).storage.Find i = m.storage.Find i := by
  induction jobs with
  | nil => intro m i _; rfl
  | cons job rest ih =>
    intro m i hi
    simp only [List.map_cons, List.mem_cons, not_or] at hi
    rw [drainJobs_cons, ih _ i hi.2, processJob_other m job i hi.1]

/-- After draining, the record of an identifier with a drained job, if any, is
`Ready` or `Failed`. -/
theorem drainJobs_state (jobs : List PendingLoad) :
    ∀ (m : AssetManager) (i : AssetId), i ∈ jobs.map PendingLoad.id →
      ∀ r', (drainJobs m jobs).storage.Find i = some r' →
        r'.state = AssetState.Ready ∨ r'.state = AssetState.Failed := by
  induction jobs with
  | nil => intro m i hi; simp at hi
  | cons job rest ih =>
    intro m i hi r' hr'
    rw [drainJobs_cons] at hr'
    by_cases hrest : i ∈ rest.map PendingLoad.id
    · exact ih _ i hrest r' hr'
    · simp only [List.map_cons, List.mem_cons] at hi
      have hij : i = job.id := hi.resolve_right hrest
      subst hij
      rw [drainJobs_other rest _ _ hrest] at hr'
      exact processJob_self_state m job r' hr'

/-- Draining removes no record and keeps every reference count. -/
theorem drainJobs_keeps (jobs : List PendingLoad) :
    ∀ (m : AssetManager) (i : AssetId) (r : AssetRecord), m.storage.Find i = some r →
      ∃ r', (drainJobs m jobs).storage.Find i = some r' ∧ r'.refCount = r.refCount := by
  induction jobs with
  | nil => intro m i r hr; exact ⟨r, hr, rfl⟩
  | cons job rest ih =>
    intro m i r hr
    obtain ⟨r1, h1, c1⟩ := processJob_keeps m job i r hr
    obtain ⟨r2, h2, c2⟩ := ih _ i r1 h1
    exact ⟨r2, by rw [drainJobs_cons]; exact h2, c2.trans c1⟩

/-- Draining changes neither the options nor the frame nor the collaborators. -/
theorem drainJobs_env (jobs : List PendingLoad) :
    ∀ m : AssetManager, (drainJobs m jobs).opt = m.opt ∧ (drainJobs m jobs).frame = m.frame ∧
      (drainJobs m jobs).catalog = m.catalog ∧ (drainJobs m jobs).pipeline = m.pipeline ∧
      (drainJobs m jobs).watcher = m.watcher := by
  induction jobs with
  | nil => intro m; exact ⟨rfl, rfl, rfl, rfl, rfl⟩
  | cons job rest ih =>
    intro m
    obtain ⟨e1, e2, e3, e4, e5, e6, -, -⟩ := processJob_env m job
    obtain ⟨i1, i2, i3, i4, i5⟩ := ih (m.ProcessJob_ job)
    rw [drainJobs_cons]
    exact ⟨i1.trans e5, i2.trans e6, i3.trans e1, i4.trans e2, i5.trans e4⟩

/-- With hot reload disabled, `Update` runs the loop body for the first
`maxLoadsPerFrame` queued jobs in queue order and pops them. -/
theorem update_eq (hhot : m.opt.enableHotReload = false) :
    m.Update =
      { drainJobs m (m.queue.take m.opt.maxLoadsPerFrame) with
        queue := m.queue.drop m.opt.maxLoadsPerFrame
        queued := eraseJobs m.queued (m.queue.take m.opt.maxLoadsPerFrame) } := by
  unfold Update ProcessQueue_
  simp only [hhot, Bool.false_eq_true, false_and, if_false]
  cases hq : m.queue with
  | nil =>
    simp only [List.take_nil, List.drop_nil]
    cases m
    simp_all [drainJobs, eraseJobs]
  | cons job rest =>
    simp only []
    rw [loop_eq, hq]

end Drain

section QueueInvariants

variable (m : AssetManager)

/-- The queue invariant only reads the queue and the dedup set. -/
theorem queueInv_congr {m1 m2 : AssetManager} (hq : m2.queue = m1.queue)
    (hs : m2.queued = m1.queued) (h : QueueInv m1) : QueueInv m2 := by
  unfold QueueInv queueIds at h ⊢
  rw [hq, hs]
  exact h

/-- Enqueuing keeps the queue invariant. -/
theorem enqueue_queueInv (id : AssetId) (req : AssetRequest) (h : QueueInv m) :
    QueueInv (m.EnqueueLoad_ id req) := by
  unfold EnqueueLoad_
  by_cases hm : id ∈ m.queued
  · simpa [hm] using h
  · obtain ⟨hn, hq⟩ := h
    have hid : id ∉ queueIds m := fun hc => hm ((hq id).2 hc)
    simp only [hm, if_false]
    unfold queueIds at hn hq hid
    unfold QueueInv queueIds
    constructor
    · simp only [List.map_append, List.map_cons, List.map_nil]
      rw [List.nodup_append]
      refine ⟨hn, List.nodup_singleton _, ?_⟩
      intro a ha hb
      simp only [List.mem_singleton] at hb
      subst hb
      exact hid ha
    · intro i
      simp only [Finset.mem_insert, List.map_append, List.map_cons, List.map_nil,
        List.mem_append, List.mem_singleton, hq i]
      tauto

/-- After enqueuing, the identifier is in the dedup set, and the set only grew. -/
theorem enqueue_queued (id : AssetId) (req : AssetRequest) :
    id ∈ (m.EnqueueLoad_ id req).queued ∧ m.queued ⊆ (m.EnqueueLoad_ id req).queued := by
  unfold EnqueueLoad_
  by_cases hm : id ∈ m.queued
  · simp [hm]
  · simp [hm, Finset.subset_insert]

/-- Popping the front job keeps the queue invariant. -/
theorem pop_queueInv (job : PendingLoad) (rest : List PendingLoad) (hq : m.queue = job :: rest)
    (h : QueueInv m) :
    QueueInv { m with queue := rest, queued := m.queued.erase job.id } := by
  obtain ⟨hn, hs⟩ := h
  unfold queueIds at hn hs
  unfold QueueInv queueIds
  rw [hq] at hn hs
  simp only [List.map_cons, List.nodup_cons] at hn
  refine ⟨hn.2, fun i => ?_⟩
  simp only [Finset.mem_erase, hs i, List.map_cons, List.mem_cons]
  constructor
  · rintro ⟨hne, h1 | h1⟩
    · exact absurd h1 hne
    · exact h1
  · intro h1
    refine ⟨?_, Or.inr h1⟩
    rintro rfl
    exact hn.1 h1

/-- The drain loop keeps the queue invariant. -/
theorem loop_queueInv (b : Nat) :
    ∀ m : AssetManager, QueueInv m → QueueInv (ProcessQueueLoop_ b m) := by
  induction b with
  | zero => intro m h; simpa [ProcessQueueLoop_] using h
  | succ b ih =>
    intro m h
    cases hq : m.queue with
    | nil => simpa [ProcessQueueLoop_, hq] using h
    | cons job rest =>
      simp only [ProcessQueueLoop_, hq]
      apply ih
      obtain ⟨-, -, -, -, -, -, e7, e8⟩ :=
        processJob_env { m with queue := rest, queued := m.queued.erase job.id } job
      exact queueInv_congr e7 e8 (pop_queueInv m job rest hq h)

/-- Hot-reload polling keeps the queue invariant, leaves the store as it is and
only adds to the dedup set. -/
theorem hotReload_queueInv (h : QueueInv m) :
    QueueInv m.ProcessHotReload_ ∧ m.queued ⊆ m.ProcessHotReload_.queued := by
  have hf : ∀ (l : List AssetChange) (acc : AssetManager), QueueInv acc →
      QueueInv (l.foldl (fun acc ch => acc.EnqueueLoad_ ch.id (hotReloadRequest acc.opt)) acc) ∧
      acc.queued ⊆
        (l.foldl (fun acc ch => acc.EnqueueLoad_ ch.id (hotReloadRequest acc.opt)) acc).queued := by
    intro l
    induction l with
    | nil => intro acc ha; exact ⟨ha, Finset.Subset.refl _⟩
    | cons c cs ih =>
      intro acc ha
      simp only [List.foldl_cons]
      obtain ⟨i1, i2⟩ := ih _ (enqueue_queueInv acc c.id (hotReloadRequest acc.opt) ha)
      exact ⟨i1, (enqueue_queued acc c.id (hotReloadRequest acc.opt)).2.trans i2⟩
  unfold ProcessHotReload_
  cases hw : m.watcher with
  | none => exact ⟨h, Finset.Subset.refl _⟩
  | some w =>
    cases hp : w.Poll.1 with
    | nil =>
      simp only [hp]
      exact ⟨queueInv_congr rfl rfl h, Finset.Subset.refl _⟩
    | cons c cs =>
      simp only [hp]
      exact hf (c :: cs) _ (queueInv_congr rfl rfl h)

/-- What `Load` does to the queue and the dedup set: nothing, or one `EnqueueLoad_`
for the identifier. -/
theorem load_queue_cases (id : AssetId) (req : AssetRequest) :
    ((m.Load id req).2.queue = m.queue ∧ (m.Load id req).2.queued = m.queued) ∨
      ((m.Load id req).2.queue = (m.EnqueueLoad_ id req).queue ∧
        (m.Load id req).2.queued = (m.EnqueueLoad_ id req).queued) := by
  unfold Load
  simp only []
  repeat' (first | exact Or.inl ⟨rfl, rfl⟩ | exact Or.inr ⟨rfl, rfl⟩ | split)

/-- Every operation keeps the queue invariant. -/
theorem run_queueInv (op : Op) (h : QueueInv m) : QueueInv (m.run op) := by
  cases op with
  | Load id req =>
    rcases load_queue_cases m id req with ⟨h1, h2⟩ | ⟨h1, h2⟩
    · exact queueInv_congr h1 h2 h
    · exact queueInv_congr h1 h2 (enqueue_queueInv m id req h)
  | Acquire hd =>
    refine queueInv_congr ?_ ?_ h <;>
      (simp only [AssetManager.run, Acquire]; repeat' (first | rfl | split))
  | Release hd =>
    refine queueInv_congr ?_ ?_ h <;>
      (simp only [AssetManager.run, Release]; repeat' (first | rfl | split))
  | Update =>
    have hq : ∀ m : AssetManager, QueueInv m → QueueInv m.ProcessQueue_ := by
      intro m hm
      unfold ProcessQueue_
      cases hq : m.queue with
      | nil => exact hm
      | cons j js => exact loop_queueInv _ m hm
    simp only [AssetManager.run, Update]
    split_ifs
    · exact hq _ (hotReload_queueInv m h).1
    · exact hq _ h
  | EvictIfPossible id =>
    refine queueInv_congr ?_ ?_ h <;>
      (simp only [AssetManager.run, EvictIfPossible]; repeat' (first | rfl | split))
  | BeginFrame n => exact h
  | SetOptions o => exact h
  | Watch id path =>
    refine queueInv_congr ?_ ?_ h <;>
      (simp only [AssetManager.run, Watch]; repeat' (first | rfl | split))
  | Unwatch id =>
    refine queueInv_congr ?_ ?_ h <;>
      (simp only [AssetManager.run, Unwatch]; repeat' (first | rfl | split))
  | env c p w => exact h

/-- The queue invariant holds in every reachable state. -/
theorem reachable_queueInv {m : AssetManager} (h : Reachable m) : QueueInv m := by
  induction h with
  | init c p l pol st w =>
    simp [QueueInv, queueIds, AssetManager.new]
  | step m op _ ih => exact run_queueInv m op ih

end QueueInvariants

section LoadingInvariant

variable (m : AssetManager)

/-- What `Load` does to the state of the record and to the queue: nothing; or it
writes a record that is not `Loading` and leaves the queue alone; or the
record was `Loading` already and stays so, the queue left alone; or it marks
the record `Loading` and enqueues the identifier. -/
theorem load_state_cases (id : AssetId) (req : AssetRequest) :
    ((m.Load id req).2.storage = m.storage ∧ (m.Load id req).2.queue = m.queue ∧
        (m.Load id req).2.queued = m.queued) ∨
      ∃ r', (m.Load id req).2.storage = m.storage.put id r' ∧
        ((r'.state ≠ AssetState.Loading ∧ (m.Load id req).2.queue = m.queue ∧
            (m.Load id req).2.queued = m.queued) ∨
          (r'.state = AssetState.Loading ∧
            (∃ r, m.storage.Find id = some r ∧ r.state = AssetState.Loading) ∧
            (m.Load id req).2.queue = m.queue ∧ (m.Load id req).2.queued = m.queued) ∨
          (r'.state = AssetState.Loading ∧
            (m.Load id req).2.queue = (m.EnqueueLoad_ id req).queue ∧
            (m.Load id req).2.queued = (m.EnqueueLoad_ id req).queued)) := by
  cases hres : (m.ResolveEntry_ id req).1 with
  | error err =>
    left
    obtain ⟨-, h2⟩ := load_resolve_error m id req hres
    refine ⟨?_, ?_, ?_⟩ <;> rw [h2]
  | ok e =>
    right
    have hw : (m.storage.GetOrCreate id e.type e.resolvedPath).1 = workRecord m id e :=
      getOrCreate_fst id m.storage e.type e.resolvedPath
    have hwl : (workRecord m id e).state = AssetState.Loading →
        ∃ r, m.storage.Find id = some r ∧ r.state = AssetState.Loading := by
      intro hl
      unfold workRecord at hl
      cases hf : m.storage.Find id with
      | none => simp [hf, AssetStorage.fresh] at hl
      | some r => exact ⟨r, rfl, by simpa [hf] using hl⟩
    generalize workRecord m id e = w at hw hwl
    by_cases hhit : w.state = AssetState.Ready ∧ req.reload = false
    · refine ⟨{ w with refCount := (w.refCount + 1) % U32 }, ?_, Or.inl ⟨?_, ?_, ?_⟩⟩
      · simp [Load, hres, hw, getOrCreate_put, AssetRecord.IsReady, AssetRequest.IsReload, hhit]
      · simp [hhit.1]
      · simp [Load, hres, hw, AssetRecord.IsReady, AssetRequest.IsReload, hhit]
      · simp [Load, hres, hw, AssetRecord.IsReady, AssetRequest.IsReload, hhit]
    · by_cases hasync : req.sync = SyncWith.Async
      · by_cases hl : w.state = AssetState.Loading
        · refine ⟨{ w with refCount := (w.refCount + 1) % U32 }, ?_,
            Or.inr (Or.inl ⟨hl, hwl hl, ?_, ?_⟩)⟩
          · simp [Load, hres, hw, getOrCreate_put, AssetRecord.IsReady, AssetRequest.IsReload,
              AssetRequest.IsAsync, hasync, AssetRecord.IsLoading, hhit, hl]
          · simp [Load, hres, hw, AssetRecord.IsReady, AssetRequest.IsReload,
              AssetRequest.IsAsync, hasync, AssetRecord.IsLoading, hhit, hl]
          · simp [Load, hres, hw, AssetRecord.IsReady, AssetRequest.IsReload,
              AssetRequest.IsAsync, hasync, AssetRecord.IsLoading, hhit, hl]
        · refine ⟨{ w.MarkLoading with refCount := (w.refCount + 1) % U32 }, ?_,
            Or.inr (Or.inr ⟨rfl, ?_, ?_⟩)⟩
          · simp [Load, hres, hw, getOrCreate_put, AssetRecord.IsReady, AssetRequest.IsReload,
              AssetRequest.IsAsync, hasync, AssetRecord.IsLoading, hhit, hl]
          · simp [Load, hres, hw, AssetRecord.IsReady, AssetRequest.IsReload,
              AssetRequest.IsAsync, hasync, AssetRecord.IsLoading, hhit, hl]
          · simp [Load, hres, hw, AssetRecord.IsReady, AssetRequest.IsReload,
              AssetRequest.IsAsync, hasync, AssetRecord.IsLoading, hhit, hl]
      · have hsync : req.sync = SyncWith.Sync := by
          cases hs : req.sync <;> simp_all
        set st1 : Option AssetStatistics :=
          (if w.IsReady = false ∧ req.IsReload = false then
            statHook ((m.stat StatEvent.LoadRequest).ResolveEntry_ id req).2 StatEvent.CacheMiss
          else ((m.stat StatEvent.LoadRequest).ResolveEntry_ id req).2) with hst1
        obtain ⟨ds, dfail⟩ := doLoad_state { m with stats := st1 } req w e
        have hnl : (DoLoadSync_ { m with stats := st1 } w e req).2.1.state ≠
            AssetState.Loading := by
          rcases ds with h | h <;> simp [h]
        cases hd : (DoLoadSync_ { m with stats := st1 } w e req).1 with
        | error err =>
          have hf := dfail err hd
          refine ⟨(DoLoadSync_ { m with stats := st1 } w e req).2.1, ?_, Or.inl ⟨hnl, ?_, ?_⟩⟩
          · simp only [Load, resolve_stat_fst, hres, hw, getOrCreate_put, ← hst1, hd]
            simp [AssetRecord.IsReady, AssetRequest.IsReload, AssetRequest.IsAsync, hsync, hhit,
              hf]
          · simp only [Load, resolve_stat_fst, hres, hw, ← hst1, hd]
            simp [AssetRecord.IsReady, AssetRequest.IsReload, AssetRequest.IsAsync, hsync, hhit,
              hf]
          · simp only [Load, resolve_stat_fst, hres, hw, ← hst1, hd]
            simp [AssetRecord.IsReady, AssetRequest.IsReload, AssetRequest.IsAsync, hsync, hhit,
              hf]
        | ok u =>
          refine ⟨{ (DoLoadSync_ { m with stats := st1 } w e req).2.1 with
            refCount := ((DoLoadSync_ { m with stats := st1 } w e req).2.1.refCount + 1) % U32 },
            ?_, Or.inl ⟨hnl, ?_, ?_⟩⟩
          · simp only [Load, resolve_stat_fst, hres, hw, getOrCreate_put, ← hst1, hd]
            simp [AssetRecord.IsReady, AssetRequest.IsReload, AssetRequest.IsAsync, hsync, hhit]
          · simp only [Load, resolve_stat_fst, hres, hw, ← hst1, hd]
            simp [AssetRecord.IsReady, AssetRequest.IsReload, AssetRequest.IsAsync, hsync, hhit]
          · simp only [Load, resolve_stat_fst, hres, hw, ← hst1, hd]
            simp [AssetRecord.IsReady, AssetRequest.IsReload, AssetRequest.IsAsync, hsync, hhit]

/-- Hot-reload polling only adds to the dedup set. -/
theorem hotReload_queued_subset : m.queued ⊆ m.ProcessHotReload_.queued := by
  have hf : ∀ (l : List AssetChange) (acc : AssetManager), acc.queued ⊆
      (l.foldl (fun acc ch => acc.EnqueueLoad_ ch.id (hotReloadRequest acc.opt)) acc).queued := by
    intro l
    induction l with
    | nil => intro acc; exact Finset.Subset.refl _
    | cons c cs ih =>
      intro acc
      simp only [List.foldl_cons]
      exact (enqueue_queued acc c.id (hotReloadRequest acc.opt)).2.trans (ih _)
  unfold ProcessHotReload_
  cases hw : m.watcher with
  | none => exact Finset.Subset.refl _
  | some w =>
    cases hp : w.Poll.1 with
    | nil =>
      simp only [hp]
      exact Finset.Subset.refl _
    | cons c cs =>
      simp only [hp]
      exact hf (c :: cs) { m with watcher := some w.Poll.2 }

/-- The drain loop keeps every `Loading` record's identifier in the dedup set. -/
theorem loop_loadingQueued (b : Nat) :
    ∀ m : AssetManager, LoadingQueued m → LoadingQueued (ProcessQueueLoop_ b m) := by
  induction b with
  | zero => intro m h; simpa [ProcessQueueLoop_] using h
  | succ b ih =>
    intro m h
    cases hq : m.queue with
    | nil => simpa [ProcessQueueLoop_, hq] using h
    | cons job rest =>
      simp only [ProcessQueueLoop_, hq]
      apply ih
      intro i r hr hl
      obtain ⟨-, -, -, -, -, -, -, e8⟩ :=
        processJob_env { m with queue := rest, queued := m.queued.erase job.id } job
      rw [e8]
      by_cases hi : i = job.id
      · subst hi
        rcases processJob_self_state _ job r hr with h1 | h1 <;> simp [h1] at hl
      · rw [processJob_other _ job i hi] at hr
        exact Finset.mem_erase.2 ⟨hi, h i r hr hl⟩

/-- Every operation keeps every `Loading` record's identifier in the dedup set. -/
theorem run_loadingQueued (op : Op) (h : LoadingQueued m) : LoadingQueued (m.run op) := by
  cases op with
  | Load id req =>
    intro i r hr hl
    simp only [AssetManager.run] at hr ⊢
    rcases load_state_cases m id req with ⟨hs, -, hq⟩ | ⟨r', hs, hc⟩
    · rw [hs] at hr
      rw [hq]
      exact h i r hr hl
    · rw [hs, find_put] at hr
      by_cases hi : i = id
      · subst hi
        simp at hr
        subst hr
        rcases hc with ⟨hn, -, -⟩ | ⟨-, ⟨r0, h0, hl0⟩, -, hq⟩ | ⟨-, -, hq⟩
        · exact absurd hl hn
        · rw [hq]
          exact h i r0 h0 hl0
        · rw [hq]
          exact (enqueue_queued m i req).1
      · simp [hi] at hr
        have hin := h i r hr hl
        rcases hc with ⟨-, -, hq⟩ | ⟨-, -, -, hq⟩ | ⟨-, -, hq⟩
        · rw [hq]; exact hin
        · rw [hq]; exact hin
        · rw [hq]; exact (enqueue_queued m id req).2 hin
  | Acquire hd =>
    intro i r hr hl
    have hq : (m.run (Op.Acquire hd)).queued = m.queued := by
      simp only [AssetManager.run, Acquire]; repeat' (first | rfl | split)
    rw [hq]
    simp only [AssetManager.run] at hr
    rcases acquire_storage_cases m hd with hs | ⟨r0, h0, hs⟩
    · rw [hs] at hr
      exact h i r hr hl
    · rw [hs, find_put] at hr
      by_cases hi : i = hd.id
      · subst hi
        simp at hr
        subst hr
        exact h hd.id r0 h0 hl
      · simp [hi] at hr
        exact h i r hr hl
  | Release hd =>
    intro i r hr hl
    have hq : (m.run (Op.Release hd)).queued = m.queued := by
      simp only [AssetManager.run, Release]; repeat' (first | rfl | split)
    rw [hq]
    simp only [AssetManager.run] at hr
    rcases release_storage_cases m hd with hs | ⟨r0, h0, hs⟩
    · rw [hs] at hr
      exact h i r hr hl
    · rw [hs, find_put] at hr
      by_cases hi : i = hd.id
      · subst hi
        simp at hr
        subst hr
        exact h hd.id r0 h0 hl
      · simp [hi] at hr
        exact h i r hr hl
  | Update =>
    have hq : ∀ m : AssetManager, LoadingQueued m → LoadingQueued m.ProcessQueue_ := by
      intro m hm
      unfold ProcessQueue_
      cases hq : m.queue with
      | nil => exact hm
      | cons j js => exact loop_loadingQueued _ m hm
    have hh : LoadingQueued m.ProcessHotReload_ := by
      intro i r hr hl
      rw [(hotReload_keeps m).1] at hr
      exact hotReload_queued_subset m (h i r hr hl)
    simp only [AssetManager.run, Update]
    split_ifs
    · exact hq _ hh
    · exact hq _ h
  | EvictIfPossible id =>
    intro i r hr hl
    have hq : (m.run (Op.EvictIfPossible id)).queued = m.queued := by
      simp only [AssetManager.run, EvictIfPossible]; repeat' (first | rfl | split)
    rw [hq]
    simp only [AssetManager.run] at hr
    rcases evict_storage_cases m id with hs | ⟨-, hs⟩
    · rw [hs] at hr
      exact h i r hr hl
    · rw [hs] at hr
      by_cases hi : i = id
      · subst hi
        simp [AssetStorage.Find] at hr
      · simp [AssetStorage.Find, hi] at hr
        exact h i r hr hl
  | BeginFrame n => exact h
  | SetOptions o => exact h
  | Watch id path =>
    intro i r hr hl
    simp only [AssetManager.run, Watch] at hr ⊢
    cases hw : m.watcher <;> simp only [hw] at hr ⊢ <;> exact h i r hr hl
  | Unwatch id =>
    intro i r hr hl
    simp only [AssetManager.run, Unwatch] at hr ⊢
    cases hw : m.watcher <;> simp only [hw] at hr ⊢ <;> exact h i r hr hl
  | env c p w => exact h

/-- In every reachable state every `Loading` record has its identifier in the dedup
set. -/
theorem reachable_loadingQueued {m : AssetManager} (h : Reachable m) : LoadingQueued m := by
  induction h with
  | init c p l pol st w =>
    intro i r hr
    simp [AssetManager.new, AssetStorage.Find, AssetStorage.empty] at hr
  | step m op _ ih => exact run_loadingQueued m op ih

/-- In every reachable state every `Loading` record has a job in the queue. -/
theorem reachable_loading_job {m : AssetManager} (h : Reachable m) (i : AssetId)
    (r : AssetRecord) (hr : m.storage.Find i = some r) (hl : r.state = AssetState.Loading) :
    i ∈ queueIds m :=
  ((reachable_queueInv h).2 i).1 (reachable_loadingQueued h i r hr hl)

end LoadingInvariant

section UpdateRefCounts

variable (m : AssetManager)

/-- The queue drain removes no record and keeps every reference count. -/
theorem processQueue_keeps (i : AssetId) (r : AssetRecord) (hr : m.storage.Find i = some r) :
    ∃ r', m.ProcessQueue_.storage.Find i = some r' ∧ r'.refCount = r.refCount := by
  unfold ProcessQueue_
  cases hq : m.queue with
  | nil => exact ⟨r, hr, rfl⟩
  | cons j js =>
    simp only []
    rw [loop_eq]
    exact drainJobs_keeps _ m i r hr

/-- `Update` removes no record and keeps every reference count. -/
theorem update_keeps (i : AssetId) (r : AssetRecord) (hr : m.storage.Find i = some r) :
    ∃ r', m.Update.storage.Find i = some r' ∧ r'.refCount = r.refCount := by
  unfold Update
  split_ifs
  · exact processQueue_keeps _ i r (by rw [(hotReload_keeps m).1]; exact hr)
  · exact processQueue_keeps m i r hr

end UpdateRefCounts

section Rounds

/-- Reachable states are closed under sequences of operations. -/
theorem reachable_runAll (ops : List Op) :
    ∀ m : AssetManager, Reachable m → Reachable (m.runAll ops) := by
  induction ops with
  | nil => intro m h; exact h
  | cons op rest ih => intro m h; exact ih _ (Reachable.step m op h)

/-- The fresh manager of the scenarios is a constructed manager. -/
theorem reachable_freshManager : Reachable freshManager :=
  Reachable.init _ _ _ _ _ _

/-- The fresh manager over the three-asset catalog is a constructed manager. -/
theorem reachable_threeManager : Reachable threeManager :=
  Reachable.init _ _ _ _ _ _

/-- Draining a concatenation of job lists. -/
theorem drainJobs_append (m : AssetManager) (xs ys : List PendingLoad) :
    drainJobs m (xs ++ ys) = drainJobs (drainJobs m xs) ys := by
  simp [drainJobs, List.foldl_append]

/-- With hot reload disabled, `c` calls of `Update` run the loop body for the first
`c * maxLoadsPerFrame` queued jobs in queue order and pop them. -/
theorem updates_eq (c : Nat) :
    ∀ m : AssetManager, m.opt.enableHotReload = false →
      (m.runAll (List.replicate c Op.Update)).queue =
          m.queue.drop (c * m.opt.maxLoadsPerFrame) ∧
        (m.runAll (List.replicate c Op.Update)).storage =
          (drainJobs m (m.queue.take (c * m.opt.maxLoadsPerFrame))).storage ∧
        (m.runAll (List.replicate c Op.Update)).opt = m.opt := by
  induction c with
  | zero =>
    intro m _
    simp [AssetManager.runAll, drainJobs]
  | succ c ih =>
    intro m hhot
    have hu := update_eq m hhot
    have hopt : m.Update.opt = m.opt := by
      rw [hu]
      exact (drainJobs_env _ m).1
    have hq : m.Update.queue = m.queue.drop m.opt.maxLoadsPerFrame := by rw [hu]
    have hstep : m.runAll (List.replicate (c + 1) Op.Update) =
        m.Update.runAll (List.replicate c Op.Update) := rfl
    obtain ⟨i1, i2, i3⟩ := ih m.Update (by rw [hopt]; exact hhot)
    rw [hstep]
    refine ⟨?_, ?_, i3.trans hopt⟩
    · rw [i1, hq, hopt, List.drop_drop, Nat.succ_mul]
      congr 1
      omega
    · rw [i2, hq, hopt]
      have e : (c + 1) * m.opt.maxLoadsPerFrame =
          m.opt.maxLoadsPerFrame + c * m.opt.maxLoadsPerFrame := by
        rw [Nat.succ_mul, Nat.add_comm]
      rw [e, List.take_add, drainJobs_append]
      conv_lhs => rw [hu]
      rw [drainJobs_congr]

/-- The number of rounds `ceil(n / k)` covers `n` jobs. -/
theorem rounds_cover (n k : Nat) (hk : 0 < k) : n ≤ (n + k - 1) / k * k := by
  have h := Nat.lt_mul_div_succ (n + k - 1) hk
  rw [Nat.mul_add, Nat.mul_one, Nat.mul_comm] at h
  omega

end Rounds

section Resolver

open AssetPathResolver

/-- Running the loop of `NormalizePath` on its own output changes nothing, whether
the second run starts after a slash or not, as long as the first run did. -/
theorem normalizeLoop_idem (ns sq : Bool) :
    ∀ l : List Char,
      (∀ prev : Bool, NormalizeLoop ns sq false (NormalizeLoop ns sq prev l) =
        NormalizeLoop ns sq prev l) ∧
      NormalizeLoop ns sq true (NormalizeLoop ns sq true l) = NormalizeLoop ns sq true l := by
  have hne : ('/' : Char) ≠ '\\' := by decide
  intro l
  cases ns <;> cases sq <;>
  · induction l with
    | nil => exact ⟨fun _ => rfl, rfl⟩
    | cons c cs ih =>
      obtain ⟨ih1, ih2⟩ := ih
      constructor
      · intro prev
        by_cases h : c = '\\' <;> by_cases hc : c = '/' <;> cases prev <;>
          simp [NormalizeLoop, h, hc, ih1, ih2, hne]
      · by_cases h : c = '\\' <;> by_cases hc : c = '/' <;>
          simp [NormalizeLoop, h, hc, ih1, ih2, hne]

/-- In `s ++ "://" ++ p`, where `s` holds no `"://"`, the first `"://"` is the one
after `s`. -/
theorem findScheme_append (p : List Char) :
    ∀ s : List Char, findScheme s = none →
      findScheme (s ++ ':' :: '/' :: '/' :: p) = some s.length := by
  intro s
  induction s with
  | nil => intro _; simp [findScheme]
  | cons c cs ih =>
    intro h
    unfold findScheme at h
    by_cases hc : c = ':' ∧ cs.take 2 = ['/', '/']
    · simp [hc] at h
    · simp only [hc, if_false, Option.map_eq_none'] at h
      have hc2 : ¬(c = ':' ∧ (cs ++ ':' :: '/' :: '/' :: p).take 2 = ['/', '/']) := by
        rintro ⟨h1, h2⟩
        apply hc
        refine ⟨h1, ?_⟩
        match cs, h2 with
        | [], h2 => simp at h2
        | [a], h2 => simp at h2
        | a :: b :: rest, h2 => simpa using h2
      have hcons : (c :: cs) ++ ':' :: '/' :: '/' :: p = c :: (cs ++ ':' :: '/' :: '/' :: p) := rfl
      rw [hcons, findScheme, if_neg hc2, ih h]
      rfl

/-- The loop that drops leading slashes leaves a path that does not begin with one. -/
theorem dropSlashes_id (p : List Char)
    (h : ∀ c : Char, p.head? = some c → IsSlash c = false) : dropSlashes p = p := by
  cases p with
  | nil => rfl
  | cons c cs =>
    have hc : IsSlash c = false := h c rfl
    simp [dropSlashes, hc]

/-- `StripScheme` on `s ++ "://" ++ p` returns `p`. -/
theorem stripScheme_scheme (s p : String) (hs : findScheme s.data = none)
    (hhead : ∀ c : Char, p.data.head? = some c → IsSlash c = false) :
    StripScheme (s ++ "://" ++ p) = (p, true) := by
  have hd : (s ++ "://" ++ p).data = s.data ++ ':' :: '/' :: '/' :: p.data := by
    simp [String.data_append]
  unfold StripScheme
  rw [hd, findScheme_append p.data s.data hs]
  simp only []
  have hdrop : (s.data ++ ':' :: '/' :: '/' :: p.data).drop (s.data.length + 3) = p.data := by
    rw [List.drop_append_eq_append_drop]
    simp
  rw [hdrop, dropSlashes_id p.data hhead]

/-- `StripScheme` leaves a path without `"://"` as it is. -/
theorem stripScheme_none (p : String) (hp : findScheme p.data = none) :
    StripScheme p = (p, false) := by
  unfold StripScheme
  rw [hp]

end Resolver

section PollAndDrain

variable (m : AssetManager)

/-- `ProcessQueue_` runs the loop body for the first `maxLoadsPerFrame` queued jobs
in queue order and pops them. -/
theorem processQueue_eq :
    m.ProcessQueue_ =
      { drainJobs m (m.queue.take m.opt.maxLoadsPerFrame) with
        queue := m.queue.drop m.opt.maxLoadsPerFrame
        queued := eraseJobs m.queued (m.queue.take m.opt.maxLoadsPerFrame) } := by
  unfold ProcessQueue_
  cases hq : m.queue with
  | nil =>
    simp only [List.take_nil, List.drop_nil]
    cases m
    simp_all [drainJobs, eraseJobs]
  | cons job rest =>
    simp only []
    rw [loop_eq, hq]

/-- The jobs a sequence of change notifications appends: each carries the
hot-reload request and the identifier of one of the changes, and the jobs
already queued stay in front. -/
theorem foldl_enqueue_queue (l : List AssetChange) :
    ∀ acc : AssetManager, ∃ added : List PendingLoad,
      (l.foldl (fun acc ch => acc.EnqueueLoad_ ch.id (hotReloadRequest acc.opt)) acc).queue =
          acc.queue ++ added ∧
        ∀ j ∈ added, j.req = hotReloadRequest acc.opt ∧ ∃ ch ∈ l, ch.id = j.id := by
  induction l with
  | nil => intro acc; exact ⟨[], by simp, by simp⟩
  | cons c cs ih =>
    intro acc
    obtain ⟨added, h1, h2⟩ := ih (acc.EnqueueLoad_ c.id (hotReloadRequest acc.opt))
    simp only [List.foldl_cons]
    by_cases hm : c.id ∈ acc.queued
    · refine ⟨added, ?_, ?_⟩
      · rw [h1]
        simp [EnqueueLoad_, hm]
      · intro j hj
        obtain ⟨a, ch, hch, hid⟩ := h2 j hj
        exact ⟨by simpa using a, ch, List.mem_cons_of_mem _ hch, hid⟩
    · refine ⟨⟨c.id, hotReloadRequest acc.opt⟩ :: added, ?_, ?_⟩
      · rw [h1]
        simp [EnqueueLoad_, hm]
      · intro j hj
        rcases List.mem_cons.1 hj with hj | hj
        · subst hj
          exact ⟨rfl, c, List.mem_cons_self _ _, rfl⟩
        · obtain ⟨a, ch, hch, hid⟩ := h2 j hj
          exact ⟨by simpa using a, ch, List.mem_cons_of_mem _ hch, hid⟩

/-- Hot-reload polling only appends jobs: the reported changes, each as a job with
the hot-reload request, behind the jobs already queued. -/
theorem hotReload_queue (w : AssetWatcher) (hw : m.watcher = some w) :
    ∃ added : List PendingLoad, m.ProcessHotReload_.queue = m.queue ++ added ∧
      ∀ j ∈ added, j.req = hotReloadRequest m.opt ∧ ∃ ch ∈ w.Poll.1, ch.id = j.id := by
  unfold ProcessHotReload_
  simp only [hw]
  cases hp : w.Poll.1 with
  | nil => exact ⟨[], by simp, by simp⟩
  | cons c cs =>
    simp only []
    exact foldl_enqueue_queue (c :: cs) { m with watcher := some w.Poll.2 }

end PollAndDrain

section FailedRecords

variable (m : AssetManager)

/-- A record that `DoLoadSync_` leaves `Failed` or `Unloaded` holds no payload. -/
theorem doLoad_failed_empty (r : AssetRecord) (e : ResolvedEntry) (req : AssetRequest)
    (h : (m.DoLoadSync_ r e req).2.1.state = AssetState.Failed ∨
      (m.DoLoadSync_ r e req).2.1.state = AssetState.Unloaded) :
    (m.DoLoadSync_ r e req).2.1.asset = AnyAsset.none := by
  unfold DoLoadSync_ at h ⊢
  cases hp : (m.pipeline.Load ⟨r.MarkLoading.id, e.type, e.resolvedPath, req, m.stats,
      m.frame⟩).1 with
  | error err =>
    by_cases hk : req.fallback = Fallback.KeepOldIfAny ∧ r.IsReady = true
    · simp [hp, hk] at h
    · simp [hp, hk, AssetRecord.SetFailed, AnyAsset.Reset, AnyAsset.none]
  | ok a =>
    simp [hp, AssetRecord.SetReady] at h

/-- The state and the payload of the record a `Load` writes: those of the record
worked on, or `Loading` with the payload of the record worked on, or those
`DoLoadSync_` left. -/
theorem load_record_shape (id : AssetId) (req : AssetRequest) :
    (m.Load id req).2.storage = m.storage ∨
      ∃ e r', (m.ResolveEntry_ id req).1 = Except.ok e ∧
        (m.Load id req).2.storage = m.storage.put id r' ∧
        ((r'.state = (workRecord m id e).state ∧ r'.asset = (workRecord m id e).asset) ∨
          (r'.state = AssetState.Loading ∧ r'.asset = (workRecord m id e).asset) ∨
          ∃ st, r'.state =
              (DoLoadSync_ { m with stats := st } (workRecord m id e) e req).2.1.state ∧
            r'.asset =
              (DoLoadSync_ { m with stats := st } (workRecord m id e) e req).2.1.asset) := by
  cases hres : (m.ResolveEntry_ id req).1 with
  | error err =>
    left
    rw [(load_resolve_error m id req hres).2]
  | ok e =>
    right
    refine ⟨e, ?_⟩
    have hw : (m.storage.GetOrCreate id e.type e.resolvedPath).1 = workRecord m id e :=
      getOrCreate_fst id m.storage e.type e.resolvedPath
    generalize workRecord m id e = w at hw ⊢
    by_cases hhit : w.state = AssetState.Ready ∧ req.reload = false
    · refine ⟨{ w with refCount := (w.refCount + 1) % U32 }, rfl, ?_, Or.inl ⟨rfl, rfl⟩⟩
      simp [Load, hres, hw, getOrCreate_put, AssetRecord.IsReady, AssetRequest.IsReload, hhit]
    · by_cases hasync : req.sync = SyncWith.Async
      · by_cases hl : w.state = AssetState.Loading
        · refine ⟨{ w with refCount := (w.refCount + 1) % U32 }, rfl, ?_, Or.inl ⟨rfl, rfl⟩⟩
          simp [Load, hres, hw, getOrCreate_put, AssetRecord.IsReady, AssetRequest.IsReload,
            AssetRequest.IsAsync, hasync, AssetRecord.IsLoading, hhit, hl]
        · refine ⟨{ w.MarkLoading with refCount := (w.refCount + 1) % U32 }, rfl, ?_,
            Or.inr (Or.inl ⟨rfl, rfl⟩)⟩
          simp [Load, hres, hw, getOrCreate_put, AssetRecord.IsReady, AssetRequest.IsReload,
            AssetRequest.IsAsync, hasync, AssetRecord.IsLoading, hhit, hl]
      · have hsync : req.sync = SyncWith.Sync := by
          cases hs : req.sync <;> simp_all
        set st1 : Option AssetStatistics :=
          (if w.IsReady = false ∧ req.IsReload = false then
            statHook ((m.stat StatEvent.LoadRequest).ResolveEntry_ id req).2 StatEvent.CacheMiss
          else ((m.stat StatEvent.LoadRequest).ResolveEntry_ id req).2) with hst1
        cases hd : (DoLoadSync_ { m with stats := st1 } w e req).1 with
        | error err =>
          refine ⟨(DoLoadSync_ { m with stats := st1 } w e req).2.1, rfl, ?_,
            Or.inr (Or.inr ⟨st1, rfl, rfl⟩)⟩
          simp only [Load, resolve_stat_fst, hres, hw, getOrCreate_put, ← hst1, hd]
          simp [AssetRecord.IsReady, AssetRequest.IsReload, AssetRequest.IsAsync, hsync, hhit]
          split_ifs <;> rfl
        | ok u =>
          refine ⟨{ (DoLoadSync_ { m with stats := st1 } w e req).2.1 with
            refCount := ((DoLoadSync_ { m with stats := st1 } w e req).2.1.refCount + 1) % U32 },
            rfl, ?_, Or.inr (Or.inr ⟨st1, rfl, rfl⟩)⟩
          simp only [Load, resolve_stat_fst, hres, hw, getOrCreate_put, ← hst1, hd]
          simp [AssetRecord.IsReady, AssetRequest.IsReload, AssetRequest.IsAsync, hsync, hhit]

/-- The record worked on holds no payload when it is `Failed` or `Unloaded`,
provided the stored records do. -/
theorem workRecord_failed_empty (h : FailedEmpty m) (id : AssetId) (e : ResolvedEntry)
    (hs : (workRecord m id e).state = AssetState.Failed ∨
      (workRecord m id e).state = AssetState.Unloaded) :
    (workRecord m id e).asset = AnyAsset.none := by
  unfold workRecord at hs ⊢
  cases hf : m.storage.Find id with
  | none => rfl
  | some r =>
    simp only [hf, Option.getD_some] at hs ⊢
    exact h id r hf hs

/-- One drained job keeps the invariant. -/
theorem processJob_failedEmpty (job : PendingLoad) (h : FailedEmpty m) :
    FailedEmpty (m.ProcessJob_ job) := by
  intro i r hr hs
  by_cases hi : i = job.id
  · subst hi
    cases hres : (m.ResolveEntry_ job.id job.req).1 with
    | error err =>
      cases hf : m.storage.Find job.id with
      | none =>
        have : (m.ProcessJob_ job).storage = m.storage := by simp [ProcessJob_, hres, hf]
        rw [this, hf] at hr
        cases hr
      | some rcd =>
        have : (m.ProcessJob_ job).storage = m.storage.put job.id (rcd.SetFailed err) := by
          simp [ProcessJob_, hres, hf]
        rw [this, find_put] at hr
        simp at hr
        subst hr
        simp [AssetRecord.SetFailed, AnyAsset.Reset, AnyAsset.none]
    | ok e =>
      have hw : (m.storage.GetOrCreate job.id e.type e.resolvedPath).1 = workRecord m job.id e :=
        getOrCreate_fst job.id m.storage e.type e.resolvedPath
      have : (m.ProcessJob_ job).storage = m.storage.put job.id
          (DoLoadSync_ { m with stats := (m.ResolveEntry_ job.id job.req).2 }
            (workRecord m job.id e) e job.req).2.1 := by
        simp [ProcessJob_, hres, hw, getOrCreate_put]
      rw [this, find_put] at hr
      simp at hr
      subst hr
      exact doLoad_failed_empty _ _ _ _ hs
  · rw [processJob_other m job i hi] at hr
    exact h i r hr hs

/-- Draining keeps the invariant. -/
theorem drainJobs_failedEmpty (jobs : List PendingLoad) :
    ∀ m : AssetManager, FailedEmpty m → FailedEmpty (drainJobs m jobs) := by
  induction jobs with
  | nil => intro m h; exact h
  | cons job rest ih =>
    intro m h
    rw [drainJobs_cons]
    exact ih _ (processJob_failedEmpty m job h)

/-- Every operation keeps the invariant. -/
theorem run_failedEmpty (op : Op) (h : FailedEmpty m) : FailedEmpty (m.run op) := by
  cases op with
  | Load id req =>
    intro i r hr hs
    simp only [AssetManager.run] at hr
    rcases load_record_shape m id req with hst | ⟨e, r', -, hst, hshape⟩
    · rw [hst] at hr
      exact h i r hr hs
    · rw [hst, find_put] at hr
      by_cases hi : i = id
      · simp [hi] at hr
        subst hr
        rcases hshape with ⟨h1, h2⟩ | ⟨h1, h2⟩ | ⟨st, h1, h2⟩
        · rw [h2]
          exact workRecord_failed_empty m h id e (by rw [← h1]; exact hs)
        · rw [h1] at hs
          rcases hs with hs | hs <;> cases hs
        · rw [h2]
          exact doLoad_failed_empty _ _ _ _ (by rw [← h1]; exact hs)
      · simp [hi] at hr
        exact h i r hr hs
  | Acquire hd =>
    intro i r hr hs
    simp only [AssetManager.run] at hr
    rcases acquire_storage_cases m hd with hst | ⟨r0, h0, hst⟩
    · rw [hst] at hr
      exact h i r hr hs
    · rw [hst, find_put] at hr
      by_cases hi : i = hd.id
      · simp [hi] at hr
        subst hr
        exact h hd.id r0 h0 hs
      · simp [hi] at hr
        exact h i r hr hs
  | Release hd =>
    intro i r hr hs
    simp only [AssetManager.run] at hr
    rcases release_storage_cases m hd with hst | ⟨r0, h0, hst⟩
    · rw [hst] at hr
      exact h i r hr hs
    · rw [hst, find_put] at hr
      by_cases hi : i = hd.id
      · simp [hi] at hr
        subst hr
        exact h hd.id r0 h0 hs
      · simp [hi] at hr
        exact h i r hr hs
  | Update =>
    have hq : ∀ m : AssetManager, FailedEmpty m → FailedEmpty m.ProcessQueue_ := by
      intro m hm i r hr hs
      rw [processQueue_eq] at hr
      exact drainJobs_failedEmpty _ m hm i r hr hs
    have hh : FailedEmpty m.ProcessHotReload_ := by
      intro i r hr hs
      rw [(hotReload_keeps m).1] at hr
      exact h i r hr hs
    simp only [AssetManager.run, Update]
    split_ifs
    · exact hq _ hh
    · exact hq _ h
  | EvictIfPossible id =>
    intro i r hr hs
    simp only [AssetManager.run] at hr
    rcases evict_storage_cases m id with hst | ⟨-, hst⟩
    · rw [hst] at hr
      exact h i r hr hs
    · rw [hst] at hr
      by_cases hi : i = id
      · subst hi
        simp [AssetStorage.Find] at hr
      · simp [AssetStorage.Find, Function.update, hi] at hr
        exact h i r hr hs
  | BeginFrame n => exact h
  | SetOptions o => exact h
  | Watch id path =>
    intro i r hr hs
    simp only [AssetManager.run, Watch] at hr
    cases hw : m.watcher <;> simp only [hw] at hr <;> exact h i r hr hs
  | Unwatch id =>
    intro i r hr hs
    simp only [AssetManager.run, Unwatch] at hr
    cases hw : m.watcher <;> simp only [hw] at hr <;> exact h i r hr hs
  | env c p w => exact h

/-- In every reachable state a `Failed` or `Unloaded` record holds no payload. -/
theorem reachable_failedEmpty {m : AssetManager} (h : Reachable m) : FailedEmpty m := by
  induction h with
  | init c p l pol st w =>
    intro i r hr
    simp [AssetManager.new, AssetStorage.Find, AssetStorage.empty] at hr
  | step m op _ ih => exact run_failedEmpty m op ih

end FailedRecords

section ResolverShape

open AssetPathResolver

/-- No segment of the segment loop holds a `/`. -/
theorem segments_no_slash : ∀ (l : List Char), ∀ seg ∈ segments l, '/' ∉ seg := by
  intro l
  induction l with
  | nil =>
    intro seg hseg
    simp [segments] at hseg
    subst hseg
    simp
  | cons c cs ih =>
    intro seg hseg
    unfold segments at hseg
    by_cases hc : c = '/'
    · simp only [hc, if_true, List.mem_cons] at hseg
      rcases hseg with hseg | hseg
      · subst hseg
        simp
      · exact ih seg hseg
    · simp only [hc, if_false] at hseg
      cases hs : segments cs with
      | nil =>
        simp only [hs, List.mem_singleton] at hseg
        subst hseg
        simpa using fun h => hc h.symm
      | cons s rest =>
        simp only [hs, List.mem_cons] at hseg
        rcases hseg with hseg | hseg
        · subst hseg
          have := ih s (by rw [hs]; exact List.mem_cons_self _ _)
          simp only [List.mem_cons, not_or]
          exact ⟨fun h => hc h.symm, this⟩
        · exact ih seg (by rw [hs]; exact List.mem_cons_of_mem _ hseg)

/-- What the stack of `RemoveDotSegments` holds: non-empty segments other than `.`
and `..`, without `/`. -/
theorem dotStep_stack (segs : List (List Char)) (hsegs : ∀ seg ∈ segs, '/' ∉ seg) :
    ∀ acc : List (List Char) × Bool,
      (∀ seg ∈ acc.1, seg ≠ [] ∧ seg ≠ ['.'] ∧ seg ≠ ['.', '.'] ∧ '/' ∉ seg) →
      ∀ seg ∈ (segs.foldl dotStep acc).1,
        seg ≠ [] ∧ seg ≠ ['.'] ∧ seg ≠ ['.', '.'] ∧ '/' ∉ seg := by
  induction segs with
  | nil => intro acc h; exact h
  | cons s rest ih =>
    intro acc h
    simp only [List.foldl_cons]
    apply ih (fun seg hseg => hsegs seg (List.mem_cons_of_mem _ hseg))
    unfold dotStep
    by_cases h1 : s = [] ∨ s = ['.']
    · simp only [h1, if_true]
      exact h
    · simp only [h1, if_false]
      by_cases h2 : s = ['.', '.']
      · simp only [h2, if_true]
        by_cases h3 : acc.1 ≠ []
        · rw [if_pos h3]
          intro seg hseg
          exact h seg (List.mem_of_mem_dropLast hseg)
        · rw [if_neg h3]
          exact h
      · simp only [h2, if_false]
        intro seg hseg
        rcases List.mem_append.1 hseg with hseg | hseg
        · exact h seg hseg
        · simp only [List.mem_singleton] at hseg
          subst hseg
          exact ⟨fun hc => h1 (Or.inl hc), fun hc => h1 (Or.inr hc), h2,
            hsegs seg (List.mem_cons_self _ _)⟩

/-- The output loop after a non-empty output that does not end in `/`: every
stacked segment is appended behind a `/`. -/
theorem joinSegments_after (stk : List (List Char))
    (hstk : ∀ seg ∈ stk, seg ≠ [] ∧ '/' ∉ seg) :
    ∀ out : List Char, out ≠ [] → out.getLast? ≠ some '/' →
      joinSegments out stk = out ++ (stk.map (fun s => '/' :: s)).flatten := by
  induction stk with
  | nil => intro out _ _; simp [joinSegments]
  | cons s rest ih =>
    intro out h1 h2
    obtain ⟨hs1, hs2⟩ := hstk s (List.mem_cons_self _ _)
    have hlast : (out ++ ['/'] ++ s).getLast? ≠ some '/' := by
      rw [List.getLast?_append_of_ne_nil _ hs1]
      intro hc
      exact hs2 (List.mem_of_getLast?_eq_some hc)
    simp only [joinSegments, h1, h2, ne_eq, not_false_eq_true, and_self, if_true]
    rw [ih (fun seg hseg => hstk seg (List.mem_cons_of_mem _ hseg)) _ (by simp) hlast]
    simp

/-- The output loop after an empty output or one that ends in `/`: the first
stacked segment is appended as it is, every later one behind a `/`. -/
theorem joinSegments_front (s : List Char) (rest : List (List Char))
    (hstk : ∀ seg ∈ s :: rest, seg ≠ [] ∧ '/' ∉ seg) (out : List Char)
    (hout : out = [] ∨ out.getLast? = some '/') :
    joinSegments out (s :: rest) = out ++ (s ++ (rest.map (fun x => '/' :: x)).flatten) := by
  obtain ⟨hs1, hs2⟩ := hstk s (List.mem_cons_self _ _)
  have hno : ¬(out ≠ [] ∧ out.getLast? ≠ some '/') := by
    rintro ⟨h1, h2⟩
    rcases hout with h | h
    · exact h1 h
    · exact h2 h
  have hlast : (out ++ s).getLast? ≠ some '/' := by
    rw [List.getLast?_append_of_ne_nil _ hs1]
    intro hc
    exact hs2 (List.mem_of_getLast?_eq_some hc)
  simp only [joinSegments, hno, if_false]
  rw [joinSegments_after rest (fun seg hseg => hstk seg (List.mem_cons_of_mem _ hseg)) _
    (by simp [hs1]) hlast]
  simp

/-- Splitting the joined segments at `/` gives the segments back. -/
theorem segments_join (rest : List (List Char)) :
    ∀ s : List Char, (∀ seg ∈ s :: rest, '/' ∉ seg) →
      segments (s ++ (rest.map (fun x => '/' :: x)).flatten) = s :: rest := by
  induction rest with
  | nil =>
    intro s hs
    have h0 := hs s (List.mem_cons_self _ _)
    simp only [List.map_nil, List.flatten_nil, List.append_nil]
    clear hs
    induction s with
    | nil => rfl
    | cons c cs ih =>
      have hc : c ≠ '/' := fun h => h0 (by simp [h])
      have := ih (fun h => h0 (List.mem_cons_of_mem _ h))
      simp [segments, hc, this]
  | cons u rest ih =>
    intro s hs
    have h0 := hs s (List.mem_cons_self _ _)
    have hrest := ih u (fun seg hseg => hs seg (List.mem_cons_of_mem _ hseg))
    clear hs
    induction s with
    | nil =>
      simp only [List.map_cons, List.flatten_cons, List.nil_append, List.cons_append]
      simp [segments, hrest]
    | cons c cs ih2 =>
      have hc : c ≠ '/' := fun h => h0 (by simp [h])
      have := ih2 (fun h => h0 (List.mem_cons_of_mem _ h))
      simp only [List.cons_append]
      unfold segments
      simp only [hc, if_false]
      rw [this]

/-- The part `RemoveDotSegments` keeps in front is empty, `/`, `//` or a drive
letter with `:/`. -/
theorem splitRoot_front (p : List Char) :
    (splitRoot p).1 = [] ∨ (splitRoot p).1 = ['/'] ∨ (splitRoot p).1 = ['/', '/'] ∨
      ∃ c : Char, c.isAlpha = true ∧ (splitRoot p).1 = [c, ':', '/'] := by
  unfold splitRoot
  split
  · split_ifs with h1 h2 h3
    · exact Or.inr (Or.inr (Or.inr ⟨_, h1.1, by rw [h1.2.1, h1.2.2]⟩))
    · exact Or.inr (Or.inr (Or.inl rfl))
    · exact Or.inr (Or.inl rfl)
    · exact Or.inl rfl
  · split_ifs
    · exact Or.inr (Or.inr (Or.inl rfl))
    · exact Or.inr (Or.inl rfl)
    · exact Or.inl rfl
  · split_ifs
    · exact Or.inr (Or.inl rfl)
    · exact Or.inl rfl
  · exact Or.inl rfl

/-- Shape of the output of `RemoveDotSegments`: the kept front part, followed by
nothing or by segments joined with `/`, none of them empty, `.` or `..`. -/
theorem removeDotSegments_shape (path : String) :
    ∃ front rest : List Char, (RemoveDotSegments path).1.data = front ++ rest ∧
      (front = [] ∨ front = ['/'] ∨ front = ['/', '/'] ∨
        ∃ c : Char, c.isAlpha = true ∧ front = [c, ':', '/']) ∧
      (rest = [] ∨
        ∀ seg ∈ segments rest, seg ≠ [] ∧ seg ≠ ['.'] ∧ seg ≠ ['.', '.']) := by
  have hfront := splitRoot_front path.data
  have hstk := dotStep_stack (segments (splitRoot path.data).2)
    (segments_no_slash _) ([], false) (by simp)
  have hend : (splitRoot path.data).1 = [] ∨ (splitRoot path.data).1.getLast? = some '/' := by
    rcases hfront with h | h | h | ⟨c, -, h⟩
    · exact Or.inl h
    · rw [h]; exact Or.inr rfl
    · rw [h]; exact Or.inr rfl
    · rw [h]; exact Or.inr rfl
  unfold RemoveDotSegments
  simp only []
  generalize (splitRoot path.data).1 = front at hfront hend ⊢
  generalize ((segments (splitRoot path.data).2).foldl dotStep ([], false)) = r at hstk ⊢
  cases hr : r.1 with
  | nil =>
    refine ⟨front, [], ?_, hfront, Or.inl rfl⟩
    by_cases hf : front = []
    · simp [hf, joinSegments]
    · simp [hf, joinSegments]
  | cons s rest =>
    rw [hr] at hstk
    have hgood : ∀ seg ∈ s :: rest, seg ≠ [] ∧ '/' ∉ seg :=
      fun seg hseg => ⟨(hstk seg hseg).1, (hstk seg hseg).2.2.2⟩
    refine ⟨front, s ++ (rest.map (fun x => '/' :: x)).flatten, ?_, hfront, Or.inr ?_⟩
    · simp [joinSegments_front s rest hgood front hend]
    · rw [segments_join rest s (fun seg hseg => (hgood seg hseg).2)]
      intro seg hseg
      exact ⟨(hstk seg hseg).1, (hstk seg hseg).2.1, (hstk seg hseg).2.2.1⟩

end ResolverShape

section Decoders

/-- The `P3` branch of `DecodePPM` once the header is read and the pixel loop has
produced its bytes. -/
theorem decodePPM_ascii (p p1 p2 p3 body : List Byte) (b : Byte) (w h : Int) (px : List Nat)
    (ctx : LoadContext)
    (h1 : TextureLoader.ReadInt p = some (w, p1))
    (h2 : TextureLoader.ReadInt p1 = some (h, p2))
    (h3 : TextureLoader.ReadInt p2 = some (255, p3))
    (hw : 0 < w) (hh : 0 < h)
    (hbody : TextureLoader.SkipCommentsAndSpaces p3 = b :: body)
    (hpx : TextureLoader.p3Pixels ctx.resolvedPath (TextureLoader.wrapInt (w * h)).toNat
      (b :: body) = Except.ok px) :
    TextureLoader.DecodePPM (80 :: 51 :: p) ctx =
      Except.ok ⟨w.toNat, h.toNat,
        px ++ List.replicate (w.toNat * h.toNat * 4 - px.length) 0⟩ := by
  have hw2 : ¬(w ≤ 0 ∨ h ≤ 0) := by omega
  have a1 : ((80 : Byte) : Nat) = 80 := rfl
  have a2 : ((51 : Byte) : Nat) = 51 := rfl
  simp only [TextureLoader.DecodePPM, h1, h2, h3, hbody, hpx, hw2, a1, a2]
  simp

/-- A one-byte read inside the input has a result. -/
theorem readU8_some (bytes : ByteBuffer) (i : Nat) (h : i < bytes.length) :
    ∃ v, SoundLoader.readU8 bytes i = some v := by
  unfold SoundLoader.readU8
  rw [List.get?_eq_get h]
  exact ⟨_, rfl⟩

/-- A two-byte read inside the input has a result. -/
theorem readU16_some (bytes : ByteBuffer) (i : Nat) (h : i + 2 ≤ bytes.length) :
    ∃ v, SoundLoader.ReadU16LE bytes i = some v := by
  obtain ⟨a, ha⟩ := readU8_some bytes i (by omega)
  obtain ⟨b, hb⟩ := readU8_some bytes (i + 1) (by omega)
  exact ⟨a + b * 256, by simp [SoundLoader.ReadU16LE, ha, hb]⟩

/-- A four-byte read inside the input has a result. -/
theorem readU32_some (bytes : ByteBuffer) (i : Nat) (h : i + 4 ≤ bytes.length) :
    ∃ v, SoundLoader.ReadU32LE bytes i = some v := by
  obtain ⟨a, ha⟩ := readU8_some bytes i (by omega)
  obtain ⟨b, hb⟩ := readU8_some bytes (i + 1) (by omega)
  obtain ⟨c, hc⟩ := readU8_some bytes (i + 2) (by omega)
  obtain ⟨d, hd⟩ := readU8_some bytes (i + 3) (by omega)
  exact ⟨a + b * 256 + c * 65536 + d * 16777216,
    by simp [SoundLoader.ReadU32LE, ha, hb, hc, hd]⟩

/-- A four-byte comparison inside the input has a result. -/
theorem tagAt_some (bytes : ByteBuffer) (i : Nat) (tag : List Nat)
    (h : i + 4 ≤ bytes.length) : ∃ v, SoundLoader.tagAt bytes i tag = some v := by
  obtain ⟨a, ha⟩ := readU8_some bytes i (by omega)
  obtain ⟨b, hb⟩ := readU8_some bytes (i + 1) (by omega)
  obtain ⟨c, hc⟩ := readU8_some bytes (i + 2) (by omega)
  obtain ⟨d, hd⟩ := readU8_some bytes (i + 3) (by omega)
  exact ⟨decide ([a, b, c, d] = tag), by simp [SoundLoader.tagAt, ha, hb, hc, hd]⟩

/-- The chunk loop reads only inside the input and ends within one iteration per
eight bytes left; at its exit the format fields and the data pointer come
from chunks that lie inside the input. -/
theorem chunkWalk_some (bytes : ByteBuffer) (path : String) :
    ∀ (fuel off : Nat) (f : SoundLoader.WavFields),
      SoundLoader.FmtFrom bytes f → SoundLoader.DataFrom bytes f →
      bytes.length ≤ off + 8 * fuel →
      ∃ r, SoundLoader.chunkWalk bytes path fuel off f = some r ∧
        ∀ f', r = Except.ok f' → SoundLoader.FmtFrom bytes f' ∧ SoundLoader.DataFrom bytes f' := by
  intro fuel
  induction fuel with
  | zero =>
    intro off f hf hd hn
    have : ¬(off + 8 ≤ bytes.length) := by omega
    refine ⟨Except.ok f, by simp [SoundLoader.chunkWalk, this], ?_⟩
    intro f' hf'
    cases hf'
    exact ⟨hf, hd⟩
  | succ fuel ih =>
    intro off f hf hd hn
    unfold SoundLoader.chunkWalk
    by_cases hlen : off + 8 ≤ bytes.length
    · simp only [hlen, if_true]
      obtain ⟨ck, hck⟩ := readU32_some bytes (off + 4) (by omega)
      simp only [hck]
      by_cases hfit : bytes.length < off + 8 + ck
      · simp only [hfit, if_true]
        refine ⟨Except.ok f, rfl, ?_⟩
        intro f' hf'
        cases hf'
        exact ⟨hf, hd⟩
      · simp only [hfit, if_false]
        have hnext : bytes.length ≤ off + 8 + (ck + ck % 2) % 4294967296 + 8 * fuel := by omega
        obtain ⟨t1, ht1⟩ := tagAt_some bytes off SoundLoader.fmtTag (by omega)
        cases t1 with
        | true =>
          simp only [ht1]
          by_cases h16 : ck < 16
          · simp only [h16, if_true]
            refine ⟨_, rfl, ?_⟩
            intro f' hf'
            cases hf'
          · simp only [h16, if_false]
            obtain ⟨af, haf⟩ := readU16_some bytes (off + 8 + 0) (by omega)
            obtain ⟨ch, hch⟩ := readU16_some bytes (off + 8 + 2) (by omega)
            obtain ⟨sr, hsr⟩ := readU32_some bytes (off + 8 + 4) (by omega)
            obtain ⟨bits, hbits⟩ := readU16_some bytes (off + 8 + 14) (by omega)
            simp only [haf, hch, hsr, hbits]
            exact ih _ _
              (Or.inr ⟨off, ck, ht1, hck, by omega, by omega, haf, hch, hsr, hbits⟩)
              (by
                rcases hd with hd | ⟨c, h1, h2, h3, h4⟩
                · exact Or.inl hd
                · exact Or.inr ⟨c, h1, h2, h3, h4⟩)
              hnext
        | false =>
          simp only [ht1]
          obtain ⟨t2, ht2⟩ := tagAt_some bytes off SoundLoader.dataTag (by omega)
          cases t2 with
          | true =>
            simp only [ht2]
            exact ih _ _
              (by
                rcases hf with hf | ⟨c, size, h1, h2, h3, h4, h5, h6, h7, h8⟩
                · exact Or.inl hf
                · exact Or.inr ⟨c, size, h1, h2, h3, h4, h5, h6, h7, h8⟩)
              (Or.inr ⟨off, rfl, ht2, hck, by
                show off + 8 + ck ≤ bytes.length
                omega⟩)
              hnext
          | false =>
            simp only [ht2]
            exact ih _ _ hf hd hnext
    · simp only [hlen, if_false]
      refine ⟨Except.ok f, rfl, ?_⟩
      intro f' hf'
      cases hf'
      exact ⟨hf, hd⟩

/-- The sample loop reads only inside a data chunk that lies in the input; sample
`i` is the signed value of the two bytes at offset `2 i` of the data. -/
theorem readSamples_some (bytes : ByteBuffer) (d : Nat) :
    ∀ count : Nat, d + count * 2 ≤ bytes.length →
      ∃ pcm, SoundLoader.readSamples bytes d count = some pcm ∧ pcm.length = count ∧
        ∀ i, i < count → ∃ u, SoundLoader.ReadU16LE bytes (d + i * 2) = some u ∧
          pcm[i]? = some (SoundLoader.toInt16 u) := by
  intro count
  induction count with
  | zero =>
    intro _
    exact ⟨[], rfl, rfl, fun i hi => absurd hi (Nat.not_lt_zero i)⟩
  | succ k ih =>
    intro h
    obtain ⟨xs, hxs, hlen, hall⟩ := ih (by omega)
    obtain ⟨u, hu⟩ := readU16_some bytes (d + k * 2) (by omega)
    refine ⟨xs ++ [SoundLoader.toInt16 u], by simp [SoundLoader.readSamples, hxs, hu],
      by simp [hlen], ?_⟩
    intro i hi
    by_cases hik : i < k
    · obtain ⟨v, hv1, hv2⟩ := hall i hik
      refine ⟨v, hv1, ?_⟩
      rw [List.getElem?_append_left (by omega)]
      exact hv2
    · have hk : i = k := by omega
      subst hk
      refine ⟨u, hu, ?_⟩
      rw [List.getElem?_append_right (by omega)]
      simp [hlen]

end Decoders

section KeepAlive

/-- Catalog resolution reads no `keepAliveFramesOverride`. -/
theorem resolve_keepAlive (m : AssetManager) (id : AssetId) (req : AssetRequest) (k : Nat) :
    m.ResolveEntry_ id (withKeepAlive req k) = m.ResolveEntry_ id req := rfl

/-- With a pipeline that ignores the field, so does `DoLoadSync_`. -/
theorem doLoad_keepAlive (m : AssetManager) (hb : KeepAliveBlind m.pipeline) (r : AssetRecord)
    (e : ResolvedEntry) (req : AssetRequest) (k : Nat) :
    m.DoLoadSync_ r e (withKeepAlive req k) = m.DoLoadSync_ r e req := by
  have h : m.pipeline.Load
      ⟨r.MarkLoading.id, e.type, e.resolvedPath, withKeepAlive req k, m.stats, m.frame⟩ =
      m.pipeline.Load ⟨r.MarkLoading.id, e.type, e.resolvedPath, req, m.stats, m.frame⟩ :=
    hb ⟨r.MarkLoading.id, e.type, e.resolvedPath, req, m.stats, m.frame⟩ k
  unfold DoLoadSync_
  simp only [h]
  rfl

theorem forget_idem (m : AssetManager) :
    forgetKeepAlive (forgetKeepAlive m) = forgetKeepAlive m := by
  simp [forgetKeepAlive, withKeepAlive, Function.comp_def]

theorem forget_eq (m : AssetManager) :
    forgetKeepAlive m =
      { m with
        queue := m.queue.map (fun j => ⟨j.id, withKeepAlive j.req 0⟩)
        queued := m.queued } := rfl

/-- A drained job is processed alike whatever its `keepAliveFramesOverride`. -/
theorem processJob_keepAlive (m : AssetManager) (hb : KeepAliveBlind m.pipeline)
    (job : PendingLoad) (k : Nat) :
    m.ProcessJob_ ⟨job.id, withKeepAlive job.req k⟩ = m.ProcessJob_ job := by
  have hd : ∀ st r e, DoLoadSync_ { m with stats := st } r e (withKeepAlive job.req k) =
      DoLoadSync_ { m with stats := st } r e job.req :=
    fun st r e => doLoad_keepAlive { m with stats := st } hb r e job.req k
  unfold ProcessJob_
  simp only [resolve_keepAlive, hd]

theorem processJob_forget (m : AssetManager) (job : PendingLoad) :
    forgetKeepAlive (m.ProcessJob_ job) = (forgetKeepAlive m).ProcessJob_ job := by
  have h := processJob_congr m job (m.queue.map (fun j => ⟨j.id, withKeepAlive j.req 0⟩))
    m.queued
  have hf : forgetKeepAlive m =
      { m with
        queue := m.queue.map (fun j => ⟨j.id, withKeepAlive j.req 0⟩)
        queued := m.queued } := rfl
  obtain ⟨-, -, -, -, -, -, hq, hqd⟩ := processJob_env m job
  rw [hf, h]
  apply manager_eq <;> first | rfl | simp [forgetKeepAlive, hq, hqd]

theorem blind_of_eq {p q : AssetPipeline} (h : p = q) (hb : KeepAliveBlind q) :
    KeepAliveBlind p := h ▸ hb

theorem loop_step_forget (m : AssetManager) (hb : KeepAliveBlind m.pipeline)
    (job : PendingLoad) (rest : List PendingLoad) (s : Finset AssetId) :
    forgetKeepAlive (ProcessJob_ { m with queue := rest, queued := s } job) =
      forgetKeepAlive
        (ProcessJob_
          { forgetKeepAlive m with
            queue := rest.map (fun j => ⟨j.id, withKeepAlive j.req 0⟩)
            queued := s }
          ⟨job.id, withKeepAlive job.req 0⟩) := by
  have hk := processJob_keepAlive
    { forgetKeepAlive m with
      queue := rest.map (fun j => ⟨j.id, withKeepAlive j.req 0⟩)
      queued := s } hb job 0
  rw [hk, processJob_forget, processJob_forget]
  congr 1
  simp [forgetKeepAlive, withKeepAlive, Function.comp_def]

/-- The drain loop commutes with forgetting the field. -/
theorem loop_forget (b : Nat) :
    ∀ m : AssetManager, KeepAliveBlind m.pipeline →
      forgetKeepAlive (ProcessQueueLoop_ b m) =
        forgetKeepAlive (ProcessQueueLoop_ b (forgetKeepAlive m)) := by
  induction b with
  | zero =>
    intro m _
    exact (forget_idem m).symm
  | succ b ih =>
    intro m hb
    cases hq : m.queue with
    | nil =>
      have h2 : (forgetKeepAlive m).queue = [] := by simp [forgetKeepAlive, hq]
      simp only [ProcessQueueLoop_, hq, h2]
      exact (forget_idem m).symm
    | cons job rest =>
      have h2 : (forgetKeepAlive m).queue =
          ⟨job.id, withKeepAlive job.req 0⟩ ::
            rest.map (fun j => ⟨j.id, withKeepAlive j.req 0⟩) := by
        simp [forgetKeepAlive, hq]
      simp only [ProcessQueueLoop_, hq, h2]
      have e1 := ih (ProcessJob_ { m with queue := rest, queued := m.queued.erase job.id } job)
        (blind_of_eq (processJob_env _ _).2.1 hb)
      have e2 := ih
        (ProcessJob_
          { forgetKeepAlive m with
            queue := rest.map (fun j => ⟨j.id, withKeepAlive j.req 0⟩)
            queued := (forgetKeepAlive m).queued.erase job.id }
          ⟨job.id, withKeepAlive job.req 0⟩)
        (blind_of_eq (processJob_env _ _).2.1 hb)
      refine Eq.trans e1 (Eq.trans ?_ e2.symm)
      exact congrArg (fun x => forgetKeepAlive (ProcessQueueLoop_ b x))
        (loop_step_forget m hb job rest (m.queued.erase job.id))

theorem processQueue_forget (m : AssetManager) (hb : KeepAliveBlind m.pipeline) :
    forgetKeepAlive m.ProcessQueue_ = forgetKeepAlive (forgetKeepAlive m).ProcessQueue_ := by
  unfold ProcessQueue_
  cases hq : m.queue with
  | nil =>
    have h2 : (forgetKeepAlive m).queue = [] := by simp [forgetKeepAlive, hq]
    simp only [h2]
    exact (forget_idem m).symm
  | cons job rest =>
    have h2 : (forgetKeepAlive m).queue =
        ⟨job.id, withKeepAlive job.req 0⟩ ::
          rest.map (fun j => ⟨j.id, withKeepAlive j.req 0⟩) := by
      simp [forgetKeepAlive, hq]
    simp only [h2]
    exact loop_forget _ m hb

theorem enqueue_forget (m : AssetManager) (id : AssetId) (req : AssetRequest) :
    forgetKeepAlive (m.EnqueueLoad_ id req) =
      (forgetKeepAlive m).EnqueueLoad_ id (withKeepAlive req 0) := by
  unfold EnqueueLoad_
  by_cases h : id ∈ m.queued
  · have h2 : id ∈ (forgetKeepAlive m).queued := h
    rw [if_pos h, if_pos h2]
  · have h2 : id ∉ (forgetKeepAlive m).queued := h
    rw [if_neg h, if_neg h2]
    simp [forgetKeepAlive]

theorem foldl_enqueue_forget (l : List AssetChange) :
    ∀ acc : AssetManager,
      forgetKeepAlive
          (l.foldl (fun acc ch => acc.EnqueueLoad_ ch.id (hotReloadRequest acc.opt)) acc) =
        l.foldl (fun acc ch => acc.EnqueueLoad_ ch.id (hotReloadRequest acc.opt))
          (forgetKeepAlive acc) := by
  induction l with
  | nil => intro acc; rfl
  | cons c cs ih =>
    intro acc
    simp only [List.foldl_cons]
    rw [ih, enqueue_forget]
    rfl

theorem hotReload_forget (m : AssetManager) :
    forgetKeepAlive m.ProcessHotReload_ = (forgetKeepAlive m).ProcessHotReload_ := by
  unfold ProcessHotReload_
  have hw : (forgetKeepAlive m).watcher = m.watcher := rfl
  rw [hw]
  cases m.watcher with
  | none => rfl
  | some w =>
    simp only []
    cases w.Poll.1 with
    | nil => rfl
    | cons c cs =>
      simp only []
      rw [foldl_enqueue_forget]
      rfl

theorem foldl_enqueue_pipeline (l : List AssetChange) :
    ∀ acc : AssetManager,
      (l.foldl (fun acc ch => acc.EnqueueLoad_ ch.id (hotReloadRequest acc.opt))
        acc).pipeline = acc.pipeline := by
  induction l with
  | nil => intro acc; rfl
  | cons c cs ih =>
    intro acc
    simp only [List.foldl_cons]
    rw [ih]
    simp

theorem hotReload_pipeline (m : AssetManager) : m.ProcessHotReload_.pipeline = m.pipeline := by
  unfold ProcessHotReload_
  cases m.watcher with
  | none => rfl
  | some w =>
    simp only []
    cases w.Poll.1 with
    | nil => rfl
    | cons c cs =>
      simp only []
      rw [foldl_enqueue_pipeline]

theorem processQueue_pipeline (m : AssetManager) : m.ProcessQueue_.pipeline = m.pipeline := by
  rw [processQueue_eq]
  exact (drainJobs_env _ m).2.2.2.1

theorem update_pipeline (m : AssetManager) : m.Update.pipeline = m.pipeline := by
  unfold Update
  split_ifs
  · rw [processQueue_pipeline, hotReload_pipeline]
  · rw [processQueue_pipeline]

theorem update_forget (m : AssetManager) (hb : KeepAliveBlind m.pipeline) :
    forgetKeepAlive m.Update = forgetKeepAlive (forgetKeepAlive m).Update := by
  unfold Update
  have ho : (forgetKeepAlive m).opt = m.opt := rfl
  have hw : (forgetKeepAlive m).watcher = m.watcher := rfl
  rw [ho, hw]
  split_ifs
  · rw [processQueue_forget _ (blind_of_eq (hotReload_pipeline m) hb), hotReload_forget]
  · exact processQueue_forget m hb

/-- Two `Load` calls whose requests differ in `keepAliveFramesOverride` only
return the same result and leave managers that differ at most in that field
of the queued request. -/
theorem load_keepAlive (m : AssetManager) (hb : KeepAliveBlind m.pipeline) (id : AssetId)
    (req : AssetRequest) (k : Nat) :
    (m.Load id (withKeepAlive req k)).1 = (m.Load id req).1 ∧
      forgetKeepAlive (m.Load id (withKeepAlive req k)).2 =
        forgetKeepAlive (m.Load id req).2 := by
  have hd : ∀ st r e, DoLoadSync_ { m with stats := st } r e (withKeepAlive req k) =
      DoLoadSync_ { m with stats := st } r e req :=
    fun st r e => doLoad_keepAlive { m with stats := st } hb r e req k
  have hq : (m.EnqueueLoad_ id (withKeepAlive req k)).queued = (m.EnqueueLoad_ id req).queued := by
    unfold EnqueueLoad_
    split_ifs <;> rfl
  have hqq : (m.EnqueueLoad_ id (withKeepAlive req k)).queue.map
        (fun j => (⟨j.id, withKeepAlive j.req 0⟩ : PendingLoad)) =
      (m.EnqueueLoad_ id req).queue.map
        (fun j => (⟨j.id, withKeepAlive j.req 0⟩ : PendingLoad)) := by
    unfold EnqueueLoad_
    split_ifs
    · rfl
    · simp [withKeepAlive]
  have hres : (m.stat StatEvent.LoadRequest).ResolveEntry_ id (withKeepAlive req k) =
      (m.stat StatEvent.LoadRequest).ResolveEntry_ id req := rfl
  have hre : (withKeepAlive req k).IsReload = req.IsReload := rfl
  have hpin : (withKeepAlive req k).pin = req.pin := rfl
  have hasync : (withKeepAlive req k).IsAsync = req.IsAsync := rfl
  have hfb : (withKeepAlive req k).fallback = req.fallback := rfl
  unfold Load
  simp only [hres, hre, hpin, hasync, hfb, hd, hq]
  constructor
  · repeat' (first | rfl | split)
  · repeat' (first | rfl | split)
    all_goals
      unfold forgetKeepAlive
      simp only [hqq]

/-- `Load` commutes with forgetting the field in the queue. -/
theorem load_forget (m : AssetManager) (id : AssetId) (req : AssetRequest) :
    forgetKeepAlive (m.Load id req).2 = forgetKeepAlive ((forgetKeepAlive m).Load id req).2 := by
  obtain ⟨c, p, s, l, cp, st, w, o, f, q, qd⟩ := m
  obtain ⟨D, hD⟩ : ∃ D : Option AssetStatistics → AssetRecord → ResolvedEntry →
      Except AssetError Unit × AssetRecord × Option AssetStatistics,
      ∀ st1 r e Q QD,
        DoLoadSync_ ⟨c, p, s, l, cp, st1, w, o, f, Q, QD⟩ r e req = D st1 r e :=
    ⟨fun st1 r e => DoLoadSync_ ⟨c, p, s, l, cp, st1, w, o, f, [], ∅⟩ r e req,
      fun _ _ _ _ _ => rfl⟩
  obtain ⟨R, hR⟩ : ∃ R : Except AssetError ResolvedEntry × Option AssetStatistics,
      ∀ Q QD,
        ResolveEntry_ (AssetManager.stat ⟨c, p, s, l, cp, st, w, o, f, Q, QD⟩
          StatEvent.LoadRequest) id req = R :=
    ⟨ResolveEntry_ (AssetManager.stat ⟨c, p, s, l, cp, st, w, o, f, [], ∅⟩
        StatEvent.LoadRequest) id req, fun _ _ => rfl⟩
  simp only [forgetKeepAlive, Load, hR, hD, EnqueueLoad_]
  repeat' (first | rfl | split)
  all_goals simp [withKeepAlive, Function.comp_def]

/-- Every operation commutes with forgetting the field in the queue. -/
theorem run_forget (m : AssetManager) (hb : KeepAliveBlind m.pipeline) (op : Op) :
    forgetKeepAlive (m.run op) = forgetKeepAlive ((forgetKeepAlive m).run op) := by
  cases op with
  | Load id req => exact load_forget m id req
  | Update => exact update_forget m hb
  | Acquire h =>
    obtain ⟨c, p, s, l, cp, st, w, o, f, q, qd⟩ := m
    simp only [AssetManager.run, Acquire, FindRecord_, forgetKeepAlive]
    repeat' (first | rfl | split)
    all_goals simp [withKeepAlive, Function.comp_def]
  | Release h =>
    obtain ⟨c, p, s, l, cp, st, w, o, f, q, qd⟩ := m
    simp only [AssetManager.run, Release, FindRecord_, forgetKeepAlive]
    repeat' (first | rfl | split)
    all_goals simp [withKeepAlive, Function.comp_def]
  | EvictIfPossible id =>
    obtain ⟨c, p, s, l, cp, st, w, o, f, q, qd⟩ := m
    simp only [AssetManager.run, EvictIfPossible, forgetKeepAlive]
    repeat' (first | rfl | split)
    all_goals simp [withKeepAlive, Function.comp_def]
  | BeginFrame n =>
    obtain ⟨c, p, s, l, cp, st, w, o, f, q, qd⟩ := m
    simp [AssetManager.run, BeginFrame, forgetKeepAlive, withKeepAlive, Function.comp_def]
  | SetOptions o2 =>
    obtain ⟨c, p, s, l, cp, st, w, o, f, q, qd⟩ := m
    simp [AssetManager.run, SetOptions, forgetKeepAlive, withKeepAlive, Function.comp_def]
  | Watch id path =>
    obtain ⟨c, p, s, l, cp, st, w, o, f, q, qd⟩ := m
    simp only [AssetManager.run, AssetManager.Watch, forgetKeepAlive]
    repeat' (first | rfl | split)
    all_goals simp [withKeepAlive, Function.comp_def]
  | Unwatch id =>
    obtain ⟨c, p, s, l, cp, st, w, o, f, q, qd⟩ := m
    simp only [AssetManager.run, AssetManager.Unwatch, forgetKeepAlive]
    repeat' (first | rfl | split)
    all_goals simp [withKeepAlive, Function.comp_def]
  | env c2 p2 w2 =>
    obtain ⟨c, p, s, l, cp, st, w, o, f, q, qd⟩ := m
    simp [AssetManager.run, forgetKeepAlive, withKeepAlive, Function.comp_def]

/-- Operations keep the pipeline blind to the field. -/
theorem run_blind (m : AssetManager) (hb : KeepAliveBlind m.pipeline) (op : Op)
    (hop : OpBlind op) : KeepAliveBlind (m.run op).pipeline := by
  cases op with
  | Load id req =>
    have h : (m.run (Op.Load id req)).pipeline = m.pipeline := (load_env m id req).2.1
    rw [h]
    exact hb
  | Update =>
    have h : (m.run Op.Update).pipeline = m.pipeline := update_pipeline m
    rw [h]
    exact hb
  | Acquire h =>
    have h : (m.run (Op.Acquire h)).pipeline = m.pipeline := by
      simp only [AssetManager.run, Acquire]
      repeat' (first | rfl | split)
    rw [h]
    exact hb
  | Release h =>
    have h : (m.run (Op.Release h)).pipeline = m.pipeline := by
      simp only [AssetManager.run, Release]
      repeat' (first | rfl | split)
    rw [h]
    exact hb
  | EvictIfPossible id =>
    have h : (m.run (Op.EvictIfPossible id)).pipeline = m.pipeline := by
      simp only [AssetManager.run, EvictIfPossible]
      repeat' (first | rfl | split)
    rw [h]
    exact hb
  | BeginFrame n => exact hb
  | SetOptions o => exact hb
  | Watch id path =>
    have h : (m.run (Op.Watch id path)).pipeline = m.pipeline := by
      simp only [AssetManager.run, AssetManager.Watch]
      repeat' (first | rfl | split)
    rw [h]
    exact hb
  | Unwatch id =>
    have h : (m.run (Op.Unwatch id)).pipeline = m.pipeline := by
      simp only [AssetManager.run, AssetManager.Unwatch]
      repeat' (first | rfl | split)
    rw [h]
    exact hb
  | env c p w => exact hop

/-- Managers that differ at most in the `keepAliveFramesOverride` of queued
requests stay so under every sequence of operations. -/
theorem runAll_forget (ops : List Op) :
    ∀ a b : AssetManager, KeepAliveBlind a.pipeline → KeepAliveBlind b.pipeline →
      (∀ op ∈ ops, OpBlind op) → forgetKeepAlive a = forgetKeepAlive b →
      forgetKeepAlive (a.runAll ops) = forgetKeepAlive (b.runAll ops) := by
  induction ops with
  | nil => intro a b _ _ _ h; exact h
  | cons op rest ih =>
    intro a b ha hb hops h
    have hop : OpBlind op := hops op (List.mem_cons_self _ _)
    have hstep : forgetKeepAlive (a.run op) = forgetKeepAlive (b.run op) := by
      rw [run_forget a ha op, run_forget b hb op, h]
    exact ih (a.run op) (b.run op) (run_blind a ha op hop) (run_blind b hb op hop)
      (fun o ho => hops o (List.mem_cons_of_mem _ ho)) hstep

/-- A pipeline whose registered decoders ignore the field is blind to it. -/
theorem pipeline_blind (p : AssetPipeline)
    (hdec : ∀ (t : AssetType) (l : IAssetLoader) (buf : ByteBuffer) (ctx : LoadContext)
      (k : Nat), p.registry.Find t = some l →
      l.Load buf { ctx with request := withKeepAlive ctx.request k } = l.Load buf ctx) :
    KeepAliveBlind p := by
  intro ctx k
  unfold AssetPipeline.Load
  have h1 : ({ ctx with request := withKeepAlive ctx.request k } : LoadContext).HasPath =
      ctx.HasPath := rfl
  simp only [h1]
  cases hfind : p.registry.Find ctx.type with
  | none => rfl
  | some l =>
    have hd := fun buf => hdec ctx.type l buf ctx k hfind
    simp only [hd]

/-- The pipeline of the tests, with the text decoder only, is blind to the field. -/
theorem testPipeline_blind (t : AssetType) (files : List (String × ByteBuffer)) :
    KeepAliveBlind (testPipeline t files) := by
  apply pipeline_blind
  intro t2 l buf ctx k hfind
  have hl : l = TextLoader t := by
    simp only [testPipeline, LoaderRegistry.Register, LoaderRegistry.empty,
      LoaderRegistry.Find] at hfind
    split_ifs at hfind
    all_goals
      first
      | cases hfind
      | (simp only [Function.update_apply] at hfind
         split_ifs at hfind
         exact (Option.some.inj hfind).symm)
  subst hl
  rfl

/-- The eviction decision does not read the queue. -/
theorem evict_forget (m : AssetManager) (i : AssetId) :
    ((forgetKeepAlive m).EvictIfPossible i).1 = (m.EvictIfPossible i).1 := by
  have hs : (forgetKeepAlive m).storage = m.storage := rfl
  have hl : (forgetKeepAlive m).lifetime = m.lifetime := rfl
  have hf : (forgetKeepAlive m).frame = m.frame := rfl
  have hc : (forgetKeepAlive m).cachePolicy = m.cachePolicy := rfl
  unfold EvictIfPossible
  rw [hs, hl, hf, hc]
  repeat' (first | rfl | split)

/-- Managers that agree after forgetting the field have the same store and the
same lifetime bookkeeping. -/
theorem forget_fields {a b : AssetManager} (h : forgetKeepAlive a = forgetKeepAlive b) :
    a.storage = b.storage ∧ a.lifetime = b.lifetime := by
  have h1 : (forgetKeepAlive a).storage = (forgetKeepAlive b).storage := by rw [h]
  have h2 : (forgetKeepAlive a).lifetime = (forgetKeepAlive b).lifetime := by rw [h]
  exact ⟨h1, h2⟩

end KeepAlive

section TextureShape

/-- The `P6` pixel loop writes four bytes per three source bytes, the fourth
being 255. -/
theorem p6Pixels_shape :
    ∀ (n : Nat) (l : List Byte), l.length = 3 * n →
      (TextureLoader.p6Pixels l).length = 4 * n ∧
        ∀ i, i < n → (TextureLoader.p6Pixels l)[4 * i + 3]? = some 255 := by
  intro n
  induction n with
  | zero =>
    intro l hl
    have : l = [] := List.length_eq_zero.1 (by omega)
    subst this
    exact ⟨rfl, fun i hi => absurd hi (Nat.not_lt_zero i)⟩
  | succ n ih =>
    intro l hl
    match l, hl with
    | r :: g :: b :: rest, hl =>
      have hrest : rest.length = 3 * n := by
        simp only [List.length_cons] at hl
        omega
      obtain ⟨h1, h2⟩ := ih rest hrest
      refine ⟨by simp only [TextureLoader.p6Pixels, List.length_cons, h1]; omega, ?_⟩
      intro i hi
      cases i with
      | zero => simp [TextureLoader.p6Pixels]
      | succ j =>
        have hj := h2 j (by omega)
        have e : 4 * (j + 1) + 3 = (4 * j + 3) + 4 := by omega
        rw [e]
        simpa [TextureLoader.p6Pixels] using hj
    | [], hl => simp at hl
    | [_], hl => simp only [List.length_cons, List.length_nil] at hl; omega
    | [_, _], hl => simp only [List.length_cons, List.length_nil] at hl; omega

/-- The `P3` pixel loop, when it succeeds, has written four bytes per iteration,
the fourth being 255. -/
theorem p3Pixels_shape (path : String) :
    ∀ (n : Nat) (p : List Byte) (px : List Nat),
      TextureLoader.p3Pixels path n p = Except.ok px →
      px.length = 4 * n ∧ ∀ i, i < n → px[4 * i + 3]? = some 255 := by
  intro n
  induction n with
  | zero =>
    intro p px h
    simp only [TextureLoader.p3Pixels] at h
    cases h
    exact ⟨rfl, fun i hi => absurd hi (Nat.not_lt_zero i)⟩
  | succ n ih =>
    intro p px h
    unfold TextureLoader.p3Pixels at h
    cases h1 : TextureLoader.ReadInt p with
    | none => simp [h1] at h
    | some r1 =>
      obtain ⟨r, p1⟩ := r1
      simp only [h1] at h
      cases h2 : TextureLoader.ReadInt p1 with
      | none => simp [h2] at h
      | some r2 =>
        obtain ⟨g, p2⟩ := r2
        simp only [h2] at h
        cases h3 : TextureLoader.ReadInt p2 with
        | none => simp [h3] at h
        | some r3 =>
          obtain ⟨b, p3⟩ := r3
          simp only [h3] at h
          split_ifs at h
          cases h4 : TextureLoader.p3Pixels path n p3 with
          | error e => simp [h4] at h
          | ok px1 =>
            simp only [h4] at h
            cases h
            obtain ⟨l1, l2⟩ := ih p3 px1 h4
            refine ⟨by simp only [List.length_cons, l1]; omega, ?_⟩
            intro i hi
            cases i with
            | zero => simp
            | succ j =>
              have hj := l2 j (by omega)
              have e : 4 * (j + 1) + 3 = (4 * j + 3) + 4 := by omega
              rw [e]
              simpa using hj

/-- The `int` product of two positive values, reduced to 32 bits, is at most the
exact product, and equal to it below `2 ^ 31`. -/
theorem wrapInt_mul (w h : Int) (hw : 0 < w) (hh : 0 < h) :
    (TextureLoader.wrapInt (w * h)).toNat ≤ w.toNat * h.toNat ∧
      (w.toNat * h.toNat < 2147483648 →
        (TextureLoader.wrapInt (w * h)).toNat = w.toNat * h.toNat) := by
  have e : w * h = ((w.toNat * h.toNat : Nat) : Int) := by
    rw [Nat.cast_mul, Int.toNat_of_nonneg (le_of_lt hw), Int.toNat_of_nonneg (le_of_lt hh)]
  generalize w.toNat * h.toNat = N at e
  rw [e]
  unfold TextureLoader.wrapInt
  constructor
  · omega
  · intro hN
    omega

/-- A successful `DecodePPM` gives positive dimensions and a buffer of
`width * height * 4` bytes; in the binary format, and in the ASCII format
when `width * height` is below `2 ^ 31`, every fourth byte is 255. -/
theorem decodePPM_shape (bytes : ByteBuffer) (ctx : LoadContext) (t : TextureAsset)
    (h : TextureLoader.DecodePPM bytes ctx = Except.ok t) :
    0 < t.width ∧ 0 < t.height ∧ t.rgba.length = t.width * t.height * 4 ∧
      ((bytes.take 2 = [80, 54] ∨ t.width * t.height < 2147483648) →
        ∀ i, i < t.width * t.height → t.rgba[4 * i + 3]? = some 255) := by
  match bytes, h with
  | [], h => cases h
  | [_], h => cases h
  | b0 :: b1 :: p, h =>
    unfold TextureLoader.DecodePPM at h
    simp only [] at h
    by_cases hfmt : ¬(b0.val = 80 ∧ b1.val = 54) ∧ ¬(b0.val = 80 ∧ b1.val = 51)
    · rw [if_pos hfmt] at h
      cases h
    rw [if_neg hfmt] at h
    cases h1 : TextureLoader.ReadInt p with
    | none => simp [h1] at h
    | some r1 =>
      obtain ⟨w, p1⟩ := r1
      simp only [h1] at h
      cases h2 : TextureLoader.ReadInt p1 with
      | none => simp [h2] at h
      | some r2 =>
        obtain ⟨hh, p2⟩ := r2
        simp only [h2] at h
        cases h3 : TextureLoader.ReadInt p2 with
        | none => simp [h3] at h
        | some r3 =>
          obtain ⟨maxv, p3⟩ := r3
          simp only [h3] at h
          by_cases hdim : w ≤ 0 ∨ hh ≤ 0
          · rw [if_pos hdim] at h
            cases h
          rw [if_neg hdim] at h
          by_cases hmax : maxv ≠ 255
          · rw [if_pos hmax] at h
            cases h
          rw [if_neg hmax] at h
          have hw : 0 < w := by omega
          have hh0 : 0 < hh := by omega
          have hwn : 0 < w.toNat := by omega
          have hhn : 0 < hh.toNat := by omega
          cases hb : TextureLoader.SkipCommentsAndSpaces p3 with
          | nil =>
            rw [hb] at h
            cases h
          | cons c body =>
            rw [hb] at h
            simp only [] at h
            by_cases hp6 : b0.val = 80 ∧ b1.val = 54
            · rw [if_pos hp6] at h
              by_cases hsmall : (c :: body).length < w.toNat * hh.toNat * 3
              · rw [if_pos hsmall] at h
                cases h
              rw [if_neg hsmall] at h
              cases h
              have hlen : ((c :: body).take (w.toNat * hh.toNat * 3)).length =
                  3 * (w.toNat * hh.toNat) := by
                rw [List.length_take]
                omega
              obtain ⟨l1, l2⟩ := p6Pixels_shape _ _ hlen
              exact ⟨hwn, hhn, by rw [l1]; ring, fun _ i hi => l2 i hi⟩
            · rw [if_neg hp6] at h
              cases hpx : TextureLoader.p3Pixels ctx.resolvedPath
                  (TextureLoader.wrapInt (w * hh)).toNat (c :: body) with
              | error e =>
                rw [hpx] at h
                cases h
              | ok px =>
                rw [hpx] at h
                cases h
                obtain ⟨l1, l2⟩ := p3Pixels_shape _ _ _ _ hpx
                obtain ⟨m1, m2⟩ := wrapInt_mul w hh hw hh0
                refine ⟨hwn, hhn, ?_, ?_⟩
                · simp only [List.length_append, List.length_replicate]
                  omega
                · intro hcase i hi
                  have hno : w.toNat * hh.toNat < 2147483648 := by
                    rcases hcase with hc | hc
                    · exfalso
                      apply hp6
                      simp at hc
                      obtain ⟨e1, e2⟩ := hc
                      subst e1 e2
                      exact ⟨rfl, rfl⟩
                    · exact hc
                  have hn := m2 hno
                  have hi2 : i < w.toNat * hh.toNat := hi
                  rw [List.getElem?_append_left (by omega)]
                  exact l2 i (by omega)

/-- The `P6` branch of `DecodePPM` once the header is read. -/
theorem decodePPM_binary (p p1 p2 p3 : List Byte) (w h : Int) (ctx : LoadContext)
    (h1 : TextureLoader.ReadInt p = some (w, p1))
    (h2 : TextureLoader.ReadInt p1 = some (h, p2))
    (h3 : TextureLoader.ReadInt p2 = some (255, p3))
    (hw : 0 < w) (hh : 0 < h) :
    TextureLoader.DecodePPM (80 :: 54 :: p) ctx =
      match TextureLoader.SkipCommentsAndSpaces p3 with
      | [] =>
        Except.error
          (AssetError.Make AssetErrorCode.DecodeFailed "PPM: missing body" ctx.resolvedPath)
      | body =>
        if body.length < w.toNat * h.toNat * 3 then
          Except.error
            (AssetError.Make AssetErrorCode.DecodeFailed "PPM(P6): body too small"
              ctx.resolvedPath)
        else
          Except.ok
            ⟨w.toNat, h.toNat, TextureLoader.p6Pixels (body.take (w.toNat * h.toNat * 3))⟩ := by
  have hw2 : ¬(w ≤ 0 ∨ h ≤ 0) := by omega
  have a1 : ((80 : Byte) : Nat) = 80 := rfl
  have a2 : ((54 : Byte) : Nat) = 54 := rfl
  simp only [TextureLoader.DecodePPM, h1, h2, h3, hw2, a1, a2]
  simp

theorem skipSpaces_length (p : List Byte) : (TextureLoader.SkipSpaces p).length ≤ p.length := by
  induction p with
  | nil => exact Nat.le_refl _
  | cons b rest ih =>
    unfold TextureLoader.SkipSpaces
    split_ifs
    · exact Nat.le_succ_of_le ih
    · exact Nat.le_refl _

theorem skipToNewline_length (p : List Byte) :
    (TextureLoader.skipToNewline p).length ≤ p.length := by
  induction p with
  | nil => exact Nat.le_refl _
  | cons b rest ih =>
    unfold TextureLoader.skipToNewline
    split_ifs
    · exact Nat.le_refl _
    · exact Nat.le_succ_of_le ih

/-- Skipping whitespace and comments returns a list no longer than its input. -/
theorem skipComments_length (fuel : Nat) :
    ∀ p : List Byte, (TextureLoader.SkipCommentsLoop fuel p).length ≤ p.length := by
  induction fuel with
  | zero => intro p; exact Nat.le_refl _
  | succ fuel ih =>
    intro p
    unfold TextureLoader.SkipCommentsLoop
    have hs := skipSpaces_length p
    cases hsk : TextureLoader.SkipSpaces p with
    | nil => exact Nat.zero_le _
    | cons b rest =>
      rw [hsk] at hs
      simp only []
      split_ifs
      · exact le_trans (ih _) (le_trans (skipToNewline_length _) hs)
      · exact hs

/-- A leading whitespace byte or `#` is consumed by `SkipCommentsAndSpaces`,
whatever follows. -/
theorem skipComments_first (fuel : Nat) (a : Byte) (rest : List Byte)
    (ha : TextureLoader.isSpace a = true ∨ a.val = 35) :
    (TextureLoader.SkipCommentsLoop (fuel + 1) (a :: rest)).length ≤ rest.length := by
  unfold TextureLoader.SkipCommentsLoop
  by_cases hsp : TextureLoader.isSpace a = true
  · have hs := skipSpaces_length rest
    have e : TextureLoader.SkipSpaces (a :: rest) = TextureLoader.SkipSpaces rest := by
      rw [TextureLoader.SkipSpaces, if_pos hsp]
    rw [e]
    cases hsk : TextureLoader.SkipSpaces rest with
    | nil => exact Nat.zero_le _
    | cons b r2 =>
      rw [hsk] at hs
      simp only []
      split_ifs
      · exact le_trans (skipComments_length _ _) (le_trans (skipToNewline_length _) hs)
      · exact hs
  · have h35 : a.val = 35 := by
      rcases ha with ha | ha
      · exact absurd ha hsp
      · exact ha
    have e : TextureLoader.SkipSpaces (a :: rest) = a :: rest := by
      rw [TextureLoader.SkipSpaces, if_neg hsp]
    rw [e]
    simp only [h35, if_true]
    have e2 : TextureLoader.skipToNewline (a :: rest) = TextureLoader.skipToNewline rest := by
      rw [TextureLoader.skipToNewline, if_neg (by omega)]
    rw [e2]
    exact le_trans (skipComments_length _ _) (skipToNewline_length _)

end TextureShape

/-! ## Claims -/

/-- The pipeline outcome when the path is not empty, a decoder is registered for the
type, the source reads the path and the decoder succeeds. -/
theorem pipeline_ok (m : AssetManager) (cid : AssetId) (e : ResolvedEntry)
    (req : AssetRequest) (loader : IAssetLoader) (bytes : ByteBuffer) (a : AnyAsset)
    (hpath : e.resolvedPath ≠ "")
    (hreg : m.pipeline.registry.Find e.type = some loader)
    (hread : m.pipeline.source.ReadAll e.resolvedPath = Except.ok bytes)
    (hdec : ∀ st, loader.Load bytes ⟨cid, e.type, e.resolvedPath, req, st, m.frame⟩ =
      Except.ok a) :
    PipelineGives m cid e req (Except.ok a) := by
  intro st
  simp [AssetPipeline.Load, LoadContext.HasPath, hpath, hreg, hread, hdec]

/-- C1 (amended): for a `Ready` record with generation `g < 2^32 - 1`, a synchronous
reload request whose pipeline load succeeds makes `Load` return a handle of
generation `g + 1`; afterwards every handle of generation `g` reads `Unloaded`
and no payload, and the new handle reads `Ready` and the newly decoded payload. -/
theorem reload_success_bumps_generation (m : AssetManager) (id : AssetId) (req : AssetRequest)
    (rcd : AssetRecord) (e : ResolvedEntry) (a : AnyAsset) (T : PayloadKind)
    (hrec : m.storage.Find id = some rcd) (hready : rcd.state = AssetState.Ready)
    (hsync : req.sync = SyncWith.Sync) (hreload : req.reload = true)
    (hres : (m.ResolveEntry_ id req).1 = Except.ok e)
    (hpipe : PipelineGives m rcd.id e req (Except.ok a))
    (hgen : rcd.generation + 1 < U32) :
    (m.Load id req).1 = Except.ok (AssetHandle.Make id (rcd.generation + 1)) ∧
      (∀ h : AssetHandle, h.id = id → h.generation = rcd.generation →
        (m.Load id req).2.GetState h = AssetState.Unloaded ∧
        (m.Load id req).2.GetShared T h = none) ∧
      (m.Load id req).2.GetState (AssetHandle.Make id (rcd.generation + 1)) = AssetState.Ready ∧
      (m.Load id req).2.GetShared T (AssetHandle.Make id (rcd.generation + 1)) = a.ShareAs T := by
  have hw : workRecord m id e = rcd := by simp [workRecord, hrec]
  have hmod : (rcd.generation + 1) % U32 = rcd.generation + 1 := Nat.mod_eq_of_lt hgen
  obtain ⟨h1, h2, -⟩ := load_sync_ok m id req hres (by simp [hreload]) hsync (by rw [hw]; exact hpipe)
  rw [hw] at h1 h2
  refine ⟨?_, ?_, ?_, ?_⟩
  · simp [h1, loadedRecord, hreload, hready, hmod]
  · intro h hid hg
    subst hid
    simp [GetState, GetShared, FindRecord_, AssetStorage.Find, h2, AssetStorage.put, loadedRecord,
      hreload, hready, hmod, hg]
  · simp [GetState, FindRecord_, AssetStorage.Find, h2, AssetStorage.put, loadedRecord,
      hreload, hready, hmod, AssetHandle.Make]
  · simp [GetShared, FindRecord_, AssetStorage.Find, h2, AssetStorage.put, loadedRecord,
      hreload, hready, hmod, AssetHandle.Make, AssetRecord.IsReady]

/-- C1 witness: the reload of the tests, generation 1 to 2, reading `"world"`. -/
theorem reload_success_bumps_generation_witness :
    ((readyManager 1 1 helloBytes worldBytes).Load ⟨1⟩ reloadRequest).1 =
        Except.ok (AssetHandle.Make ⟨1⟩ (1 + 1)) ∧
      ((readyManager 1 1 helloBytes worldBytes).Load ⟨1⟩ reloadRequest).2.GetShared PayloadKind.Text
          (AssetHandle.Make ⟨1⟩ (1 + 1)) =
        (AnyAsset.FromShared (Payload.text ⟨worldBytes⟩)).ShareAs PayloadKind.Text := by
  have h := reload_success_bumps_generation (readyManager 1 1 helloBytes worldBytes) ⟨1⟩ reloadRequest
    (readyRecord 1 1 helloBytes) ⟨⟨7⟩, titlePath⟩ (AnyAsset.FromShared (Payload.text ⟨worldBytes⟩))
    PayloadKind.Text rfl rfl rfl rfl rfl (fun _ => rfl) (by decide)
  exact ⟨h.1, h.2.2.2⟩

/-- C1 counterexample: the state in which the `Ready` record has generation
`2^32 - 1` is reachable (by `2^32 - 2` successful reloads); there the reload
succeeds and the handle returned carries generation 0, not `2^32`. -/
theorem reload_generation_wraps :
    Reachable (readyManager 4294967295 4294967295 helloBytes worldBytes) ∧
      (readyManager 4294967295 4294967295 helloBytes worldBytes).storage.Find ⟨1⟩ =
        some (readyRecord 4294967295 4294967295 helloBytes) ∧
      (readyRecord 4294967295 4294967295 helloBytes).state = AssetState.Ready ∧
      (readyRecord 4294967295 4294967295 helloBytes).generation = 4294967295 ∧
      ((readyManager 4294967295 4294967295 helloBytes worldBytes).ResolveEntry_ ⟨1⟩
        reloadRequest).1 = Except.ok ⟨⟨7⟩, titlePath⟩ ∧
      PipelineGives (readyManager 4294967295 4294967295 helloBytes worldBytes) ⟨1⟩
        ⟨⟨7⟩, titlePath⟩ reloadRequest
        (Except.ok (AnyAsset.FromShared (Payload.text ⟨worldBytes⟩))) ∧
      ((readyManager 4294967295 4294967295 helloBytes worldBytes).Load ⟨1⟩ reloadRequest).1 =
        Except.ok (AssetHandle.Make ⟨1⟩ 0) ∧
      ((readyManager 4294967295 4294967295 helloBytes worldBytes).Load ⟨1⟩ reloadRequest).1 ≠
        Except.ok (AssetHandle.Make ⟨1⟩ (4294967295 + 1)) := by
  refine ⟨reachable_wrap_generation worldBytes, rfl, rfl, rfl, rfl, fun _ => rfl, rfl, ?_⟩
  have h : ((readyManager 4294967295 4294967295 helloBytes worldBytes).Load ⟨1⟩
      reloadRequest).1 = Except.ok (AssetHandle.Make ⟨1⟩ 0) := rfl
  rw [h]
  simp [AssetHandle.Make]

/-- C2: on a `Ready` record with generation `g` and payload `p`, a synchronous
reload with fallback `KeepOldIfAny` whose pipeline load fails with error `err`
returns a handle of generation `g`; the record stays `Ready` with generation
`g`, the handle still reads `p`, and `GetError` reports `err`. -/
theorem reload_failure_keeps_old (m : AssetManager) (id : AssetId) (req : AssetRequest)
    (rcd : AssetRecord) (e : ResolvedEntry) (err : AssetError) (T : PayloadKind)
    (hrec : m.storage.Find id = some rcd) (hready : rcd.state = AssetState.Ready)
    (hsync : req.sync = SyncWith.Sync) (hreload : req.reload = true)
    (hk : req.fallback = Fallback.KeepOldIfAny)
    (hres : (m.ResolveEntry_ id req).1 = Except.ok e)
    (hpipe : PipelineGives m rcd.id e req (Except.error err))
    (herr : err.ok = false) :
    (m.Load id req).1 = Except.ok (AssetHandle.Make id rcd.generation) ∧
      (∃ r, (m.Load id req).2.storage.Find id = some r ∧ r.state = AssetState.Ready ∧
        r.generation = rcd.generation ∧ r.asset = rcd.asset ∧ r.error = err) ∧
      (m.Load id req).2.GetState (AssetHandle.Make id rcd.generation) = AssetState.Ready ∧
      (m.Load id req).2.GetShared T (AssetHandle.Make id rcd.generation) = rcd.asset.ShareAs T ∧
      (m.Load id req).2.GetError (AssetHandle.Make id rcd.generation) = some err := by
  obtain ⟨h1, h2, -⟩ := load_sync_err_keep m id req hres hrec hready hreload hsync hk hpipe
  refine ⟨h1, ?_, ?_, ?_, ?_⟩
  · refine ⟨{ rcd with error := err, refCount := (rcd.refCount + 1) % U32 }, ?_, hready, rfl, rfl,
      rfl⟩
    simp [h2, AssetStorage.Find, AssetStorage.put]
  · simp [GetState, FindRecord_, AssetStorage.Find, h2, AssetStorage.put, AssetHandle.Make, hready]
  · simp [GetShared, FindRecord_, AssetStorage.Find, h2, AssetStorage.put, AssetHandle.Make,
      AssetRecord.IsReady, hready]
  · simp [GetError, FindRecord_, AssetStorage.Find, h2, AssetStorage.put, AssetHandle.Make, herr]

/-- C2 witness: scenario 4 of the spec, a reload pointed at an unreadable path. -/
theorem reload_failure_keeps_old_witness :
    ((readyManager 1 1 helloBytes worldBytes).Load ⟨1⟩
        { reloadRequest with fallback := Fallback.KeepOldIfAny, overridePath := "mem://gone" }).1 =
        Except.ok (AssetHandle.Make ⟨1⟩ 1) ∧
      ((readyManager 1 1 helloBytes worldBytes).Load ⟨1⟩
        { reloadRequest with fallback := Fallback.KeepOldIfAny, overridePath := "mem://gone" }
        ).2.GetShared PayloadKind.Text (AssetHandle.Make ⟨1⟩ 1) =
        some (Payload.text ⟨helloBytes⟩) ∧
      ((readyManager 1 1 helloBytes worldBytes).Load ⟨1⟩
        { reloadRequest with fallback := Fallback.KeepOldIfAny, overridePath := "mem://gone" }
        ).2.GetError (AssetHandle.Make ⟨1⟩ 1) =
        some (AssetError.Make AssetErrorCode.SourceReadFailed "MemoryAssetSource: not found"
          "mem://gone") := by
  have h := reload_failure_keeps_old (readyManager 1 1 helloBytes worldBytes) ⟨1⟩
    { reloadRequest with fallback := Fallback.KeepOldIfAny, overridePath := "mem://gone" }
    (readyRecord 1 1 helloBytes) ⟨⟨7⟩, "mem://gone"⟩
    (AssetError.Make AssetErrorCode.SourceReadFailed "MemoryAssetSource: not found" "mem://gone")
    PayloadKind.Text rfl rfl rfl rfl rfl rfl (fun _ => rfl) rfl
  exact ⟨h.1, h.2.2.2.1, h.2.2.2.2⟩

/-- C3: a handle whose generation differs from the stored record's generation reads
`Unloaded`, no error and no payload, whatever the record holds, and these are
the results read for an identifier that has no record. -/
theorem stale_handle_reads_as_absent (m : AssetManager) (h : AssetHandle) (rcd : AssetRecord)
    (T : PayloadKind) (hrec : m.storage.Find h.id = some rcd)
    (hgen : rcd.generation ≠ h.generation) :
    (m.GetState h = AssetState.Unloaded ∧ m.GetError h = none ∧ m.GetShared T h = none ∧
        m.GetSharedConst T h = none) ∧
      ∀ m0 : AssetManager, m0.storage.Find h.id = none →
        m0.GetState h = m.GetState h ∧ m0.GetError h = m.GetError h ∧
          m0.GetShared T h = m.GetShared T h ∧ m0.GetSharedConst T h = m.GetSharedConst T h := by
  have hs : m.GetState h = AssetState.Unloaded ∧ m.GetError h = none ∧ m.GetShared T h = none ∧
      m.GetSharedConst T h = none := by
    simp [GetState, GetError, GetShared, GetSharedConst, FindRecord_, hrec, hgen]
  refine ⟨hs, fun m0 h0 => ?_⟩
  obtain ⟨h1, h2, h3, h4⟩ := hs
  rw [h1, h2, h3, h4]
  simp [GetState, GetError, GetShared, GetSharedConst, FindRecord_, h0]

/-- C3 witness: a generation-1 handle against a `Ready` record of generation 2. -/
theorem stale_handle_reads_as_absent_witness :
    (readyManager 2 1 helloBytes helloBytes).GetState (AssetHandle.Make ⟨1⟩ 1) = AssetState.Unloaded ∧
      (readyManager 2 1 helloBytes helloBytes).GetError (AssetHandle.Make ⟨1⟩ 1) = none ∧
      (readyManager 2 1 helloBytes helloBytes).GetShared PayloadKind.Text (AssetHandle.Make ⟨1⟩ 1) = none ∧
      (readyManager 2 1 helloBytes helloBytes).GetSharedConst PayloadKind.Text (AssetHandle.Make ⟨1⟩ 1) =
        none :=
  (stale_handle_reads_as_absent (readyManager 2 1 helloBytes helloBytes) (AssetHandle.Make ⟨1⟩ 1)
    (readyRecord 2 1 helloBytes) PayloadKind.Text rfl (by decide)).1

/-- C4 (amended): `GetShared` returns a payload only from a `Ready` record whose
generation equals the handle's; a successful reload of a record that is
`Ready` when the load runs, synchronous through `Load` or as a queued job
drained by `Update`, changes the generation, so right after it every handle
of the previous generation reads nothing; and an eviction that succeeds
erases the record, so that the next successful synchronous load stores a new
record and returns a handle of generation 1 again. -/
theorem stale_after_reload (m : AssetManager) (id : AssetId) (req : AssetRequest)
    (rcd : AssetRecord) (e : ResolvedEntry) (a : AnyAsset) (T : PayloadKind)
    (hrec : m.storage.Find id = some rcd) (hready : rcd.state = AssetState.Ready)
    (hreload : req.reload = true)
    (hres : (m.ResolveEntry_ id req).1 = Except.ok e)
    (hpipe : PipelineGives m rcd.id e req (Except.ok a)) :
    (∀ (m1 : AssetManager) (h : AssetHandle) (p : Payload), m1.GetShared T h = some p →
        ∃ r, m1.storage.Find h.id = some r ∧ r.generation = h.generation ∧
          r.state = AssetState.Ready ∧ r.asset.ShareAs T = some p) ∧
      (req.sync = SyncWith.Sync → ∀ h : AssetHandle, h.id = id →
        h.generation = rcd.generation → (m.Load id req).2.GetShared T h = none) ∧
      (∀ h : AssetHandle, h.id = id → h.generation = rcd.generation →
        (m.ProcessJob_ ⟨id, req⟩).GetShared T h = none) ∧
      ((m.EvictIfPossible id).1 = true →
        (m.EvictIfPossible id).2.storage.Find id = none ∧
        ∀ (req2 : AssetRequest) (e2 : ResolvedEntry) (a2 : AnyAsset),
          req2.sync = SyncWith.Sync →
          ((m.EvictIfPossible id).2.ResolveEntry_ id req2).1 = Except.ok e2 →
          PipelineGives (m.EvictIfPossible id).2 id e2 req2 (Except.ok a2) →
          ((m.EvictIfPossible id).2.Load id req2).1 = Except.ok (AssetHandle.Make id 1)) := by
  refine ⟨?_, ?_, ?_, ?_⟩
  · intro m1 h p hp
    unfold GetShared FindRecord_ at hp
    cases hf : m1.storage.Find h.id with
    | none => simp [hf] at hp
    | some r =>
      simp only [hf] at hp
      by_cases h1 : r.IsReady = false
      · simp [h1] at hp
      · by_cases h2 : r.generation ≠ h.generation
        · simp [h1, h2] at hp
        · refine ⟨r, rfl, not_not.mp h2, by simpa [AssetRecord.IsReady] using h1, ?_⟩
          simp only [h1, h2, if_false] at hp
          cases ht : h.typeHint with
          | none => simpa [ht] using hp
          | some t =>
            simp only [ht] at hp
            split_ifs at hp <;> exact hp
  · intro hsync h hid hg
    subst hid
    have hw : workRecord m h.id e = rcd := by simp [workRecord, hrec]
    obtain ⟨-, h2, -⟩ :=
      load_sync_ok m h.id req hres (by simp [hreload]) hsync (by rw [hw]; exact hpipe)
    rw [hw] at h2
    simp [GetShared, FindRecord_, h2, find_put, loadedRecord, hreload, hready, hg,
      succ_mod_ne rcd.generation]
  · intro h hid hg
    subst hid
    have h2 := processJob_reload_ok m h.id req hres hrec hpipe
    simp [GetShared, FindRecord_, h2, find_put, loadedRecord, hreload, hready, hg,
      succ_mod_ne rcd.generation]
  · intro hev
    have hnone : (m.EvictIfPossible id).2.storage.Find id = none := by
      rcases evict_storage_cases m id with hs | ⟨-, hs⟩
      · exfalso
        unfold EvictIfPossible at hev hs
        rw [hrec] at hev hs
        by_cases hc : m.cachePolicy.IsEvictable rcd m.lifetime m.frame = false
        · simp [hc] at hev
        · simp only [hc, if_false] at hs
          have hm : m.storage.map id = some rcd := hrec
          have := congrArg (fun s => s.map id) hs
          simp [AssetStorage.EraseIf, hm] at this
      · rw [hs]
        simp [AssetStorage.Find]
    refine ⟨hnone, ?_⟩
    intro req2 e2 a2 hsync2 hres2 hpipe2
    have hw : workRecord (m.EvictIfPossible id).2 id e2 =
        AssetStorage.fresh id e2.type e2.resolvedPath := by
      simp [workRecord, hnone]
    obtain ⟨h1, -⟩ := load_sync_ok (m.EvictIfPossible id).2 id req2 hres2
      (by simp [hw, AssetStorage.fresh]) hsync2 (by rw [hw]; exact hpipe2)
    rw [hw] at h1
    simpa [loadedRecord, AssetStorage.fresh] using h1

/-- C4 witness: after the reload of the tests the generation-1 handle reads nothing. -/
theorem stale_after_reload_witness :
    ((readyManager 1 1 helloBytes worldBytes).Load ⟨1⟩ reloadRequest).2.GetShared PayloadKind.Text
        (AssetHandle.Make ⟨1⟩ 1) = none ∧
      ((readyManager 1 1 helloBytes worldBytes).ProcessJob_ ⟨⟨1⟩, reloadRequest⟩).GetShared PayloadKind.Text
        (AssetHandle.Make ⟨1⟩ 1) = none :=
  let h := stale_after_reload (readyManager 1 1 helloBytes worldBytes) ⟨1⟩ reloadRequest (readyRecord 1 1 helloBytes)
    ⟨⟨7⟩, titlePath⟩ (AnyAsset.FromShared (Payload.text ⟨worldBytes⟩)) PayloadKind.Text
    rfl rfl rfl rfl (fun _ => rfl)
  ⟨h.2.1 rfl _ rfl rfl, h.2.2.1 _ rfl rfl⟩

/-- C4 counterexample: the handle issued by the first load read `"hello"`; after
eviction and a new load, and likewise after a queued job was drained over the
`Ready` record, the stored content is `"world"` and the same handle returns
it instead of nothing. -/
theorem old_handle_reads_replaced_content :
    ((freshManager.runAll (evictThenLoad.take 1)).GetShared PayloadKind.Text
        (AssetHandle.Make ⟨1⟩ 1) = some (Payload.text ⟨helloBytes⟩) ∧
      (freshManager.runAll (evictThenLoad.take 4)).storage.Find ⟨1⟩ = none ∧
      (freshManager.runAll evictThenLoad).GetShared PayloadKind.Text
        (AssetHandle.Make ⟨1⟩ 1) = some (Payload.text ⟨worldBytes⟩)) ∧
      ((freshManager.runAll (queuedJobAfterLoad.take 2)).GetShared PayloadKind.Text
        (AssetHandle.Make ⟨1⟩ 1) = some (Payload.text ⟨helloBytes⟩) ∧
      (freshManager.runAll queuedJobAfterLoad).GetShared PayloadKind.Text
        (AssetHandle.Make ⟨1⟩ 1) = some (Payload.text ⟨worldBytes⟩)) := by
  refine ⟨⟨rfl, rfl, rfl⟩, rfl, rfl⟩

/-- C5 (amended): on a `Ready` record, a request that is not a reload and resolves
returns a handle of the record's generation, adds 1 to `refCount` modulo
`2^32` (exactly 1 when `refCount < 2^32 - 1`), touches the lifetime entry,
leaves state, generation, payload and last error as they were, and does not
depend on the pipeline: with any other pipeline the result and the state
after the call are the same. -/
theorem cache_hit_load (m : AssetManager) (id : AssetId) (req : AssetRequest)
    (rcd : AssetRecord) (e : ResolvedEntry)
    (hrec : m.storage.Find id = some rcd) (hready : rcd.state = AssetState.Ready)
    (hnr : req.reload = false)
    (hres : (m.ResolveEntry_ id req).1 = Except.ok e) :
    (m.Load id req).1 = Except.ok (AssetHandle.Make id rcd.generation) ∧
      (m.Load id req).2.storage.Find id =
        some { rcd with refCount := (rcd.refCount + 1) % U32 } ∧
      (rcd.refCount + 1 < U32 →
        (m.Load id req).2.storage.Find id = some { rcd with refCount := rcd.refCount + 1 }) ∧
      (m.Load id req).2.stats =
        statHook (statHook (statHook m.stats StatEvent.LoadRequest) StatEvent.CatalogLookup)
          (StatEvent.CacheHit id) ∧
      ∀ p : AssetPipeline,
        (Load { m with pipeline := p } id req).1 = (m.Load id req).1 ∧
        (Load { m with pipeline := p } id req).2 = { (m.Load id req).2 with pipeline := p } := by
  have h := load_cache_hit m id req hres hrec hready hnr
  refine ⟨by rw [h], by rw [h]; simp [find_put], ?_, by rw [h], ?_⟩
  · intro hlt
    rw [h]
    simp [find_put, Nat.mod_eq_of_lt hlt]
  · intro p
    have hres' : (ResolveEntry_ { m with pipeline := p } id req).1 = Except.ok e := hres
    have h' := load_cache_hit { m with pipeline := p } id req hres' hrec hready hnr
    rw [h, h']
    exact ⟨rfl, rfl⟩

/-- C5 witness: the second load of the test "sync load -> cache hit". -/
theorem cache_hit_load_witness :
    ((readyManager 1 1 helloBytes helloBytes).Load ⟨1⟩ (testRequest ⟨7⟩)).1 =
        Except.ok (AssetHandle.Make ⟨1⟩ 1) ∧
      ((readyManager 1 1 helloBytes helloBytes).Load ⟨1⟩ (testRequest ⟨7⟩)).2.storage.Find ⟨1⟩ =
        some { readyRecord 1 1 helloBytes with refCount := 1 + 1 } :=
  let h := cache_hit_load (readyManager 1 1 helloBytes helloBytes) ⟨1⟩ (testRequest ⟨7⟩) (readyRecord 1 1 helloBytes)
    ⟨⟨7⟩, titlePath⟩ rfl rfl rfl rfl
  ⟨h.1, h.2.2.1 (by decide)⟩

/-- C5 counterexample: the state in which the `Ready` record has `refCount`
`2^32 - 1` is reachable (by `2^32 - 2` cache hits); there a cache hit leaves
`refCount = 0`, which is not one more than before. -/
theorem cache_hit_refCount_wraps :
    Reachable (readyManager 1 4294967295 helloBytes helloBytes) ∧
      (readyManager 1 4294967295 helloBytes helloBytes).storage.Find ⟨1⟩ =
        some (readyRecord 1 4294967295 helloBytes) ∧
      (readyRecord 1 4294967295 helloBytes).state = AssetState.Ready ∧
      ((readyManager 1 4294967295 helloBytes helloBytes).ResolveEntry_ ⟨1⟩ (testRequest ⟨7⟩)).1 =
        Except.ok ⟨⟨7⟩, titlePath⟩ ∧
      ((readyManager 1 4294967295 helloBytes helloBytes).Load ⟨1⟩ (testRequest ⟨7⟩)).1 =
        Except.ok (AssetHandle.Make ⟨1⟩ 1) ∧
      ((readyManager 1 4294967295 helloBytes helloBytes).Load ⟨1⟩
        (testRequest ⟨7⟩)).2.storage.Find ⟨1⟩ = some (readyRecord 1 0 helloBytes) ∧
      (readyRecord 1 0 helloBytes).refCount ≠
        (readyRecord 1 4294967295 helloBytes).refCount + 1 := by
  refine ⟨reachable_wrap_refCount, rfl, rfl, rfl, rfl, rfl, by decide⟩

/-- C6 (amended): in every manager state, for an identifier whose record is absent
or `Unloaded`, a synchronous non-reload request that resolves to a readable
path and a type whose registered decoder succeeds makes `Load` return a
handle of the record's generation: 1 for an absent record, which is created
with generation 1, and the stored generation for an `Unloaded` record.
Afterwards the record is `Ready` at that generation, holds the decoder's
output, has no error and has a `refCount` one higher than before modulo
`2^32`, and the returned handle reads `Ready` and no error.  In the states
the manager reaches from an empty store the record is absent and the
generation is 1. -/
theorem first_sync_load (m : AssetManager) (id : AssetId)
    (req : AssetRequest) (e : ResolvedEntry) (loader : IAssetLoader) (bytes : ByteBuffer)
    (a : AnyAsset)
    (habs : m.storage.Find id = none ∨
      ∃ r, m.storage.Find id = some r ∧ r.state = AssetState.Unloaded)
    (hsync : req.sync = SyncWith.Sync) (hnr : req.reload = false)
    (hres : (m.ResolveEntry_ id req).1 = Except.ok e)
    (hreg : m.pipeline.registry.Find e.type = some loader)
    (hread : m.pipeline.source.ReadAll e.resolvedPath = Except.ok bytes)
    (hdec : ∀ st, loader.Load bytes
      ⟨(m.storage.Find id).elim id AssetRecord.id, e.type, e.resolvedPath, req, st, m.frame⟩ =
      Except.ok a) :
    (m.Load id req).1 =
        Except.ok (AssetHandle.Make id ((m.storage.Find id).elim 1 AssetRecord.generation)) ∧
      (∃ r', (m.Load id req).2.storage.Find id = some r' ∧
        r'.state = AssetState.Ready ∧
        r'.generation = (m.storage.Find id).elim 1 AssetRecord.generation ∧ r'.asset = a ∧
        r'.error = AssetError.empty ∧
        r'.refCount = ((m.storage.Find id).elim 0 AssetRecord.refCount + 1) % U32) ∧
      (m.Load id req).2.GetState
          (AssetHandle.Make id ((m.storage.Find id).elim 1 AssetRecord.generation)) =
        AssetState.Ready ∧
      (m.Load id req).2.GetError
          (AssetHandle.Make id ((m.storage.Find id).elim 1 AssetRecord.generation)) = none ∧
      (m.storage.Find id = none →
        (m.Load id req).1 = Except.ok (AssetHandle.Make id 1) ∧
          ∃ r', (m.Load id req).2.storage.Find id = some r' ∧ r'.generation = 1 ∧
            r'.refCount = 1) ∧
      (Reachable m → m.storage.Find id = none) := by
  have hreach : Reachable m → m.storage.Find id = none := by
    intro hr
    rcases habs with h | ⟨r, hfind, hu⟩
    · exact h
    · exact absurd hu (reachable_noUnloaded hr id r hfind)
  have hgen : ∃ w : AssetRecord, workRecord m id e = w ∧ w.state = AssetState.Unloaded ∧
      w.id = (m.storage.Find id).elim id AssetRecord.id ∧
      w.generation = (m.storage.Find id).elim 1 AssetRecord.generation ∧
      w.refCount = (m.storage.Find id).elim 0 AssetRecord.refCount := by
    rcases habs with h | ⟨r, hfind, hu⟩
    · exact ⟨AssetStorage.fresh id e.type e.resolvedPath, by simp [workRecord, h], rfl,
        by simp [h, AssetStorage.fresh], by simp [h, AssetStorage.fresh],
        by simp [h, AssetStorage.fresh]⟩
    · exact ⟨r, by simp [workRecord, hfind], hu, by simp [hfind], by simp [hfind],
        by simp [hfind]⟩
  obtain ⟨w, hw, hwu, hwid, hwg, hwc⟩ := hgen
  have hpipe : PipelineGives m (workRecord m id e).id e req (Except.ok a) := by
    rw [hw, hwid]
    exact pipeline_ok m _ e req loader bytes a (resolve_ok_path m id req hres) hreg hread hdec
  obtain ⟨h1, h2, -⟩ := load_sync_ok m id req hres (by simp [hw, hwu]) hsync hpipe
  rw [hw] at h1 h2
  have hg : (loadedRecord w e req a).generation = w.generation := by
    simp [loadedRecord, hnr]
  rw [hg, hwg] at h1
  have hrec : (m.Load id req).2.storage.Find id =
      some { loadedRecord w e req a with refCount := (w.refCount + 1) % U32 } := by
    rw [h2, find_put]
    simp
  have hstate : (m.Load id req).2.GetState
      (AssetHandle.Make id ((m.storage.Find id).elim 1 AssetRecord.generation)) =
        AssetState.Ready := by
    simp [GetState, FindRecord_, AssetHandle.Make, hrec, hwg, loadedRecord, hnr]
  have herr : (m.Load id req).2.GetError
      (AssetHandle.Make id ((m.storage.Find id).elim 1 AssetRecord.generation)) = none := by
    simp [GetError, FindRecord_, AssetHandle.Make, hrec, hwg, loadedRecord, hnr, AssetError.ok,
      AssetError.empty]
  refine ⟨h1, ⟨_, hrec, rfl, by rw [← hwg]; exact hg, rfl, rfl, by rw [← hwc]⟩, hstate, herr, ?_,
    hreach⟩
  intro hnone
  refine ⟨by rw [h1, hnone]; rfl, _, hrec, ?_, ?_⟩
  · show (loadedRecord w e req a).generation = 1
    rw [hg, hwg, hnone]
    rfl
  · show (w.refCount + 1) % U32 = 1
    rw [hwc, hnone]
    rfl

/-- C6 witness: the first load of the tests, with the identifier in the catalog and
no record stored, returns a handle of generation 1; and the same load on the
`Unloaded` record that `ResetToUnloaded` leaves of a `Ready` record of
generation 5 with 2 references returns a handle of generation 5. -/
theorem first_sync_load_witness :
    ((testManager (singleCatalog ⟨1⟩ ⟨7⟩ titlePath) ⟨7⟩ [(titlePath, helloBytes)]).Load ⟨1⟩
        AssetRequest.Default).1 = Except.ok (AssetHandle.Make ⟨1⟩ 1) ∧
      (resetManager 5 2).storage.Find ⟨1⟩ =
        some ⟨⟨1⟩, ⟨7⟩, titlePath, AssetState.Unloaded, 5, AnyAsset.none, AssetError.empty, 2⟩ ∧
      ((resetManager 5 2).Load ⟨1⟩ AssetRequest.Default).1 =
        Except.ok (AssetHandle.Make ⟨1⟩ 5) :=
  ⟨(first_sync_load (testManager (singleCatalog ⟨1⟩ ⟨7⟩ titlePath) ⟨7⟩ [(titlePath, helloBytes)])
      ⟨1⟩ AssetRequest.Default ⟨⟨7⟩, titlePath⟩ (TextLoader ⟨7⟩)
      helloBytes (AnyAsset.FromShared (Payload.text ⟨helloBytes⟩)) (Or.inl rfl) rfl rfl rfl rfl
      rfl (fun _ => rfl)).1,
    rfl,
    (first_sync_load (resetManager 5 2) ⟨1⟩ AssetRequest.Default ⟨⟨7⟩, titlePath⟩
      (TextLoader ⟨7⟩) helloBytes (AnyAsset.FromShared (Payload.text ⟨helloBytes⟩))
      (Or.inr ⟨_, rfl, rfl⟩) rfl rfl rfl rfl rfl (fun _ => rfl)).1⟩

/-- C6 counterexample: the state in which identifier 1 is `Ready` with generation
5 and 5 references is reached by a first load and four reloads; after the
record is reset with `ResetToUnloaded()` it is `Unloaded` and keeps generation
and references, and the plain synchronous load then returns a handle of
generation 5, not 1, leaving the record `Ready` at generation 5 with 6
references.  Likewise after a reset in the reachable state with `2^32 - 1`
references the load leaves a `refCount` of 0, which is not one higher than
before. -/
theorem reset_record_keeps_generation :
    Reachable (readyManager 5 5 helloBytes helloBytes) ∧
      (resetManager 5 5).storage.Find ⟨1⟩ =
        some ⟨⟨1⟩, ⟨7⟩, titlePath, AssetState.Unloaded, 5, AnyAsset.none, AssetError.empty, 5⟩ ∧
      ((resetManager 5 5).Load ⟨1⟩ AssetRequest.Default).1 =
        Except.ok (AssetHandle.Make ⟨1⟩ 5) ∧
      AssetHandle.Make ⟨1⟩ 5 ≠ AssetHandle.Make ⟨1⟩ 1 ∧
      ((resetManager 5 5).Load ⟨1⟩ AssetRequest.Default).2.storage.Find ⟨1⟩ =
        some (readyRecord 5 6 helloBytes) ∧
      Reachable (readyManager 1 4294967295 helloBytes helloBytes) ∧
      (resetManager 1 4294967295).storage.Find ⟨1⟩ =
        some ⟨⟨1⟩, ⟨7⟩, titlePath, AssetState.Unloaded, 1, AnyAsset.none, AssetError.empty,
          4294967295⟩ ∧
      ((resetManager 1 4294967295).Load ⟨1⟩ AssetRequest.Default).2.storage.Find ⟨1⟩ =
        some (readyRecord 1 0 helloBytes) ∧
      (readyRecord 1 0 helloBytes).refCount ≠ 4294967295 + 1 := by
  refine ⟨reachable_after_reloads 4, rfl, rfl, by decide, rfl, reachable_wrap_refCount, rfl, rfl,
    by decide⟩

/-- C7 (code at the failing input): with an empty catalog, the load of the test
"sync load -> cache hit" (text decoder registered, `"hello"` stored at
`mem://ui/title.txt`, override path and type hint set) fails with
`CatalogNotFound` and stores nothing, for every identifier and type tag. -/
theorem load_override_needs_catalog_entry (id : AssetId) (textType : AssetType) :
    ((testManager AssetCatalog.empty textType [(titlePath, helloBytes)]).Load id
        (testRequest textType)).1 =
        Except.error
          (AssetError.Make AssetErrorCode.CatalogNotFound "AssetCatalog: id not found" "") ∧
      ∀ T : PayloadKind, ∀ h : AssetHandle,
        ((testManager AssetCatalog.empty textType [(titlePath, helloBytes)]).Load id
          (testRequest textType)).2.GetShared T h = none := by
  constructor
  · rfl
  · intro T h
    rfl

/-- C8: for an identifier without catalog entry, `Load` returns `CatalogNotFound`
for every request and leaves the store, the queue, its dedup set and the
lifetime bookkeeping unchanged. -/
theorem load_without_catalog_entry (m : AssetManager) (id : AssetId) (req : AssetRequest)
    (hcat : m.catalog.Find id = none) :
    (m.Load id req).1 =
        Except.error
          (AssetError.Make AssetErrorCode.CatalogNotFound "AssetCatalog: id not found" "") ∧
      (m.Load id req).2.storage = m.storage ∧
      (m.Load id req).2.queue = m.queue ∧
      (m.Load id req).2.queued = m.queued ∧
      (m.Load id req).2.lifetime = m.lifetime := by
  have h : (m.ResolveEntry_ id req).1 =
      Except.error
        (AssetError.Make AssetErrorCode.CatalogNotFound "AssetCatalog: id not found" "") := by
    simp [ResolveEntry_, hcat]
  obtain ⟨h1, h2⟩ := load_resolve_error m id req h
  refine ⟨h1, ?_, ?_, ?_, ?_⟩ <;> rw [h2]

/-- C8 witness: identifier 2 is not in the one-entry catalog. -/
theorem load_without_catalog_entry_witness :
    ((readyManager 1 1 helloBytes helloBytes).Load ⟨2⟩ AssetRequest.Default).1 =
        Except.error
          (AssetError.Make AssetErrorCode.CatalogNotFound "AssetCatalog: id not found" "") ∧
      ((readyManager 1 1 helloBytes helloBytes).Load ⟨2⟩ AssetRequest.Default).2.storage =
        (readyManager 1 1 helloBytes helloBytes).storage :=
  let h := load_without_catalog_entry (readyManager 1 1 helloBytes helloBytes) ⟨2⟩ AssetRequest.Default rfl
  ⟨h.1, h.2.1⟩

/-- C9: a request with `useTypeHint` and a non-zero `expectedType` that differs
from the catalog entry's type makes `Load` return `InvalidCatalogEntry` and
leaves the store, the queue, its dedup set and the lifetime bookkeeping
unchanged. -/
theorem load_type_hint_mismatch (m : AssetManager) (id : AssetId) (req : AssetRequest)
    (entry : CatalogEntry) (hcat : m.catalog.Find id = some entry)
    (hhint : req.useTypeHint = true) (hnz : req.expectedType.value ≠ 0)
    (hdiff : req.expectedType.value ≠ entry.type.value) :
    (m.Load id req).1 =
        Except.error
          (AssetError.Make AssetErrorCode.InvalidCatalogEntry
            "AssetRequest: expectedType mismatch" "") ∧
      (m.Load id req).2.storage = m.storage ∧
      (m.Load id req).2.queue = m.queue ∧
      (m.Load id req).2.queued = m.queued ∧
      (m.Load id req).2.lifetime = m.lifetime := by
  have h : (m.ResolveEntry_ id req).1 =
      Except.error
        (AssetError.Make AssetErrorCode.InvalidCatalogEntry
          "AssetRequest: expectedType mismatch" "") := by
    simp [ResolveEntry_, hcat, hhint, hnz, hdiff]
  obtain ⟨h1, h2⟩ := load_resolve_error m id req h
  refine ⟨h1, ?_, ?_, ?_, ?_⟩ <;> rw [h2]

/-- C9 witness: type hint 9 against the catalog entry of type 7. -/
theorem load_type_hint_mismatch_witness :
    ((readyManager 1 1 helloBytes helloBytes).Load ⟨1⟩ (testRequest ⟨9⟩)).1 =
        Except.error
          (AssetError.Make AssetErrorCode.InvalidCatalogEntry
            "AssetRequest: expectedType mismatch" "") ∧
      ((readyManager 1 1 helloBytes helloBytes).Load ⟨1⟩ (testRequest ⟨9⟩)).2.storage =
        (readyManager 1 1 helloBytes helloBytes).storage :=
  let h := load_type_hint_mismatch (readyManager 1 1 helloBytes helloBytes) ⟨1⟩ (testRequest ⟨9⟩)
    ⟨⟨1⟩, ⟨7⟩, titlePath, titlePath⟩ rfl rfl (by decide) (by decide)
  ⟨h.1, h.2.1⟩

/-- C10 (amended): across every operation the generation of a stored record either
stays as it is or advances modulo `2^32`: by one step in a `Load` that is a
synchronous reload of a `Ready` record whose pipeline load succeeded, by one
step per such reload job drained in an `Update`, and in no other case; hence
it does not decrease unless the 32-bit counter wraps, and each drained job
obeys the same rule as `Load`. -/
theorem generation_advances_only_by_reload (m : AssetManager) (op : Op) (i : AssetId)
    (r r' : AssetRecord) (hr : m.storage.Find i = some r)
    (hr' : (m.run op).storage.Find i = some r') :
    (r'.generation = r.generation ∨
        ∃ k, 0 < k ∧ r'.generation = (r.generation + k) % U32 ∧ AdvancedBy m i r k op) ∧
      (r.generation + max 1 m.opt.maxLoadsPerFrame < U32 → r.generation ≤ r'.generation) ∧
      ∀ job : PendingLoad, ∃ r1, (m.ProcessJob_ job).storage.Find i = some r1 ∧
        (r1.generation = r.generation ∨
          (r1.generation = (r.generation + 1) % U32 ∧ i = job.id ∧ job.req.reload = true ∧
            r.state = AssetState.Ready ∧
            ∃ e a st, (m.ResolveEntry_ job.id job.req).1 = Except.ok e ∧
              (m.pipeline.Load ⟨r.id, e.type, e.resolvedPath, job.req, st, m.frame⟩).1 =
                Except.ok a)) := by
  have hmain : r'.generation = r.generation ∨
      ∃ k, 0 < k ∧ r'.generation = (r.generation + k) % U32 ∧ AdvancedBy m i r k op := by
    have same : (m.run op).storage = m.storage → r'.generation = r.generation := by
      intro hs
      rw [hs, hr] at hr'
      cases hr'
      rfl
    cases op with
    | Load id req =>
      obtain ⟨r2, h2, hg⟩ := load_generation m id req i r hr
      simp only [AssetManager.run] at hr'
      rw [h2] at hr'
      cases hr'
      rcases hg with hg | ⟨hg, h1, h3, h4, h5, h6⟩
      · exact Or.inl hg
      · exact Or.inr ⟨1, Nat.one_pos, hg, rfl, h1, h3, h4, h5, h6⟩
    | Acquire hd =>
      simp only [AssetManager.run] at hr' same
      rcases acquire_storage_cases m hd with hs | ⟨r0, h0, hs⟩
      · exact Or.inl (same hs)
      · rw [hs, find_put] at hr'
        by_cases hi : i = hd.id
        · subst hi
          rw [hr] at h0
          cases h0
          simp at hr'
          subst hr'
          exact Or.inl rfl
        · simp [hi, hr] at hr'
          subst hr'
          exact Or.inl rfl
    | Release hd =>
      simp only [AssetManager.run] at hr' same
      rcases release_storage_cases m hd with hs | ⟨r0, h0, hs⟩
      · exact Or.inl (same hs)
      · rw [hs, find_put] at hr'
        by_cases hi : i = hd.id
        · subst hi
          rw [hr] at h0
          cases h0
          simp at hr'
          subst hr'
          exact Or.inl rfl
        · simp [hi, hr] at hr'
          subst hr'
          exact Or.inl rfl
    | Update =>
      obtain ⟨r2, h2, hg⟩ := update_generation m i r hr
      simp only [AssetManager.run] at hr'
      rw [h2] at hr'
      cases hr'
      rcases hg with hg | ⟨k, hk, hb, hq, hg⟩
      · exact Or.inl hg
      · exact Or.inr ⟨k, hk, hg, hb, hq⟩
    | EvictIfPossible id =>
      simp only [AssetManager.run] at hr' same
      rcases evict_storage_cases m id with hs | ⟨-, hs⟩
      · exact Or.inl (same hs)
      · rw [hs] at hr'
        by_cases hi : i = id
        · subst hi
          simp [AssetStorage.Find] at hr'
        · have hm : m.storage.map i = some r := hr
          simp [AssetStorage.Find, hi, hm] at hr'
          subst hr'
          exact Or.inl rfl
    | BeginFrame n => exact Or.inl (same rfl)
    | SetOptions o => exact Or.inl (same rfl)
    | Watch id path =>
      refine Or.inl (same ?_)
      simp only [AssetManager.run, Watch]
      cases m.watcher <;> rfl
    | Unwatch id =>
      refine Or.inl (same ?_)
      simp only [AssetManager.run, Unwatch]
      cases m.watcher <;> rfl
    | env c p w => exact Or.inl (same rfl)
  refine ⟨hmain, ?_, fun job => processJob_generation m job i r hr⟩
  intro hlt
  rcases hmain with hg | ⟨k, hk, hg, hadv⟩
  · exact le_of_eq hg.symm
  · have hkb : k ≤ max 1 m.opt.maxLoadsPerFrame := by
      cases op with
      | Load id req => exact le_trans (le_of_eq hadv.1) (le_max_left _ _)
      | Update => exact le_trans hadv.1 (le_max_right _ _)
      | Acquire _ => exact absurd hadv id
      | Release _ => exact absurd hadv id
      | EvictIfPossible _ => exact absurd hadv id
      | BeginFrame _ => exact absurd hadv id
      | SetOptions _ => exact absurd hadv id
      | Watch _ _ => exact absurd hadv id
      | Unwatch _ => exact absurd hadv id
      | env _ _ _ => exact absurd hadv id
    rw [hg, Nat.mod_eq_of_lt (by omega)]
    omega

/-- C10 witness: the synchronous reload of the tests advances generation 1 to 2. -/
theorem generation_advances_only_by_reload_witness :
    (readyRecord 1 1 helloBytes).generation ≤
      (loadedRecord (readyRecord 1 1 helloBytes) ⟨⟨7⟩, titlePath⟩ reloadRequest
        (AnyAsset.FromShared (Payload.text ⟨worldBytes⟩))).generation :=
  (generation_advances_only_by_reload (readyManager 1 1 helloBytes worldBytes) (Op.Load ⟨1⟩ reloadRequest)
    ⟨1⟩ (readyRecord 1 1 helloBytes)
    { loadedRecord (readyRecord 1 1 helloBytes) ⟨⟨7⟩, titlePath⟩ reloadRequest
        (AnyAsset.FromShared (Payload.text ⟨worldBytes⟩)) with refCount := 2 }
    rfl rfl).2.1 (by decide)

/-- C10 counterexample: in the reachable state whose `Ready` record has generation
`2^32 - 1`, a successful synchronous reload leaves the record with generation
0, a decrease. -/
theorem generation_decreases_at_wrap :
    Reachable (readyManager 4294967295 4294967295 helloBytes helloBytes) ∧
      (readyManager 4294967295 4294967295 helloBytes helloBytes).storage.Find ⟨1⟩ =
        some (readyRecord 4294967295 4294967295 helloBytes) ∧
      (∃ r', ((readyManager 4294967295 4294967295 helloBytes helloBytes).run
          (Op.Load ⟨1⟩ reloadRequest)).storage.Find ⟨1⟩ = some r' ∧ r'.generation = 0 ∧
        r'.generation < (readyRecord 4294967295 4294967295 helloBytes).generation) := by
  refine ⟨reachable_wrap_generation helloBytes, rfl, _, rfl, rfl, by decide⟩

/-- C11 (amended): the `refCount` of a stored record changes only as follows.
`Load` adds 1 modulo `2^32` to the record of its identifier when it returns
`Ok` and nothing when it returns `Err` (a record it creates starts at 0);
`Acquire` adds 1 modulo `2^32` to the handle's record when it returns true
and nothing otherwise; `Release` subtracts at most 1 and never below 0;
`Update` changes no stored record's `refCount`; a failing `EvictIfPossible`
changes nothing at all.  (The getters are functions of the state and return
no new state.) -/
theorem refCount_changes (m : AssetManager) (i : AssetId) (r : AssetRecord)
    (hr : m.storage.Find i = some r) :
    (∀ (id : AssetId) (req : AssetRequest), ∃ r', (m.Load id req).2.storage.Find i = some r' ∧
        r'.refCount =
          if (m.Load id req).1.isOk = true ∧ i = id then (r.refCount + 1) % U32
          else r.refCount) ∧
      (∀ (id : AssetId) (req : AssetRequest), m.storage.Find id = none →
        ∀ r', (m.Load id req).2.storage.Find id = some r' →
          r'.refCount = if (m.Load id req).1.isOk = true then 1 else 0) ∧
      (∀ h : AssetHandle, ∃ r', (m.Acquire h).2.storage.Find i = some r' ∧
        r'.refCount =
          if (m.Acquire h).1 = true ∧ i = h.id then (r.refCount + 1) % U32 else r.refCount) ∧
      (∀ h : AssetHandle, ∃ r', (m.Release h).storage.Find i = some r' ∧
        r'.refCount ≤ r.refCount ∧ r.refCount ≤ r'.refCount + 1) ∧
      (∃ r', m.Update.storage.Find i = some r' ∧ r'.refCount = r.refCount) ∧
      (∀ id : AssetId, (m.EvictIfPossible id).1 = false → (m.EvictIfPossible id).2 = m) := by
  refine ⟨?_, ?_, ?_, ?_, update_keeps m i r hr, ?_⟩
  · intro id req
    rcases load_refCount_cases m id req with ⟨⟨err, herr⟩, hs⟩ | ⟨e, r', hres, hok, hs, hc⟩
    · have hno : ¬((m.Load id req).1.isOk = true ∧ i = id) := by
        rw [herr]
        simp [Except.isOk, Except.toBool]
      rw [if_neg hno]
      rcases hs with hs | ⟨e, r', hres, hs, hc⟩
      · exact ⟨r, by rw [hs]; exact hr, rfl⟩
      · by_cases hi : i = id
        · subst hi
          refine ⟨r', by rw [hs, find_put]; simp, ?_⟩
          rw [hc]
          simp [workRecord, hr]
        · exact ⟨r, by rw [hs, find_put]; simp [hi, hr], rfl⟩
    · by_cases hi : i = id
      · subst hi
        refine ⟨r', by rw [hs, find_put]; simp, ?_⟩
        rw [if_pos ⟨by rw [hok]; rfl, rfl⟩, hc]
        simp [workRecord, hr]
      · exact ⟨r, by rw [hs, find_put]; simp [hi, hr], by simp [hi]⟩
  · intro id req hnone r' hr'
    rcases load_refCount_cases m id req with ⟨⟨err, herr⟩, hs⟩ | ⟨e, r1, hres, hok, hs, hc⟩
    · have hno : ¬((m.Load id req).1.isOk = true) := by
        rw [herr]
        simp [Except.isOk, Except.toBool]
      rw [if_neg hno]
      rcases hs with hs | ⟨e, r1, hres, hs, hc⟩
      · rw [hs, hnone] at hr'
        cases hr'
      · rw [hs, find_put] at hr'
        simp at hr'
        subst hr'
        rw [hc]
        simp [workRecord, hnone, AssetStorage.fresh]
    · rw [if_pos (by rw [hok]; rfl)]
      rw [hs, find_put] at hr'
      simp at hr'
      subst hr'
      rw [hc]
      simp [workRecord, hnone, AssetStorage.fresh, U32]
  · intro h
    unfold Acquire FindRecord_
    cases hf : m.storage.Find h.id with
    | none =>
      refine ⟨r, hr, ?_⟩
      simp
    | some r0 =>
      by_cases hg : r0.generation ≠ h.generation
      · refine ⟨r, by simp [hg, hr], ?_⟩
        simp [hg]
      · by_cases hi : i = h.id
        · subst hi
          rw [hr] at hf
          cases hf
          refine ⟨{ r with refCount := (r.refCount + 1) % U32 }, by simp [hg, find_put], ?_⟩
          simp [hg]
        · refine ⟨r, by simp [hg, find_put, hi, hr], ?_⟩
          simp [hg, hi]
  · intro h
    rcases release_storage_cases m h with hs | ⟨r0, h0, hs⟩
    · exact ⟨r, by rw [hs]; exact hr, le_refl _, Nat.le_succ _⟩
    · by_cases hi : i = h.id
      · subst hi
        rw [hr] at h0
        cases h0
        exact ⟨{ r with refCount := r.refCount - 1 }, by rw [hs, find_put]; simp, Nat.sub_le _ _,
          by show r.refCount ≤ r.refCount - 1 + 1; omega⟩
      · exact ⟨r, by rw [hs, find_put]; simp [hi, hr], le_refl _, Nat.le_succ _⟩
  · intro id hev
    unfold EvictIfPossible at hev ⊢
    cases hf : m.storage.Find id with
    | none => rfl
    | some r0 =>
      simp only [hf] at hev ⊢
      by_cases he : m.cachePolicy.IsEvictable r0 m.lifetime m.frame = false
      · simp [he]
      · simp [he] at hev

/-- C11 witness: the `Ready` record of identifier 1 with `refCount = 1` keeps
that count across `Update`. -/
theorem refCount_changes_witness :
    (readyManager 1 1 helloBytes helloBytes).storage.Find ⟨1⟩ =
        some (readyRecord 1 1 helloBytes) ∧
      ∃ r', (readyManager 1 1 helloBytes helloBytes).Update.storage.Find ⟨1⟩ = some r' ∧
        r'.refCount = 1 :=
  ⟨rfl, (refCount_changes (readyManager 1 1 helloBytes helloBytes) ⟨1⟩
    (readyRecord 1 1 helloBytes) rfl).2.2.2.2.1⟩

/-- C11 counterexample: in the reachable state whose `Ready` record has
`refCount = 2^32 - 1`, a successful synchronous reload `Load` returns `Ok`
and leaves `refCount = 0`: the count did not grow by exactly 1. -/
theorem load_refCount_wraps :
    Reachable (readyManager 1 4294967295 helloBytes helloBytes) ∧
      (readyManager 1 4294967295 helloBytes helloBytes).storage.Find ⟨1⟩ =
        some (readyRecord 1 4294967295 helloBytes) ∧
      ((readyManager 1 4294967295 helloBytes helloBytes).Load ⟨1⟩ reloadRequest).1 =
        Except.ok (AssetHandle.Make ⟨1⟩ 2) ∧
      ((readyManager 1 4294967295 helloBytes helloBytes).Load ⟨1⟩
        reloadRequest).2.storage.Find ⟨1⟩ = some (readyRecord 2 0 helloBytes) ∧
      (readyRecord 2 0 helloBytes).refCount ≠
        (readyRecord 1 4294967295 helloBytes).refCount + 1 := by
  refine ⟨reachable_wrap_refCount, rfl, rfl, rfl, by decide⟩

/-- C12 (amended): when a record for `h.id` exists and its generation equals
`h.generation`, `Acquire(h)` returns true, replaces the record's `refCount`
by `refCount + 1` modulo `2^32` (exactly one more whenever
`refCount < 2^32 - 1`), changes nothing else of the record, and touches the
lifetime entry of `h.id` at the current frame; when the identifier is unknown
or the handle is stale it returns false and leaves the whole manager state,
records and lifetime bookkeeping included, unchanged. -/
theorem acquire_effect (m : AssetManager) (h : AssetHandle) :
    (∀ rcd : AssetRecord, m.storage.Find h.id = some rcd → rcd.generation = h.generation →
        m.Acquire h = (true, { m with
          storage := m.storage.put h.id { rcd with refCount := (rcd.refCount + 1) % U32 }
          lifetime := m.lifetime.Touch h.id m.frame }) ∧
        (rcd.refCount + 1 < U32 →
          (m.Acquire h).2.storage.Find h.id =
            some { rcd with refCount := rcd.refCount + 1 }) ∧
        ((m.Acquire h).2.lifetime.map h.id).map LifetimeEntry.lastTouchedFrame =
          some m.frame) ∧
      ((m.storage.Find h.id = none ∨
          ∃ rcd : AssetRecord, m.storage.Find h.id = some rcd ∧
            rcd.generation ≠ h.generation) →
        m.Acquire h = (false, m)) := by
  constructor
  · intro rcd hf hg
    have hA : m.Acquire h = (true, { m with
        storage := m.storage.put h.id { rcd with refCount := (rcd.refCount + 1) % U32 }
        lifetime := m.lifetime.Touch h.id m.frame }) := by
      simp [Acquire, FindRecord_, hf, hg]
    refine ⟨hA, ?_, ?_⟩
    · intro hlt
      rw [hA]
      simp [find_put, Nat.mod_eq_of_lt hlt]
    · rw [hA]
      simp only [AssetLifetime.Touch]
      cases hl : m.lifetime.map h.id <;> simp
  · rintro (hf | ⟨rcd, hf, hg⟩)
    · simp [Acquire, FindRecord_, hf]
    · simp [Acquire, FindRecord_, hf, hg]

/-- C12 witness: acquiring the current handle of the `Ready` record of
identifier 1 (generation 1, `refCount` 1) returns true and leaves
`refCount = 2`. -/
theorem acquire_effect_witness :
    (readyManager 1 1 helloBytes helloBytes).storage.Find ⟨1⟩ =
        some (readyRecord 1 1 helloBytes) ∧
      ((readyManager 1 1 helloBytes helloBytes).Acquire (AssetHandle.Make ⟨1⟩ 1)).2.storage.Find
        ⟨1⟩ = some { readyRecord 1 1 helloBytes with refCount := 1 + 1 } :=
  ⟨rfl, ((acquire_effect (readyManager 1 1 helloBytes helloBytes) (AssetHandle.Make ⟨1⟩ 1)).1
    (readyRecord 1 1 helloBytes) rfl rfl).2.1 (by decide)⟩

/-- C12 counterexample: in the reachable state whose `Ready` record has
`refCount = 2^32 - 1`, `Acquire` with the current handle returns true and
leaves `refCount = 0`, not `2^32`. -/
theorem acquire_refCount_wraps :
    Reachable (readyManager 1 4294967295 helloBytes helloBytes) ∧
      (readyManager 1 4294967295 helloBytes helloBytes).storage.Find ⟨1⟩ =
        some (readyRecord 1 4294967295 helloBytes) ∧
      ((readyManager 1 4294967295 helloBytes helloBytes).Acquire
        (AssetHandle.Make ⟨1⟩ 1)).1 = true ∧
      ((readyManager 1 4294967295 helloBytes helloBytes).Acquire
        (AssetHandle.Make ⟨1⟩ 1)).2.storage.Find ⟨1⟩ = some (readyRecord 1 0 helloBytes) ∧
      (readyRecord 1 0 helloBytes).refCount ≠
        (readyRecord 1 4294967295 helloBytes).refCount + 1 := by
  refine ⟨reachable_wrap_refCount, rfl, rfl, rfl, by decide⟩

/-- C13: when a record for `h.id` exists, its generation equals `h.generation`
and `refCount > 0`, `Release(h)` replaces the record's `refCount` by
`refCount - 1` and changes nothing else of the manager; in every other case
(unknown identifier, stale handle, `refCount = 0`) it changes nothing; and in
no case does it remove a record from the store or change the state, payload
or generation of a record. -/
theorem release_effect (m : AssetManager) (h : AssetHandle) :
    (∀ rcd : AssetRecord, m.storage.Find h.id = some rcd → rcd.generation = h.generation →
        0 < rcd.refCount →
        m.Release h =
            { m with storage := m.storage.put h.id { rcd with refCount := rcd.refCount - 1 } } ∧
          ∃ r', (m.Release h).storage.Find h.id = some r' ∧ r'.refCount + 1 = rcd.refCount) ∧
      ((m.storage.Find h.id = none ∨
          ∃ rcd : AssetRecord, m.storage.Find h.id = some rcd ∧
            (rcd.generation ≠ h.generation ∨ rcd.refCount = 0)) →
        m.Release h = m) ∧
      (∀ (i : AssetId) (r : AssetRecord), m.storage.Find i = some r →
        ∃ r', (m.Release h).storage.Find i = some r' ∧ r'.state = r.state ∧
          r'.asset = r.asset ∧ r'.generation = r.generation ∧ r'.id = r.id ∧
          r'.type = r.type ∧ r'.resolvedPath = r.resolvedPath ∧ r'.error = r.error) := by
  refine ⟨?_, ?_, ?_⟩
  · intro rcd hf hg hpos
    have hR : m.Release h =
        { m with storage := m.storage.put h.id { rcd with refCount := rcd.refCount - 1 } } := by
      simp [Release, FindRecord_, hf, hg, hpos]
    refine ⟨hR, { rcd with refCount := rcd.refCount - 1 }, ?_, ?_⟩
    · rw [hR]
      simp [find_put]
    · show rcd.refCount - 1 + 1 = rcd.refCount
      omega
  · rintro (hf | ⟨rcd, hf, hg | h0⟩)
    · simp [Release, FindRecord_, hf]
    · simp [Release, FindRecord_, hf, hg]
    · simp [Release, FindRecord_, hf, h0]
  · intro i r hr
    rcases release_storage_cases m h with hs | ⟨r0, h0, hs⟩
    · exact ⟨r, by rw [hs]; exact hr, rfl, rfl, rfl, rfl, rfl, rfl, rfl⟩
    · by_cases hi : i = h.id
      · subst hi
        rw [hr] at h0
        cases h0
        exact ⟨{ r with refCount := r.refCount - 1 }, by rw [hs, find_put]; simp,
          rfl, rfl, rfl, rfl, rfl, rfl, rfl⟩
      · exact ⟨r, by rw [hs, find_put]; simp [hi, hr], rfl, rfl, rfl, rfl, rfl, rfl, rfl⟩

/-- C13 witness: releasing the only reference of the `Ready` record of
identifier 1 leaves the record in the store, `Ready`, with `refCount = 0`. -/
theorem release_effect_witness :
    (readyManager 1 1 helloBytes helloBytes).storage.Find ⟨1⟩ =
        some (readyRecord 1 1 helloBytes) ∧
      (readyManager 1 1 helloBytes helloBytes).Release (AssetHandle.Make ⟨1⟩ 1) =
        { readyManager 1 1 helloBytes helloBytes with
          storage := (readyManager 1 1 helloBytes helloBytes).storage.put ⟨1⟩
            (readyRecord 1 0 helloBytes) } :=
  ⟨rfl, ((release_effect (readyManager 1 1 helloBytes helloBytes) (AssetHandle.Make ⟨1⟩ 1)).1
    (readyRecord 1 1 helloBytes) rfl rfl (by decide)).1⟩

/-- C14 (amended): in a reachable state, an asynchronous request that resolves and
is not a cache hit (the record is not `Ready`, or the request is a reload)
makes `Load` return `Ok` with the generation of the record (created by the
call if absent), adds 1 to `refCount` modulo `2^32` (exactly 1 whenever
`refCount < 2^32 - 1`), leaves the record in state `Loading` with exactly one
job for the identifier in the queue, and does not depend on the pipeline:
with any other pipeline the result, the store and the queue are the same.
A second asynchronous request for the identifier that resolves then leaves
the queue as it is. -/
theorem async_load_enqueues (m : AssetManager) (hreach : Reachable m) (id : AssetId)
    (req : AssetRequest) (e : ResolvedEntry)
    (hasync : req.sync = SyncWith.Async)
    (hres : (m.ResolveEntry_ id req).1 = Except.ok e)
    (hmiss : (workRecord m id e).state = AssetState.Ready → req.reload = true) :
    (m.Load id req).1 = Except.ok (AssetHandle.Make id (workRecord m id e).generation) ∧
      (m.Load id req).2.storage.Find id =
        some { workRecord m id e with
          state := AssetState.Loading
          refCount := ((workRecord m id e).refCount + 1) % U32 } ∧
      ((workRecord m id e).refCount + 1 < U32 →
        (m.Load id req).2.storage.Find id =
          some { workRecord m id e with
            state := AssetState.Loading
            refCount := (workRecord m id e).refCount + 1 }) ∧
      (queueIds (m.Load id req).2).count id = 1 ∧
      (∀ p : AssetPipeline,
        (Load { m with pipeline := p } id req).1 = (m.Load id req).1 ∧
          (Load { m with pipeline := p } id req).2.storage = (m.Load id req).2.storage ∧
          (Load { m with pipeline := p } id req).2.queue = (m.Load id req).2.queue) ∧
      (∀ (req2 : AssetRequest) (e2 : ResolvedEntry), req2.sync = SyncWith.Async →
        ((m.Load id req).2.ResolveEntry_ id req2).1 = Except.ok e2 →
        ((m.Load id req).2.Load id req2).2.queue = (m.Load id req).2.queue ∧
          (queueIds ((m.Load id req).2.Load id req2).2).count id = 1) := by
  obtain ⟨h1, h2, -, h4, h5⟩ := load_async m id req hres hmiss hasync
  have hfind : (m.Load id req).2.storage.Find id =
      some { workRecord m id e with
        state := AssetState.Loading
        refCount := ((workRecord m id e).refCount + 1) % U32 } := by
    rw [h2, find_put]
    simp
  have hreach1 : Reachable (m.Load id req).2 := Reachable.step m (Op.Load id req) hreach
  have hcount : (queueIds (m.Load id req).2).count id = 1 :=
    List.count_eq_one_of_mem (reachable_queueInv hreach1).1
      (reachable_loading_job hreach1 id _ hfind rfl)
  refine ⟨h1, hfind, ?_, hcount, ?_, ?_⟩
  · intro hlt
    rw [hfind, Nat.mod_eq_of_lt hlt]
  · intro p
    have hres' : (ResolveEntry_ { m with pipeline := p } id req).1 = Except.ok e := hres
    have hmiss' : (workRecord { m with pipeline := p } id e).state = AssetState.Ready →
        req.reload = true := hmiss
    obtain ⟨g1, g2, -, g4, -⟩ := load_async { m with pipeline := p } id req hres' hmiss' hasync
    refine ⟨g1.trans h1.symm, g2.trans h2.symm, ?_⟩
    rw [g4, h4]
    have hw : workRecord { m with pipeline := p } id e = workRecord m id e := rfl
    rw [hw]
    split_ifs
    · rfl
    · unfold EnqueueLoad_
      split_ifs <;> rfl
  · intro req2 e2 hasync2 hres2
    have hw2 : workRecord (m.Load id req).2 id e2 =
        { workRecord m id e with
          state := AssetState.Loading
          refCount := ((workRecord m id e).refCount + 1) % U32 } := by
      simp [workRecord, hfind]
    have hmiss2 : (workRecord (m.Load id req).2 id e2).state = AssetState.Ready →
        req2.reload = true := by
      rw [hw2]
      intro hc
      cases hc
    obtain ⟨-, -, -, k4, -⟩ := load_async (m.Load id req).2 id req2 hres2 hmiss2 hasync2
    have hq : ((m.Load id req).2.Load id req2).2.queue = (m.Load id req).2.queue := by
      rw [k4, hw2]
      simp
    refine ⟨hq, ?_⟩
    unfold queueIds at hcount ⊢
    rw [hq]
    exact hcount

/-- C14 witness: the first asynchronous load of identifier 1 in the fresh manager
returns a handle of generation 1 and queues exactly one job. -/
theorem async_load_enqueues_witness :
    (freshManager.Load ⟨1⟩ { AssetRequest.Default with sync := SyncWith.Async }).1 =
        Except.ok (AssetHandle.Make ⟨1⟩ 1) ∧
      (queueIds (freshManager.Load ⟨1⟩
        { AssetRequest.Default with sync := SyncWith.Async }).2).count ⟨1⟩ = 1 :=
  let h := async_load_enqueues freshManager reachable_freshManager ⟨1⟩
    { AssetRequest.Default with sync := SyncWith.Async } ⟨⟨7⟩, titlePath⟩ rfl rfl
    (fun hc => by cases hc)
  ⟨h.1, h.2.2.2.1⟩

/-- C14 counterexample: in the reachable state whose `Ready` record has
`refCount = 2^32 - 1`, an asynchronous reload request returns `Ok` and leaves
the record `Loading` with `refCount = 0`, not one more than before. -/
theorem async_load_refCount_wraps :
    Reachable (readyManager 1 4294967295 helloBytes helloBytes) ∧
      (readyManager 1 4294967295 helloBytes helloBytes).storage.Find ⟨1⟩ =
        some (readyRecord 1 4294967295 helloBytes) ∧
      ((readyManager 1 4294967295 helloBytes helloBytes).ResolveEntry_ ⟨1⟩
        (asyncReloadRequest Fallback.None)).1 = Except.ok ⟨⟨7⟩, titlePath⟩ ∧
      ((readyManager 1 4294967295 helloBytes helloBytes).Load ⟨1⟩
        (asyncReloadRequest Fallback.None)).1 = Except.ok (AssetHandle.Make ⟨1⟩ 1) ∧
      ((readyManager 1 4294967295 helloBytes helloBytes).Load ⟨1⟩
        (asyncReloadRequest Fallback.None)).2.storage.Find ⟨1⟩ =
          some { readyRecord 1 0 helloBytes with state := AssetState.Loading } ∧
      (readyRecord 1 0 helloBytes).refCount ≠
        (readyRecord 1 4294967295 helloBytes).refCount + 1 := by
  refine ⟨reachable_wrap_refCount, rfl, rfl, rfl, rfl, by decide⟩

/-- C15: in every reachable state (constructed over an empty store and driven
through `Load`, `Update` with hot-reload polling, and the other operations)
the pending queue holds at most one job per identifier, and the dedup set
`queued_` is exactly the set of identifiers that have a job in the queue. -/
theorem queue_dedup_invariant (m : AssetManager) (hreach : Reachable m) :
    (queueIds m).Nodup ∧
      (∀ i : AssetId, (queueIds m).count i ≤ 1) ∧
      (∀ i : AssetId, i ∈ m.queued ↔ ∃ j ∈ m.queue, j.id = i) := by
  obtain ⟨hn, hq⟩ := reachable_queueInv hreach
  refine ⟨hn, fun i => List.nodup_iff_count_le_one.1 hn i, ?_⟩
  intro i
  rw [hq i]
  simp [queueIds]

/-- C15 witness: after the three asynchronous loads of the three-asset scenario the
queue holds the jobs 1, 2, 3, one per identifier. -/
theorem queue_dedup_invariant_witness :
    queueIds (threeManager.runAll threeAsyncLoads) = [⟨1⟩, ⟨2⟩, ⟨3⟩] ∧
      (queueIds (threeManager.runAll threeAsyncLoads)).Nodup :=
  ⟨rfl, (queue_dedup_invariant (threeManager.runAll threeAsyncLoads)
    (reachable_runAll threeAsyncLoads threeManager reachable_threeManager)).1⟩

/-- C16: in a reachable state with hot reload disabled, one `Update` with
`maxLoadsPerFrame = k` and `n` queued jobs runs the loop body for exactly the
first `min(k, n)` jobs in queue order; the record of each of them, if there
is one afterwards, is `Ready` or `Failed`, and a record that existed is not
removed; the remaining `n - min(k, n)` jobs stay queued in their order, and
their records, like those of every identifier without a processed job, are
what they were.  With three distinct queued asynchronous loads and `k = 2`,
one `Update` completes the first two and leaves the third `Loading`. -/
theorem update_drains_front (m : AssetManager) (hreach : Reachable m)
    (hhot : m.opt.enableHotReload = false) :
    m.Update =
        { drainJobs m (m.queue.take m.opt.maxLoadsPerFrame) with
          queue := m.queue.drop m.opt.maxLoadsPerFrame
          queued := eraseJobs m.queued (m.queue.take m.opt.maxLoadsPerFrame) } ∧
      (m.queue.take m.opt.maxLoadsPerFrame).length =
        min m.opt.maxLoadsPerFrame m.queue.length ∧
      m.Update.queue = m.queue.drop m.opt.maxLoadsPerFrame ∧
      m.Update.queue.length = m.queue.length - min m.opt.maxLoadsPerFrame m.queue.length ∧
      (∀ j ∈ m.queue.take m.opt.maxLoadsPerFrame,
        (∀ r', m.Update.storage.Find j.id = some r' →
          r'.state = AssetState.Ready ∨ r'.state = AssetState.Failed) ∧
        (∀ r, m.storage.Find j.id = some r → ∃ r', m.Update.storage.Find j.id = some r')) ∧
      (∀ i : AssetId, i ∉ (m.queue.take m.opt.maxLoadsPerFrame).map PendingLoad.id →
        m.Update.storage.Find i = m.storage.Find i) ∧
      (∀ j ∈ m.queue.drop m.opt.maxLoadsPerFrame,
        m.Update.storage.Find j.id = m.storage.Find j.id) ∧
      ((threeManager.runAll threeAsyncLoads).opt.maxLoadsPerFrame = 2 ∧
        queueIds (threeManager.runAll threeAsyncLoads) = [⟨1⟩, ⟨2⟩, ⟨3⟩] ∧
        ((threeManager.runAll threeAsyncLoads).Update.storage.Find ⟨1⟩).map AssetRecord.state =
          some AssetState.Ready ∧
        ((threeManager.runAll threeAsyncLoads).Update.storage.Find ⟨2⟩).map AssetRecord.state =
          some AssetState.Ready ∧
        ((threeManager.runAll threeAsyncLoads).Update.storage.Find ⟨3⟩).map AssetRecord.state =
          some AssetState.Loading ∧
        queueIds (threeManager.runAll threeAsyncLoads).Update = [⟨3⟩]) := by
  have hu := update_eq m hhot
  have hst : m.Update.storage = (drainJobs m (m.queue.take m.opt.maxLoadsPerFrame)).storage := by
    rw [hu]
  have hq : m.Update.queue = m.queue.drop m.opt.maxLoadsPerFrame := by rw [hu]
  have hother : ∀ i : AssetId, i ∉ (m.queue.take m.opt.maxLoadsPerFrame).map PendingLoad.id →
      m.Update.storage.Find i = m.storage.Find i := by
    intro i hi
    rw [hst]
    exact drainJobs_other _ m i hi
  refine ⟨hu, ?_, hq, ?_, ?_, hother, ?_, ?_⟩
  · rw [List.length_take]
  · rw [hq, List.length_drop]
    omega
  · intro j hj
    constructor
    · intro r' hr'
      rw [hst] at hr'
      exact drainJobs_state _ m j.id (List.mem_map_of_mem _ hj) r' hr'
    · intro r hr
      obtain ⟨r', h', -⟩ := drainJobs_keeps (m.queue.take m.opt.maxLoadsPerFrame) m j.id r hr
      exact ⟨r', by rw [hst]; exact h'⟩
  · intro j hj
    apply hother
    have hn := (reachable_queueInv hreach).1
    unfold queueIds at hn
    rw [← List.take_append_drop m.opt.maxLoadsPerFrame m.queue, List.map_append] at hn
    intro hmem
    exact (List.disjoint_of_nodup_append hn) hmem (List.mem_map_of_mem _ hj)
  · exact ⟨rfl, rfl, rfl, rfl, rfl, rfl⟩

/-- C16 witness: in the state after the three asynchronous loads, one `Update`
pops the first two jobs and leaves the job of identifier 3 queued. -/
theorem update_drains_front_witness :
    (threeManager.runAll threeAsyncLoads).opt.enableHotReload = false ∧
      (threeManager.runAll threeAsyncLoads).Update.queue =
        (threeManager.runAll threeAsyncLoads).queue.drop 2 :=
  ⟨rfl, (update_drains_front (threeManager.runAll threeAsyncLoads)
    (reachable_runAll threeAsyncLoads threeManager reachable_threeManager) rfl).2.2.1⟩

/-- C17: in a reachable state with hot reload disabled and
`maxLoadsPerFrame = k > 0`, if `n` jobs are pending, then after `ceil(n / k)`
calls of `Update` and no other call the queue is empty and every record that
was `Loading` is still stored and is `Ready` or `Failed`. -/
theorem updates_empty_queue (m : AssetManager) (hreach : Reachable m)
    (hhot : m.opt.enableHotReload = false) (hk : 0 < m.opt.maxLoadsPerFrame) :
    (m.runAll (List.replicate
        ((m.queue.length + m.opt.maxLoadsPerFrame - 1) / m.opt.maxLoadsPerFrame)
        Op.Update)).queue = [] ∧
      ∀ (i : AssetId) (r : AssetRecord), m.storage.Find i = some r →
        r.state = AssetState.Loading →
        ∃ r', (m.runAll (List.replicate
            ((m.queue.length + m.opt.maxLoadsPerFrame - 1) / m.opt.maxLoadsPerFrame)
            Op.Update)).storage.Find i = some r' ∧
          (r'.state = AssetState.Ready ∨ r'.state = AssetState.Failed) := by
  obtain ⟨h1, h2, -⟩ := updates_eq
    ((m.queue.length + m.opt.maxLoadsPerFrame - 1) / m.opt.maxLoadsPerFrame) m hhot
  have hc := rounds_cover m.queue.length m.opt.maxLoadsPerFrame hk
  rw [List.take_of_length_le hc] at h2
  refine ⟨by rw [h1]; exact List.drop_of_length_le hc, ?_⟩
  intro i r hr hl
  obtain ⟨r', h', -⟩ := drainJobs_keeps m.queue m i r hr
  refine ⟨r', by rw [h2]; exact h', ?_⟩
  exact drainJobs_state m.queue m i (reachable_loading_job hreach i r hr hl) r' h'

/-- C17 witness: with three queued jobs and `maxLoadsPerFrame = 2`, two calls of
`Update` empty the queue. -/
theorem updates_empty_queue_witness :
    (threeManager.runAll threeAsyncLoads).opt.maxLoadsPerFrame = 2 ∧
      (threeManager.runAll threeAsyncLoads).queue.length = 3 ∧
      ((threeManager.runAll threeAsyncLoads).runAll (List.replicate ((3 + 2 - 1) / 2)
        Op.Update)).queue = [] :=
  ⟨rfl, rfl, (updates_empty_queue (threeManager.runAll threeAsyncLoads)
    (reachable_runAll threeAsyncLoads threeManager reachable_threeManager) rfl
    (by decide)).1⟩

/-- C18 (code at the failing input): scenario "asynchronous reload".  The record is `Ready`
with generation 1 and payload `"hello"`; an asynchronous reload `Load`
returns a handle of generation 1 and marks the record `Loading`; after the
bytes became `"world"` and `Update` drained the job, the record is `Ready`
with the new payload `"world"` but still generation 1, and the handle minted
before the reload is not stale: it reads `Ready` and the new payload. -/
theorem async_reload_keeps_generation :
    Reachable (freshManager.runAll asyncReloadDrained) ∧
      (freshManager.runAll (asyncReloadDrained.take 1)).storage.Find ⟨1⟩ =
        some (readyRecord 1 1 helloBytes) ∧
      ((freshManager.runAll (asyncReloadDrained.take 1)).Load ⟨1⟩
        (asyncReloadRequest Fallback.None)).1 = Except.ok (AssetHandle.Make ⟨1⟩ 1) ∧
      (freshManager.runAll (asyncReloadDrained.take 2)).storage.Find ⟨1⟩ =
        some { readyRecord 1 2 helloBytes with state := AssetState.Loading } ∧
      (freshManager.runAll (asyncReloadDrained.take 2)).queue =
        [⟨⟨1⟩, asyncReloadRequest Fallback.None⟩] ∧
      (freshManager.runAll asyncReloadDrained).queue = [] ∧
      (freshManager.runAll asyncReloadDrained).storage.Find ⟨1⟩ =
        some (readyRecord 1 2 worldBytes) ∧
      (freshManager.runAll asyncReloadDrained).GetState (AssetHandle.Make ⟨1⟩ 1) =
        AssetState.Ready ∧
      (freshManager.runAll asyncReloadDrained).GetShared PayloadKind.Text
        (AssetHandle.Make ⟨1⟩ 1) = some (Payload.text ⟨worldBytes⟩) ∧
      (freshManager.runAll asyncReloadDrained).GetState (AssetHandle.Make ⟨1⟩ 2) =
        AssetState.Unloaded := by
  refine ⟨reachable_runAll _ _ reachable_freshManager, rfl, rfl, rfl, rfl, rfl, rfl, rfl, rfl,
    rfl⟩

/-- C19 (code at the failing input): scenarios "asynchronous reload fails" and
"hot reload fails".  The record is `Ready` with generation 1 and payload `"hello"`.
After an asynchronous keep-old reload requested through `Load`, whose job
fails when `Update` drains it, the record is `Failed`, its payload is gone
and the handle reads no payload; after a keep-old reload job queued by
hot-reload polling fails, the record is `Ready` with payload `"hello"`,
generation 1, and `GetError` reports the failure. -/
theorem async_reload_failure_drops_old :
    Reachable (freshManager.runAll asyncReloadFailed) ∧
      (freshManager.runAll (asyncReloadFailed.take 1)).storage.Find ⟨1⟩ =
        some (readyRecord 1 1 helloBytes) ∧
      ((freshManager.runAll (asyncReloadFailed.take 1)).Load ⟨1⟩
        (asyncReloadRequest Fallback.KeepOldIfAny)).1 = Except.ok (AssetHandle.Make ⟨1⟩ 1) ∧
      (freshManager.runAll (asyncReloadFailed.take 2)).queue =
        [⟨⟨1⟩, asyncReloadRequest Fallback.KeepOldIfAny⟩] ∧
      (freshManager.runAll asyncReloadFailed).queue = [] ∧
      (freshManager.runAll asyncReloadFailed).storage.Find ⟨1⟩ =
        some ⟨⟨1⟩, ⟨7⟩, titlePath, AssetState.Failed, 1, AnyAsset.none,
          ⟨AssetErrorCode.SourceReadFailed, "MemoryAssetSource: not found", titlePath⟩, 2⟩ ∧
      (freshManager.runAll asyncReloadFailed).GetState (AssetHandle.Make ⟨1⟩ 1) =
        AssetState.Failed ∧
      (freshManager.runAll asyncReloadFailed).GetShared PayloadKind.Text
        (AssetHandle.Make ⟨1⟩ 1) = none ∧
      ((freshManager.runAll (hotReloadFailed.take 3)).storage.Find ⟨1⟩ =
          some (readyRecord 1 1 helloBytes) ∧
        (freshManager.runAll (hotReloadFailed.take 3)).ProcessHotReload_.queue =
          [⟨⟨1⟩, asyncReloadRequest Fallback.KeepOldIfAny⟩] ∧
        (freshManager.runAll hotReloadFailed).queue = [] ∧
        (freshManager.runAll hotReloadFailed).storage.Find ⟨1⟩ =
          some { readyRecord 1 1 helloBytes with
            error := ⟨AssetErrorCode.SourceReadFailed, "MemoryAssetSource: not found",
              titlePath⟩ } ∧
        (freshManager.runAll hotReloadFailed).GetError (AssetHandle.Make ⟨1⟩ 1) =
          some ⟨AssetErrorCode.SourceReadFailed, "MemoryAssetSource: not found", titlePath⟩) := by
  refine ⟨reachable_runAll _ _ reachable_freshManager, rfl, rfl, rfl, rfl, rfl, rfl, rfl, rfl,
    rfl, rfl, rfl, rfl⟩

/-- C20: for an identifier that has no record, and for an identifier whose record
has `refCount > 0`, `EvictIfPossible` returns false and returns the manager
state unchanged: the store, every record, the lifetime bookkeeping and the
queue are what they were. -/
theorem evict_refused (m : AssetManager) (id : AssetId)
    (h : m.storage.Find id = none ∨
      ∃ r : AssetRecord, m.storage.Find id = some r ∧ 0 < r.refCount) :
    m.EvictIfPossible id = (false, m) := by
  rcases h with hf | ⟨r, hf, hpos⟩
  · simp [EvictIfPossible, hf]
  · have hne : r.refCount ≠ 0 := by omega
    simp [EvictIfPossible, hf, AssetCachePolicy.IsEvictable, hne]

/-- C20 witness: the `Ready` record of identifier 1 with `refCount = 1` is not
evicted, however many frames have passed. -/
theorem evict_refused_witness :
    (readyManager 1 1 helloBytes helloBytes).storage.Find ⟨1⟩ =
        some (readyRecord 1 1 helloBytes) ∧
      ((readyManager 1 1 helloBytes helloBytes).BeginFrame 100).EvictIfPossible ⟨1⟩ =
        (false, (readyManager 1 1 helloBytes helloBytes).BeginFrame 100) :=
  ⟨rfl, evict_refused ((readyManager 1 1 helloBytes helloBytes).BeginFrame 100) ⟨1⟩
    (Or.inr ⟨readyRecord 1 1 helloBytes, rfl, by decide⟩)⟩

/-- C21: when a record for the identifier exists and the cache policy reports it
evictable (which is: `refCount = 0`, not pinned, idle-frame count beyond the
threshold), `EvictIfPossible` returns true, the lifetime tracker is notified
(`OnEvicted`), the statistics hook is called, and the record is erased: the
store has no record for the identifier, `GetState` reports `Unloaded` and
`GetShared` returns nothing for every handle of that identifier, and the
records of all other identifiers are what they were. -/
theorem evict_evictable (m : AssetManager) (id : AssetId) (rcd : AssetRecord)
    (hrec : m.storage.Find id = some rcd)
    (hev : m.cachePolicy.IsEvictable rcd m.lifetime m.frame = true) :
    (rcd.refCount = 0 ∧ m.lifetime.IsPinned rcd.id = false ∧
        m.cachePolicy.idleFrameThreshold < m.lifetime.IdleFrames rcd.id m.frame) ∧
      (m.EvictIfPossible id).1 = true ∧
      (m.EvictIfPossible id).2.lifetime = m.lifetime.OnEvicted id ∧
      (m.EvictIfPossible id).2.stats = statHook m.stats (StatEvent.Evict id) ∧
      (m.EvictIfPossible id).2.storage.Find id = none ∧
      (∀ h : AssetHandle, h.id = id →
        (m.EvictIfPossible id).2.GetState h = AssetState.Unloaded ∧
          ∀ T : PayloadKind, (m.EvictIfPossible id).2.GetShared T h = none) ∧
      (∀ i : AssetId, i ≠ id →
        (m.EvictIfPossible id).2.storage.Find i = m.storage.Find i) := by
  have hE : m.EvictIfPossible id =
      (true, { m with
        lifetime := m.lifetime.OnEvicted id
        stats := statHook m.stats (StatEvent.Evict id)
        storage := ⟨Function.update m.storage.map id none⟩ }) := by
    have hm : m.storage.map id = some rcd := hrec
    simp [EvictIfPossible, hrec, hev, AssetStorage.EraseIf, hm]
  have hnone : (m.EvictIfPossible id).2.storage.Find id = none := by
    rw [hE]
    simp [AssetStorage.Find]
  refine ⟨?_, by rw [hE], by rw [hE], by rw [hE], hnone, ?_, ?_⟩
  · simpa [AssetCachePolicy.IsEvictable, and_assoc] using hev
  · intro h hid
    subst hid
    constructor
    · simp [GetState, FindRecord_, hnone]
    · intro T
      simp [GetShared, FindRecord_, hnone]
  · intro i hi
    rw [hE]
    simp [AssetStorage.Find, Function.update, hi]

/-- C21 witness: the `Ready` record of identifier 1 with `refCount = 0`, last
touched at frame 0, is evicted at frame 5 under a threshold of 0. -/
theorem evict_evictable_witness :
    ((readyManager 1 0 helloBytes helloBytes).BeginFrame 5).storage.Find ⟨1⟩ =
        some (readyRecord 1 0 helloBytes) ∧
      (((readyManager 1 0 helloBytes helloBytes).BeginFrame 5).EvictIfPossible ⟨1⟩).1 = true ∧
      (((readyManager 1 0 helloBytes helloBytes).BeginFrame 5).EvictIfPossible
        ⟨1⟩).2.storage.Find ⟨1⟩ = none :=
  let h := evict_evictable ((readyManager 1 0 helloBytes helloBytes).BeginFrame 5) ⟨1⟩
    (readyRecord 1 0 helloBytes) rfl (by decide)
  ⟨rfl, h.2.1, h.2.2.2.2.1⟩

/-- C22: for a synchronous request that resolves and is not a cache hit, whose
pipeline load fails with error `err`, when the fallback is `None` or the
record was not `Ready` before the attempt, `Load` returns `Err(err)`; the
record (created by the call if absent) ends in state `Failed` with last
error `err` and an empty payload, and with the `refCount` and the generation
it had before. -/
theorem sync_load_failure (m : AssetManager) (id : AssetId) (req : AssetRequest)
    (e : ResolvedEntry) (err : AssetError)
    (hsync : req.sync = SyncWith.Sync)
    (hres : (m.ResolveEntry_ id req).1 = Except.ok e)
    (hmiss : (workRecord m id e).state = AssetState.Ready → req.reload = true)
    (hk : req.fallback = Fallback.None ∨ (workRecord m id e).state ≠ AssetState.Ready)
    (hpipe : PipelineGives m (workRecord m id e).id e req (Except.error err)) :
    (m.Load id req).1 = Except.error err ∧
      (∃ r, (m.Load id req).2.storage.Find id = some r ∧ r.state = AssetState.Failed ∧
        r.error = err ∧ r.asset = AnyAsset.none ∧
        r.refCount = (workRecord m id e).refCount ∧
        r.generation = (workRecord m id e).generation ∧
        (∀ rcd, m.storage.Find id = some rcd →
          r.refCount = rcd.refCount ∧ r.generation = rcd.generation) ∧
        (m.storage.Find id = none → r.refCount = 0 ∧ r.generation = 1)) ∧
      (∀ i : AssetId, i ≠ id → (m.Load id req).2.storage.Find i = m.storage.Find i) := by
  have hk' : ¬(req.fallback = Fallback.KeepOldIfAny ∧
      (workRecord m id e).state = AssetState.Ready) := by
    rintro ⟨h1, h2⟩
    rcases hk with hk | hk
    · rw [hk] at h1
      cases h1
    · exact hk h2
  obtain ⟨h1, h2, -⟩ := load_sync_err_fail m id req hres hmiss hsync hk' hpipe
  refine ⟨h1, ⟨(workRecord m id e).SetFailed err, ?_, rfl, rfl, ?_, rfl, rfl, ?_, ?_⟩, ?_⟩
  · rw [h2, find_put]
    simp
  · simp [AssetRecord.SetFailed, AnyAsset.Reset, AnyAsset.none]
  · intro rcd hr
    simp [workRecord, hr, AssetRecord.SetFailed]
  · intro hn
    simp [workRecord, hn, AssetRecord.SetFailed, AssetStorage.fresh]
  · intro i hi
    rw [h2, find_put]
    simp [hi]

/-- C22 witness: the first synchronous load of identifier 1 when the source has no
file fails with `SourceReadFailed` and leaves a `Failed` record. -/
theorem sync_load_failure_witness :
    ((testManager titleCatalog ⟨7⟩ []).Load ⟨1⟩ AssetRequest.Default).1 =
      Except.error
        (AssetError.Make AssetErrorCode.SourceReadFailed "MemoryAssetSource: not found"
          titlePath) :=
  (sync_load_failure (testManager titleCatalog ⟨7⟩ []) ⟨1⟩ AssetRequest.Default
    ⟨⟨7⟩, titlePath⟩
    (AssetError.Make AssetErrorCode.SourceReadFailed "MemoryAssetSource: not found" titlePath)
    rfl rfl (fun hc => by cases hc) (Or.inl rfl) (fun _ => rfl)).1

/-- C23: `AssetPipeline::Load` checks in a fixed order.  A context with an empty
resolved path yields `InvalidPath`, whatever its type and whatever the
registry and the byte source are, and reports nothing to the statistics
collaborator; otherwise a type with no registered decoder yields
`UnsupportedType`, whatever the byte source is. -/
theorem pipeline_check_order (p : AssetPipeline) (ctx : LoadContext) :
    (ctx.resolvedPath = "" →
        (p.Load ctx).1 =
            Except.error
              (AssetError.Make AssetErrorCode.InvalidPath "AssetPipeline: resolvedPath is empty"
                "") ∧
          (p.Load ctx).2 = ctx.statistics ∧
          ∀ p2 : AssetPipeline, p2.Load ctx = p.Load ctx) ∧
      (ctx.resolvedPath ≠ "" → p.registry.Find ctx.type = none →
        (p.Load ctx).1 =
            Except.error
              (AssetError.Make AssetErrorCode.UnsupportedType "AssetPipeline: no loader for type"
                ctx.resolvedPath) ∧
          ∀ src : IAssetSource, AssetPipeline.Load ⟨src, p.registry⟩ ctx = p.Load ctx) := by
  constructor
  · intro hpath
    have h : ∀ q : AssetPipeline, q.Load ctx =
        (Except.error
          (AssetError.Make AssetErrorCode.InvalidPath "AssetPipeline: resolvedPath is empty" ""),
          ctx.statistics) := by
      intro q
      simp [AssetPipeline.Load, LoadContext.HasPath, hpath]
    refine ⟨by rw [h], by rw [h], ?_⟩
    intro p2
    rw [h, h]
  · intro hpath hfind
    have h : ∀ src : IAssetSource, AssetPipeline.Load ⟨src, p.registry⟩ ctx =
        (Except.error
          (AssetError.Make AssetErrorCode.UnsupportedType "AssetPipeline: no loader for type"
            ctx.resolvedPath),
          statHook (statHook ctx.statistics StatEvent.LoadStart)
            (StatEvent.LoadFailure ctx.id ctx.type ctx.nowFrame)) := by
      intro src
      simp [AssetPipeline.Load, LoadContext.HasPath, hpath, hfind]
    have hp : p.Load ctx = AssetPipeline.Load ⟨p.source, p.registry⟩ ctx := rfl
    refine ⟨by rw [hp, h], ?_⟩
    intro src
    rw [hp, h, h]

/-- C23 witness: with an empty registry and a non-empty path, the load of the test
context yields `UnsupportedType`, although the source holds the file. -/
theorem pipeline_check_order_witness :
    (AssetPipeline.Load ⟨MemoryAssetSource [(titlePath, helloBytes)], LoaderRegistry.empty⟩
        (titleContext none)).1 =
      Except.error
        (AssetError.Make AssetErrorCode.UnsupportedType "AssetPipeline: no loader for type"
          titlePath) :=
  ((pipeline_check_order ⟨MemoryAssetSource [(titlePath, helloBytes)], LoaderRegistry.empty⟩
    (titleContext none)).2 (by decide) rfl).1

/-- C24: when the path is non-empty and a decoder is registered for the context's
type, `AssetPipeline::Load` returns the byte source's error unchanged if
`ReadAll` fails, whatever the decoder is; returns the decoder's error
unchanged if decoding fails; and otherwise returns exactly the payload the
decoder produced from exactly the bytes the source returned.  In each case
the statistics collaborator receives one start and one outcome report. -/
theorem pipeline_propagates (p : AssetPipeline) (ctx : LoadContext) (loader : IAssetLoader)
    (hpath : ctx.resolvedPath ≠ "") (hfind : p.registry.Find ctx.type = some loader) :
    (∀ e : AssetError, p.source.ReadAll ctx.resolvedPath = Except.error e →
        p.Load ctx =
            (Except.error e, statHook (statHook ctx.statistics StatEvent.LoadStart)
              (StatEvent.LoadFailure ctx.id ctx.type ctx.nowFrame)) ∧
          ∀ (reg : LoaderRegistry) (l2 : IAssetLoader), reg.Find ctx.type = some l2 →
            AssetPipeline.Load ⟨p.source, reg⟩ ctx = p.Load ctx) ∧
      (∀ (buf : ByteBuffer) (e : AssetError),
        p.source.ReadAll ctx.resolvedPath = Except.ok buf →
        loader.Load buf ctx = Except.error e →
        p.Load ctx =
          (Except.error e, statHook (statHook ctx.statistics StatEvent.LoadStart)
            (StatEvent.LoadFailure ctx.id ctx.type ctx.nowFrame))) ∧
      (∀ (buf : ByteBuffer) (a : AnyAsset),
        p.source.ReadAll ctx.resolvedPath = Except.ok buf →
        loader.Load buf ctx = Except.ok a →
        p.Load ctx =
          (Except.ok a, statHook (statHook ctx.statistics StatEvent.LoadStart)
            (StatEvent.LoadSuccess ctx.id ctx.type ctx.nowFrame buf.length 0))) := by
  refine ⟨?_, ?_, ?_⟩
  · intro e hread
    have h : ∀ (reg : LoaderRegistry) (l2 : IAssetLoader), reg.Find ctx.type = some l2 →
        AssetPipeline.Load ⟨p.source, reg⟩ ctx =
          (Except.error e, statHook (statHook ctx.statistics StatEvent.LoadStart)
            (StatEvent.LoadFailure ctx.id ctx.type ctx.nowFrame)) := by
      intro reg l2 hl2
      simp [AssetPipeline.Load, LoadContext.HasPath, hpath, hl2, hread]
    have hp : p.Load ctx = AssetPipeline.Load ⟨p.source, p.registry⟩ ctx := rfl
    refine ⟨by rw [hp]; exact h _ _ hfind, ?_⟩
    intro reg l2 hl2
    rw [hp, h _ _ hl2, h _ _ hfind]
  · intro buf e hread hdec
    simp [AssetPipeline.Load, LoadContext.HasPath, hpath, hfind, hread, hdec]
  · intro buf a hread hdec
    simp [AssetPipeline.Load, LoadContext.HasPath, hpath, hfind, hread, hdec]

/-- C24 witness: the test pipeline returns the text decoded from the bytes stored
at `titlePath`. -/
theorem pipeline_propagates_witness :
    (testPipeline ⟨7⟩ [(titlePath, helloBytes)]).Load (titleContext none) =
      (Except.ok (AnyAsset.FromShared (Payload.text ⟨helloBytes⟩)), none) :=
  (pipeline_propagates (testPipeline ⟨7⟩ [(titlePath, helloBytes)]) (titleContext none)
    (TextLoader ⟨7⟩) (by decide) rfl).2.2 helloBytes
    (AnyAsset.FromShared (Payload.text ⟨helloBytes⟩)) rfl rfl

/-- C25 (amended): for two contexts that differ only in the statistics field,
`AssetPipeline::Load` returns equal results provided the decoder registered
for the context's type, which is handed the whole context, returns equal
results for the two contexts on the bytes read; the text decoder does, for
it reads no field of the context. -/
theorem pipeline_result_ignores_statistics (p : AssetPipeline) (ctx : LoadContext)
    (st : Option AssetStatistics)
    (hdec : ∀ (l : IAssetLoader) (buf : ByteBuffer), p.registry.Find ctx.type = some l →
      p.source.ReadAll ctx.resolvedPath = Except.ok buf →
      l.Load buf { ctx with statistics := st } = l.Load buf ctx) :
    (p.Load { ctx with statistics := st }).1 = (p.Load ctx).1 ∧
      ∀ (t : AssetType) (buf : ByteBuffer),
        (TextLoader t).Load buf { ctx with statistics := st } = (TextLoader t).Load buf ctx := by
  refine ⟨?_, fun _ _ => rfl⟩
  unfold AssetPipeline.Load
  by_cases hpath : ctx.resolvedPath = ""
  · simp [LoadContext.HasPath, hpath]
  · cases hfind : p.registry.Find ctx.type with
    | none => simp [LoadContext.HasPath, hpath, hfind]
    | some l =>
      cases hread : p.source.ReadAll ctx.resolvedPath with
      | error e => simp [LoadContext.HasPath, hpath, hfind, hread]
      | ok buf =>
        have hd := hdec l buf hfind hread
        simp only [LoadContext.HasPath, hpath, hfind, hread, hd]
        cases hl : l.Load buf ctx <;> simp [hpath]

/-- C25 witness: the test pipeline returns the same text with and without a
statistics collaborator. -/
theorem pipeline_result_ignores_statistics_witness :
    ((testPipeline ⟨7⟩ [(titlePath, helloBytes)]).Load (titleContext (some ⟨[]⟩))).1 =
      ((testPipeline ⟨7⟩ [(titlePath, helloBytes)]).Load (titleContext none)).1 :=
  (pipeline_result_ignores_statistics (testPipeline ⟨7⟩ [(titlePath, helloBytes)])
    (titleContext none) (some ⟨[]⟩) (fun _ _ _ _ => by
      rename_i l buf h1 h2
      cases h1
      rfl)).1

/-- C25 counterexample: with `statisticsProbe` registered, the two contexts that
differ only in the statistics field get different results: the decoded text
without a collaborator, `InternalError` with one. -/
theorem pipeline_result_depends_on_statistics :
    (probePipeline.Load (titleContext none)).1 =
        Except.ok (AnyAsset.FromShared (Payload.text ⟨helloBytes⟩)) ∧
      (probePipeline.Load (titleContext (some ⟨[]⟩))).1 =
        Except.error
          (AssetError.Make AssetErrorCode.InternalError "probe: statistics attached" "") ∧
      (probePipeline.Load (titleContext (some ⟨[]⟩))).1 ≠
        (probePipeline.Load (titleContext none)).1 := by
  have h1 : (probePipeline.Load (titleContext none)).1 =
      Except.ok (AnyAsset.FromShared (Payload.text ⟨helloBytes⟩)) := rfl
  have h2 : (probePipeline.Load (titleContext (some ⟨[]⟩))).1 =
      Except.error
        (AssetError.Make AssetErrorCode.InternalError "probe: statistics attached" "") := rfl
  refine ⟨h1, h2, ?_⟩
  rw [h1, h2]
  intro hc
  cases hc

/-- C26: `LoaderRegistry::Register` returns `InternalError` for an absent loader,
`UnsupportedType` for a loader whose type is the reserved invalid type
(value 0), and `InternalError` when a loader is already registered for the
type; in each failing case the registry is unchanged, so `Find` of the type
still returns the loader that was registered first. -/
theorem register_failures (r : LoaderRegistry) :
    r.Register none =
        (Except.error (AssetError.Make AssetErrorCode.InternalError "Register: loader is null" ""),
          r) ∧
      (∀ l : IAssetLoader, l.GetType.value = 0 →
        r.Register (some l) =
          (Except.error
            (AssetError.Make AssetErrorCode.UnsupportedType "Register: invalid AssetType (0)" ""),
            r)) ∧
      (∀ l l0 : IAssetLoader, l.GetType.value ≠ 0 → r.Find l.GetType = some l0 →
        r.Register (some l) =
            (Except.error
              (AssetError.Make AssetErrorCode.InternalError
                "Register: loader already exists for type" ""), r) ∧
          (r.Register (some l)).2.Find l.GetType = some l0) ∧
      (∀ (l : Option IAssetLoader) (err : AssetError), (r.Register l).1 = Except.error err →
        (r.Register l).2 = r ∧
          (err.code = AssetErrorCode.InternalError ∨
            err.code = AssetErrorCode.UnsupportedType)) := by
  refine ⟨rfl, ?_, ?_, ?_⟩
  · intro l h0
    simp [LoaderRegistry.Register, LoaderRegistry.Key, h0]
  · intro l l0 h0 hf
    have hm : r.map l.GetType.value = some l0 := hf
    have hR : r.Register (some l) =
        (Except.error
          (AssetError.Make AssetErrorCode.InternalError
            "Register: loader already exists for type" ""), r) := by
      simp [LoaderRegistry.Register, LoaderRegistry.Key, h0, hm]
    exact ⟨hR, by rw [hR]; exact hf⟩
  · intro l err herr
    cases l with
    | none =>
      simp only [LoaderRegistry.Register] at herr ⊢
      cases herr
      exact ⟨trivial, Or.inl rfl⟩
    | some l =>
      by_cases h0 : l.GetType.value = 0
      · simp only [LoaderRegistry.Register, LoaderRegistry.Key, h0, if_true] at herr ⊢
        cases herr
        exact ⟨trivial, Or.inr rfl⟩
      · cases hm : r.map l.GetType.value with
        | none => simp [LoaderRegistry.Register, LoaderRegistry.Key, h0, hm] at herr
        | some l0 =>
          simp only [LoaderRegistry.Register, LoaderRegistry.Key, h0, hm, if_false] at herr ⊢
          cases herr
          exact ⟨trivial, Or.inl rfl⟩

/-- C26 witness: registering a second text decoder for type 7 fails with
`InternalError`. -/
theorem register_failures_witness :
    ((registerAll [some (TextLoader ⟨7⟩)]).Register (some statisticsProbe)).1 =
      Except.error
        (AssetError.Make AssetErrorCode.InternalError "Register: loader already exists for type"
          "") :=
  congrArg Prod.fst
    (((register_failures (registerAll [some (TextLoader ⟨7⟩)])).2.2.1 statisticsProbe
      (TextLoader ⟨7⟩) (by decide) rfl).1)

/-- C27: after `Register(loader)` succeeds, `Find` of the loader's type returns
that loader and `Find` of every other type returns what it returned before;
in a registry built by `Register` calls, `Find` of a type for which no loader
was passed returns none. -/
theorem register_then_find (r : LoaderRegistry) (l : IAssetLoader)
    (hok : (r.Register (some l)).1 = Except.ok ()) :
    (r.Register (some l)).2.Find l.GetType = some l ∧
      (∀ t : AssetType, t ≠ l.GetType → (r.Register (some l)).2.Find t = r.Find t) ∧
      (∀ t : AssetType, LoaderRegistry.empty.Find t = none) ∧
      (∀ (ls : List (Option IAssetLoader)) (t : AssetType),
        (∀ l2 : IAssetLoader, some l2 ∈ ls → l2.GetType ≠ t) →
        (registerAll ls).Find t = none) := by
  have h0 : ¬(l.GetType.value = 0) := by
    intro h
    simp [LoaderRegistry.Register, LoaderRegistry.Key, h] at hok
  have hm : r.map l.GetType.value = none := by
    cases hm : r.map l.GetType.value with
    | none => rfl
    | some l0 => simp [LoaderRegistry.Register, LoaderRegistry.Key, h0, hm] at hok
  have hR : (r.Register (some l)).2 = ⟨Function.update r.map l.GetType.value (some l)⟩ := by
    simp [LoaderRegistry.Register, LoaderRegistry.Key, h0, hm]
  refine ⟨?_, ?_, fun _ => rfl, ?_⟩
  · rw [hR]
    simp [LoaderRegistry.Find, LoaderRegistry.Key]
  · intro t ht
    rw [hR]
    have hv : t.value ≠ l.GetType.value := by
      intro hc
      apply ht
      cases t
      cases hl : l.GetType
      simp_all
    simp [LoaderRegistry.Find, LoaderRegistry.Key, Function.update, hv]
  · intro ls t
    have key : ∀ (ls : List (Option IAssetLoader)) (r0 : LoaderRegistry), r0.Find t = none →
        (∀ l2 : IAssetLoader, some l2 ∈ ls → l2.GetType ≠ t) →
        (ls.foldl (fun r l => (r.Register l).2) r0).Find t = none := by
      intro ls
      induction ls with
      | nil => intro r0 h _; exact h
      | cons x xs ih =>
        intro r0 h hall
        apply ih
        · cases x with
          | none => exact h
          | some l2 =>
            have hne : l2.GetType ≠ t := hall l2 (List.mem_cons_self _ _)
            have hv : t.value ≠ l2.GetType.value := by
              intro hc
              apply hne
              cases t
              cases hl : l2.GetType
              simp_all
            simp only [LoaderRegistry.Register, LoaderRegistry.Key]
            split_ifs
            · exact h
            · split
              · exact h
              · simpa [LoaderRegistry.Find, LoaderRegistry.Key, Function.update, hv] using h
        · intro l2 hl2
          exact hall l2 (List.mem_cons_of_mem _ hl2)
    exact key ls LoaderRegistry.empty rfl

/-- C27 witness: after the text decoder is registered for type 7 in an empty
registry, `Find` of type 7 returns it. -/
theorem register_then_find_witness :
    ((LoaderRegistry.empty.Register (some (TextLoader ⟨7⟩))).2.Find ⟨7⟩).map
        IAssetLoader.GetType = some ⟨7⟩ :=
  congrArg (Option.map IAssetLoader.GetType)
    (register_then_find LoaderRegistry.empty (TextLoader ⟨7⟩) rfl).1

/-- C28 (code at the failing input): with the default options (root `"assets"`,
no absolute paths, no escape from the root), `Resolve("../secret.txt")`
returns `Ok("secret.txt")`, a path that is neither the root nor below it: the
`..` pops the root's own segment from the stack, which does not raise the
escape flag.  Likewise `"textures/../../secret.txt"`.  Only a `..` met on an
empty stack is detected, as for `"../../secret.txt"`. -/
theorem resolve_parent_of_root_accepted :
    AssetPathResolver.Resolve {} "../secret.txt" = Except.ok "secret.txt" ∧
      AssetPathResolver.JoinRootAndRelative "assets" "../secret.txt" = "assets/../secret.txt" ∧
      AssetPathResolver.RemoveDotSegments "assets/../secret.txt" = ("secret.txt", false) ∧
      "secret.txt" ≠ "assets" ∧
      ("assets/".data).isPrefixOf ("secret.txt".data) = false ∧
      AssetPathResolver.Resolve {} "textures/../../secret.txt" = Except.ok "secret.txt" ∧
      AssetPathResolver.Resolve {} "../../secret.txt" =
        Except.error
          (AssetError.Make AssetErrorCode.InvalidPath
            "AssetPathResolver: path escapes assetsRoot via '..' which is not allowed"
            "../../secret.txt") := by
  refine ⟨rfl, rfl, rfl, by decide, rfl, rfl, rfl⟩

/-- C29: `NormalizePath` is idempotent for every string and every pair of flags;
for instance `a\\b//c` normalizes to `a/b/c`, which normalizes to itself. -/
theorem normalize_idempotent (p : String) (normalizeSeparators squashSlashes : Bool) :
    AssetPathResolver.NormalizePath
        (AssetPathResolver.NormalizePath p normalizeSeparators squashSlashes)
        normalizeSeparators squashSlashes =
      AssetPathResolver.NormalizePath p normalizeSeparators squashSlashes ∧
    AssetPathResolver.NormalizePath "a\\\\b//c" true true = "a/b/c" := by
  constructor
  · unfold AssetPathResolver.NormalizePath
    rw [(normalizeLoop_idem normalizeSeparators squashSlashes p.data).1 false]
  · rfl

/-- C30 (amended): with the default options `Resolve` maps
`"textures/player.png"`, `"res://textures/player.png"` and
`"assets://textures/player.png"` all to `"assets/textures/player.png"`.  In
general, when `allowSchemes` is set, for every scheme name `s` without
`"://"` and every non-empty path `p` that contains no `"://"` and does not
begin with `/` or `\`, `Resolve(s + "://" + p)` is `Resolve(p)` except that
an error carries the input it was given as its detail: the two calls succeed
on the same inputs with the same resolved path and fail with the same code
and message. -/
theorem resolve_scheme_equiv (opt : AssetPathResolver.Options) (s p : String)
    (hopt : opt.allowSchemes = true)
    (hs : AssetPathResolver.findScheme s.data = none)
    (hp : AssetPathResolver.findScheme p.data = none)
    (hne : p ≠ "")
    (hhead : ∀ c : Char, p.data.head? = some c → AssetPathResolver.IsSlash c = false) :
    (AssetPathResolver.Resolve {} "textures/player.png" =
          Except.ok "assets/textures/player.png" ∧
        AssetPathResolver.Resolve {} "res://textures/player.png" =
          Except.ok "assets/textures/player.png" ∧
        AssetPathResolver.Resolve {} "assets://textures/player.png" =
          Except.ok "assets/textures/player.png") ∧
      AssetPathResolver.Resolve opt (s ++ "://" ++ p) =
        (AssetPathResolver.Resolve opt p).mapError
          (fun e => { e with detail := s ++ "://" ++ p }) ∧
      (∀ r : String, AssetPathResolver.Resolve opt (s ++ "://" ++ p) = Except.ok r ↔
        AssetPathResolver.Resolve opt p = Except.ok r) ∧
      (∀ e : AssetError, AssetPathResolver.Resolve opt p = Except.error e →
        e.detail = p ∧
          AssetPathResolver.Resolve opt (s ++ "://" ++ p) =
            Except.error ⟨e.code, e.message, s ++ "://" ++ p⟩) := by
  have h1 : (AssetPathResolver.StripScheme (s ++ "://" ++ p)).1 = p := by
    rw [stripScheme_scheme s p hs hhead]
  have h2 : (AssetPathResolver.StripScheme p).1 = p := by
    rw [stripScheme_none p hp]
  have hpd : p.data ≠ [] := by
    intro hc
    apply hne
    cases p
    simp_all
  have hsd : (s ++ "://" ++ p).data ≠ [] := by
    simp [String.data_append]
  have hmain : AssetPathResolver.Resolve opt (s ++ "://" ++ p) =
      (AssetPathResolver.Resolve opt p).mapError
        (fun e => { e with detail := s ++ "://" ++ p }) := by
    unfold AssetPathResolver.Resolve
    simp only [hopt, h1, h2, hpd, hsd, if_false, if_true]
    split_ifs <;> rfl
  have hdetail : ∀ e : AssetError, AssetPathResolver.Resolve opt p = Except.error e →
      e.detail = p := by
    intro e he
    unfold AssetPathResolver.Resolve at he
    simp only [hpd, if_false] at he
    split_ifs at he <;> cases he <;> rfl
  refine ⟨⟨rfl, rfl, rfl⟩, hmain, ?_, ?_⟩
  · intro r
    rw [hmain]
    cases hr : AssetPathResolver.Resolve opt p with
    | error e => simp [Except.mapError]
    | ok v => simp [Except.mapError]
  · intro e he
    refine ⟨hdetail e he, ?_⟩
    rw [hmain, he]
    rfl

/-- C30 witness: the scheme `res` and the path `textures/player.png` under the
default options. -/
theorem resolve_scheme_equiv_witness :
    AssetPathResolver.Resolve {} ("res" ++ "://" ++ "textures/player.png") =
      (AssetPathResolver.Resolve {} "textures/player.png").mapError
        (fun e => { e with detail := "res" ++ "://" ++ "textures/player.png" }) :=
  (resolve_scheme_equiv {} "res" "textures/player.png" rfl rfl rfl (by decide)
    (fun c hc => by
      have h : c = 't' := by
        have h0 : ("textures/player.png" : String).data.head? = some 't' := rfl
        rw [h0] at hc
        exact (Option.some.inj hc).symm
      subst h
      rfl)).2.1

/-- C30 counterexample: with the default options and the empty path `p`,
`Resolve("res://" + p)` is `Ok("assets")` while `Resolve(p)` is an error; for
`p = "../../x"` the two calls fail with different errors, each carrying its
own input as the detail; and for `s = "a://b"`, `p = "c"` the first `"://"`
lies inside `s`, so that `Resolve(s + "://" + p)` is an error while
`Resolve(p)` is `Ok("assets/c")`. -/
theorem resolve_scheme_differs :
    AssetPathResolver.findScheme ("" : String).data = none ∧
      AssetPathResolver.Resolve {} ("res" ++ "://" ++ "") = Except.ok "assets" ∧
      AssetPathResolver.Resolve {} "" =
        Except.error
          (AssetError.Make AssetErrorCode.InvalidPath "AssetPathResolver: empty path" "") ∧
      AssetPathResolver.Resolve {} ("res" ++ "://" ++ "") ≠ AssetPathResolver.Resolve {} "" ∧
      AssetPathResolver.Resolve {} ("res" ++ "://" ++ "../../x") ≠
        AssetPathResolver.Resolve {} "../../x" ∧
      AssetPathResolver.Resolve {} "c" = Except.ok "assets/c" ∧
      AssetPathResolver.Resolve {} ("a://b" ++ "://" ++ "c") =
        Except.error
          (AssetError.Make AssetErrorCode.InvalidPath
            "AssetPathResolver: absolute path is not allowed" "a://b://c") := by
  have h1 : AssetPathResolver.Resolve {} ("res" ++ "://" ++ "") = Except.ok "assets" := rfl
  have h2 : AssetPathResolver.Resolve {} "" =
      Except.error
        (AssetError.Make AssetErrorCode.InvalidPath "AssetPathResolver: empty path" "") := rfl
  have h3 : AssetPathResolver.Resolve {} ("res" ++ "://" ++ "../../x") =
      Except.error
        (AssetError.Make AssetErrorCode.InvalidPath
          "AssetPathResolver: path escapes assetsRoot via '..' which is not allowed"
          "res://../../x") := rfl
  have h4 : AssetPathResolver.Resolve {} "../../x" =
      Except.error
        (AssetError.Make AssetErrorCode.InvalidPath
          "AssetPathResolver: path escapes assetsRoot via '..' which is not allowed"
          "../../x") := rfl
  refine ⟨rfl, h1, h2, ?_, ?_, rfl, rfl⟩
  · rw [h1, h2]
    intro hc
    cases hc
  · rw [h3, h4]
    intro hc
    have hd := congrArg (fun r => match r with
      | Except.error e => e.detail
      | Except.ok v => v) hc
    revert hd
    decide

/-- C31 (amended): `Load` hands the request to the pipeline inside the load
context, so the field `keepAliveFramesOverride` is inert exactly as far as the
pipeline ignores it.  Provided the outcome of the manager's pipeline does not
depend on that field of the request in the context, two `Load` calls from
the same manager state whose requests differ only in `keepAliveFramesOverride`
return the same result and handle and leave the same store (record state,
generation, payload, error, refCount), the same lifetime bookkeeping and,
up to that field of the request kept in a queued job, the same manager; and
after every later sequence of operations that installs only such pipelines,
the stores, the lifetime bookkeeping and every `EvictIfPossible` decision
are the same.  The text, texture and sound decoders ignore the field. -/
theorem keepAlive_override_inert (m : AssetManager) (id : AssetId) (req : AssetRequest) (k : Nat)
    (hblind : KeepAliveBlind m.pipeline) :
    (m.Load id (withKeepAlive req k)).1 = (m.Load id req).1 ∧
      (m.Load id (withKeepAlive req k)).2.storage = (m.Load id req).2.storage ∧
      (m.Load id (withKeepAlive req k)).2.lifetime = (m.Load id req).2.lifetime ∧
      forgetKeepAlive (m.Load id (withKeepAlive req k)).2 = forgetKeepAlive (m.Load id req).2 ∧
      (∀ ops : List Op, (∀ op ∈ ops, OpBlind op) →
        ((m.Load id (withKeepAlive req k)).2.runAll ops).storage =
            ((m.Load id req).2.runAll ops).storage ∧
          ((m.Load id (withKeepAlive req k)).2.runAll ops).lifetime =
            ((m.Load id req).2.runAll ops).lifetime ∧
          ∀ i : AssetId,
            (((m.Load id (withKeepAlive req k)).2.runAll ops).EvictIfPossible i).1 =
              (((m.Load id req).2.runAll ops).EvictIfPossible i).1) ∧
      (∀ (bytes : ByteBuffer) (ctx : LoadContext) (j : Nat),
        TextLoader.Load bytes { ctx with request := withKeepAlive ctx.request j } =
            TextLoader.Load bytes ctx ∧
          TextureLoader.Load bytes { ctx with request := withKeepAlive ctx.request j } =
            TextureLoader.Load bytes ctx ∧
          SoundLoader.Load bytes { ctx with request := withKeepAlive ctx.request j } =
            SoundLoader.Load bytes ctx) := by
  obtain ⟨h1, h2⟩ := load_keepAlive m hblind id req k
  refine ⟨h1, (forget_fields h2).1, (forget_fields h2).2, h2, ?_, ?_⟩
  · intro ops hops
    have hp1 : KeepAliveBlind (m.Load id (withKeepAlive req k)).2.pipeline :=
      blind_of_eq (load_env m id (withKeepAlive req k)).2.1 hblind
    have hp2 : KeepAliveBlind (m.Load id req).2.pipeline :=
      blind_of_eq (load_env m id req).2.1 hblind
    have h3 := runAll_forget ops _ _ hp1 hp2 hops h2
    refine ⟨(forget_fields h3).1, (forget_fields h3).2, ?_⟩
    intro i
    rw [← evict_forget ((m.Load id (withKeepAlive req k)).2.runAll ops) i,
      ← evict_forget ((m.Load id req).2.runAll ops) i, h3]
  · intro bytes ctx j
    exact ⟨rfl, rfl, rfl⟩

/-- C31 witness: on the fresh manager of the tests, whose pipeline holds the text
decoder only, the plain request and the request with a keep-alive override
of 5 frames give the same result, and the same eviction decision one update
and a hundred frames later. -/
theorem keepAlive_override_inert_witness :
    KeepAliveBlind freshManager.pipeline ∧
      (freshManager.Load ⟨1⟩ (withKeepAlive AssetRequest.Default 5)).1 =
        (freshManager.Load ⟨1⟩ AssetRequest.Default).1 ∧
      (((freshManager.Load ⟨1⟩ (withKeepAlive AssetRequest.Default 5)).2.runAll
          [Op.Update, Op.BeginFrame 100]).EvictIfPossible ⟨1⟩).1 =
        (((freshManager.Load ⟨1⟩ AssetRequest.Default).2.runAll
          [Op.Update, Op.BeginFrame 100]).EvictIfPossible ⟨1⟩).1 :=
  ⟨testPipeline_blind _ _,
    (keepAlive_override_inert freshManager ⟨1⟩ AssetRequest.Default 5
      (testPipeline_blind _ _)).1,
    ((keepAlive_override_inert freshManager ⟨1⟩ AssetRequest.Default 5
      (testPipeline_blind _ _)).2.2.2.2.1 [Op.Update, Op.BeginFrame 100]
        (fun _ h => by
          rcases List.mem_cons.1 h with h | h
          · subst h
            trivial
          · rcases List.mem_cons.1 h with h | h
            · subst h
              trivial
            · cases h)).2.2 ⟨1⟩⟩

/-- C31 counterexample: with `keepAliveProbe` registered, two `Load` calls from
the same fresh manager whose requests differ only in `keepAliveFramesOverride`
(0 and 5) differ in everything the claim lists: the first returns a handle
of generation 1 and leaves a `Ready` record with the text and refCount 1,
the second returns `InternalError` and leaves a `Failed` record without
payload and with refCount 0; ten frames later `EvictIfPossible` refuses the
first record and evicts the second. -/
theorem keepAlive_override_read_by_decoder :
    (keepAliveManager.Load ⟨1⟩ AssetRequest.Default).1 = Except.ok (AssetHandle.Make ⟨1⟩ 1) ∧
      (keepAliveManager.Load ⟨1⟩ (withKeepAlive AssetRequest.Default 5)).1 =
        Except.error
          (AssetError.Make AssetErrorCode.InternalError "probe: keep-alive set" "") ∧
      (keepAliveManager.Load ⟨1⟩ AssetRequest.Default).2.storage.Find ⟨1⟩ =
        some ⟨⟨1⟩, ⟨7⟩, titlePath, AssetState.Ready, 1,
          AnyAsset.FromShared (Payload.text ⟨helloBytes⟩), AssetError.empty, 1⟩ ∧
      (keepAliveManager.Load ⟨1⟩ (withKeepAlive AssetRequest.Default 5)).2.storage.Find ⟨1⟩ =
        some ⟨⟨1⟩, ⟨7⟩, titlePath, AssetState.Failed, 1, AnyAsset.none,
          AssetError.Make AssetErrorCode.InternalError "probe: keep-alive set" "", 0⟩ ∧
      (((keepAliveManager.Load ⟨1⟩ AssetRequest.Default).2.BeginFrame 10).EvictIfPossible
        ⟨1⟩).1 = false ∧
      (((keepAliveManager.Load ⟨1⟩ (withKeepAlive AssetRequest.Default 5)).2.BeginFrame
        10).EvictIfPossible ⟨1⟩).1 = true :=
  ⟨rfl, rfl, rfl, rfl, rfl, rfl⟩

/-- C32 (amended): within one `Update` call with hot reload enabled and a change
source attached, the change source is polled before the queue is drained.
Polling decodes nothing: it leaves the store as it is and appends, behind the
jobs already queued, one job with the hot-reload request for each reported
change.  The drain that follows in the same call processes the first
`maxLoadsPerFrame` jobs of that queue, the newly appended ones among them
when the budget reaches them; the others wait for a later call. -/
theorem update_polls_then_drains (m : AssetManager) (w : AssetWatcher)
    (hhot : m.opt.enableHotReload = true) (hw : m.watcher = some w) :
    m.Update = m.ProcessHotReload_.ProcessQueue_ ∧
      m.ProcessHotReload_.storage = m.storage ∧
      (∃ added : List PendingLoad, m.ProcessHotReload_.queue = m.queue ++ added ∧
        ∀ j ∈ added, j.req = hotReloadRequest m.opt ∧ ∃ ch ∈ w.Poll.1, ch.id = j.id) ∧
      m.Update.storage =
        (drainJobs m.ProcessHotReload_
          (m.ProcessHotReload_.queue.take m.opt.maxLoadsPerFrame)).storage ∧
      m.Update.queue = m.ProcessHotReload_.queue.drop m.opt.maxLoadsPerFrame ∧
      (∀ j ∈ m.ProcessHotReload_.queue.take m.opt.maxLoadsPerFrame,
        ∀ r', m.Update.storage.Find j.id = some r' →
          r'.state = AssetState.Ready ∨ r'.state = AssetState.Failed) := by
  have hU : m.Update = m.ProcessHotReload_.ProcessQueue_ := by
    simp [Update, hhot, hw]
  have hopt : m.ProcessHotReload_.opt = m.opt := (hotReload_keeps m).2
  have hst : m.Update.storage =
      (drainJobs m.ProcessHotReload_
        (m.ProcessHotReload_.queue.take m.opt.maxLoadsPerFrame)).storage := by
    rw [hU, processQueue_eq, hopt]
  refine ⟨hU, (hotReload_keeps m).1, hotReload_queue m w hw, hst, ?_, ?_⟩
  · rw [hU, processQueue_eq, hopt]
  · intro j hj r' hr'
    rw [hst] at hr'
    exact drainJobs_state _ _ j.id (List.mem_map_of_mem _ hj) r' hr'

/-- C32 witness: in the scenario "hot reload", the poll of the one `Update` call
appends the reload job of identifier 1 to the empty queue. -/
theorem update_polls_then_drains_witness :
    (freshManager.runAll (hotReloadOnce.take 3)).queue = [] ∧
      (freshManager.runAll (hotReloadOnce.take 3)).ProcessHotReload_.queue =
        [⟨⟨1⟩, hotReloadRequest ⟨2, true, true⟩⟩] ∧
      (freshManager.runAll (hotReloadOnce.take 3)).Update =
        (freshManager.runAll (hotReloadOnce.take 3)).ProcessHotReload_.ProcessQueue_ :=
  ⟨rfl, rfl, (update_polls_then_drains (freshManager.runAll (hotReloadOnce.take 3))
    ⟨[], [⟨⟨1⟩⟩]⟩ rfl rfl).1⟩

/-- C32 counterexample: in the scenario "hot reload" the record is `Ready` with
generation 1 and `"hello"` and the queue is empty before the one `Update`
call; the change reported by `Poll` during that call is reloaded in the same
call: afterwards the queue is empty again and the record holds `"world"`
with generation 2, so the pipeline was invoked for the job. -/
theorem polled_change_reloaded_in_same_update :
    Reachable (freshManager.runAll (hotReloadOnce.take 3)) ∧
      (freshManager.runAll (hotReloadOnce.take 3)).storage.Find ⟨1⟩ =
        some (readyRecord 1 1 helloBytes) ∧
      (freshManager.runAll (hotReloadOnce.take 3)).queue = [] ∧
      (freshManager.runAll (hotReloadOnce.take 3)).watcher = some ⟨[], [⟨⟨1⟩⟩]⟩ ∧
      (freshManager.runAll (hotReloadOnce.take 3)).opt.enableHotReload = true ∧
      (freshManager.runAll (hotReloadOnce.take 3)).Update.queue = [] ∧
      (freshManager.runAll (hotReloadOnce.take 3)).Update.storage.Find ⟨1⟩ =
        some (readyRecord 2 1 worldBytes) := by
  refine ⟨reachable_runAll _ _ reachable_freshManager, rfl, rfl, rfl, rfl, rfl, rfl⟩

/-- C33 (amended): in every reachable state a record whose state is `Failed` or
`Unloaded` holds an empty payload (and no stored record is `Unloaded`).
Nothing is promised for `Loading`, which keeps the payload the record held
when it was marked. -/
theorem failed_record_has_no_payload (m : AssetManager) (hreach : Reachable m) (i : AssetId)
    (r : AssetRecord) (hr : m.storage.Find i = some r) :
    (r.state = AssetState.Failed ∨ r.state = AssetState.Unloaded →
        r.asset = AnyAsset.none ∧ ∀ T : PayloadKind, r.asset.ShareAs T = none) ∧
      r.state ≠ AssetState.Unloaded := by
  refine ⟨?_, reachable_noUnloaded hreach i r hr⟩
  intro hs
  have h := reachable_failedEmpty hreach i r hr hs
  refine ⟨h, ?_⟩
  intro T
  rw [h]
  rfl

/-- C33 witness: after the asynchronous reload of the scenario "asynchronous
reload fails" was drained, the record is `Failed` and holds no payload. -/
theorem failed_record_has_no_payload_witness :
    ((freshManager.runAll asyncReloadFailed).storage.Find ⟨1⟩).map AssetRecord.state =
        some AssetState.Failed ∧
      ((freshManager.runAll asyncReloadFailed).storage.Find ⟨1⟩).map AssetRecord.asset =
        some AnyAsset.none :=
  ⟨rfl, by
    have h := (failed_record_has_no_payload (freshManager.runAll asyncReloadFailed)
      (reachable_runAll _ _ reachable_freshManager) ⟨1⟩
      ⟨⟨1⟩, ⟨7⟩, titlePath, AssetState.Failed, 1, AnyAsset.none,
        ⟨AssetErrorCode.SourceReadFailed, "MemoryAssetSource: not found", titlePath⟩, 2⟩
      rfl).1 (Or.inl rfl)
    exact congrArg some h.1⟩

/-- C33 counterexample: after a synchronous load and an asynchronous reload
request, the record of identifier 1 is `Loading`, not `Ready`, and still
holds the text `"hello"`. -/
theorem loading_record_keeps_payload :
    Reachable (freshManager.runAll (asyncReloadDrained.take 2)) ∧
      (freshManager.runAll (asyncReloadDrained.take 2)).storage.Find ⟨1⟩ =
        some { readyRecord 1 2 helloBytes with state := AssetState.Loading } ∧
      ({ readyRecord 1 2 helloBytes with state := AssetState.Loading } : AssetRecord).state ≠
        AssetState.Ready ∧
      ({ readyRecord 1 2 helloBytes with state := AssetState.Loading } : AssetRecord).asset =
        AnyAsset.FromShared (Payload.text ⟨helloBytes⟩) ∧
      AnyAsset.FromShared (Payload.text ⟨helloBytes⟩) ≠ AnyAsset.none := by
  refine ⟨reachable_runAll _ _ reachable_freshManager, rfl, by decide, rfl, by decide⟩

/-- C34: in every reachable state every record in state `Loading` has a job for
its identifier in the pending queue, exactly one, and the drain loop run
over the whole queue empties the queue and leaves that record stored and
`Ready` or `Failed`. -/
theorem loading_record_has_job (m : AssetManager) (hreach : Reachable m) (i : AssetId)
    (r : AssetRecord) (hr : m.storage.Find i = some r) (hl : r.state = AssetState.Loading) :
    (∃ j ∈ m.queue, j.id = i) ∧ (queueIds m).count i = 1 ∧
      (ProcessQueueLoop_ m.queue.length m).queue = [] ∧
      ∃ r', (ProcessQueueLoop_ m.queue.length m).storage.Find i = some r' ∧
        (r'.state = AssetState.Ready ∨ r'.state = AssetState.Failed) := by
  have hjob : i ∈ queueIds m := reachable_loading_job hreach i r hr hl
  have hst : (ProcessQueueLoop_ m.queue.length m).storage = (drainJobs m m.queue).storage := by
    rw [loop_eq, List.take_length]
  refine ⟨?_, List.count_eq_one_of_mem (reachable_queueInv hreach).1 hjob, ?_, ?_⟩
  · unfold queueIds at hjob
    obtain ⟨j, hj, hid⟩ := List.mem_map.1 hjob
    exact ⟨j, hj, hid⟩
  · rw [loop_eq]
    simp
  · obtain ⟨r', h', -⟩ := drainJobs_keeps m.queue m i r hr
    exact ⟨r', by rw [hst]; exact h', drainJobs_state m.queue m i hjob r' h'⟩

/-- C34 witness: after the three asynchronous loads, the `Loading` record of
identifier 3 has its job in the queue. -/
theorem loading_record_has_job_witness :
    ((threeManager.runAll threeAsyncLoads).storage.Find ⟨3⟩).map AssetRecord.state =
        some AssetState.Loading ∧
      ∃ j ∈ (threeManager.runAll threeAsyncLoads).queue, j.id = ⟨3⟩ :=
  ⟨rfl, (loading_record_has_job (threeManager.runAll threeAsyncLoads)
    (reachable_runAll threeAsyncLoads threeManager reachable_threeManager) ⟨3⟩
    ⟨⟨3⟩, ⟨7⟩, "mem://c.txt", AssetState.Loading, 1, AnyAsset.none, AssetError.empty, 1⟩
    rfl rfl).1⟩

/-- C35 (code at the failing input): the binary PPM file `"P6\n1 1\n255\n"`
followed by the three body bytes of its one pixel decodes to that pixel when
the body is `41 42 43`; but when the body begins with a whitespace byte
(`20 42 43`) or with `#` (`23 42 43`), the bytes after the header are skipped
as whitespace and comment and the decoder fails with `body too small` or
`missing body`: more than the single whitespace byte after the header is
skipped.  For every three-byte body after this header, the decoder returns
the pixel exactly when the first body byte is neither whitespace nor `#`,
and fails with `DecodeFailed` otherwise. -/
theorem ppm_body_bytes_skipped (ctx : LoadContext) :
    TextureLoader.DecodePPM (ppmHeader1x1 ++ [0x41, 0x42, 0x43]) ctx =
        Except.ok ⟨1, 1, [0x41, 0x42, 0x43, 255]⟩ ∧
      TextureLoader.SkipCommentsAndSpaces ([10, 0x20, 0x42, 0x43] : List Byte) =
        [0x42, 0x43] ∧
      TextureLoader.DecodePPM (ppmHeader1x1 ++ [0x20, 0x42, 0x43]) ctx =
        Except.error
          (AssetError.Make AssetErrorCode.DecodeFailed "PPM(P6): body too small"
            ctx.resolvedPath) ∧
      TextureLoader.DecodePPM (ppmHeader1x1 ++ [0x23, 0x42, 0x43]) ctx =
        Except.error
          (AssetError.Make AssetErrorCode.DecodeFailed "PPM: missing body" ctx.resolvedPath) ∧
      TextureLoader.Load (ppmHeader1x1 ++ [0x20, 0x42, 0x43]) ctx =
        Except.error
          (AssetError.Make AssetErrorCode.DecodeFailed "PPM(P6): body too small"
            ctx.resolvedPath) ∧
      (∀ a b c : Byte, TextureLoader.isSpace a = false → a.val ≠ 35 →
        TextureLoader.DecodePPM (ppmHeader1x1 ++ [a, b, c]) ctx =
          Except.ok ⟨1, 1, [a.val, b.val, c.val, 255]⟩) ∧
      (∀ a b c : Byte, TextureLoader.isSpace a = true ∨ a.val = 35 →
        ∃ msg : String,
          TextureLoader.DecodePPM (ppmHeader1x1 ++ [a, b, c]) ctx =
            Except.error (AssetError.Make AssetErrorCode.DecodeFailed msg ctx.resolvedPath)) := by
  have hdec : ∀ a b c : Byte,
      TextureLoader.DecodePPM (ppmHeader1x1 ++ [a, b, c]) ctx =
        match TextureLoader.SkipCommentsAndSpaces [10, a, b, c] with
        | [] =>
          Except.error
            (AssetError.Make AssetErrorCode.DecodeFailed "PPM: missing body" ctx.resolvedPath)
        | body =>
          if body.length < 3 then
            Except.error
              (AssetError.Make AssetErrorCode.DecodeFailed "PPM(P6): body too small"
                ctx.resolvedPath)
          else Except.ok ⟨1, 1, TextureLoader.p6Pixels (body.take 3)⟩ := fun a b c =>
    decodePPM_binary [10, 49, 32, 49, 10, 50, 53, 53, 10, a, b, c]
      [32, 49, 10, 50, 53, 53, 10, a, b, c] [10, 50, 53, 53, 10, a, b, c] [10, a, b, c] 1 1 ctx
      rfl rfl rfl (by decide) (by decide)
  refine ⟨rfl, rfl, rfl, rfl, rfl, ?_, ?_⟩
  · intro a b c hsp h35
    have hskip : TextureLoader.SkipCommentsAndSpaces [10, a, b, c] = [a, b, c] := by
      have e1 : TextureLoader.SkipSpaces [10, a, b, c] = [a, b, c] := by
        rw [TextureLoader.SkipSpaces, if_pos (by decide), TextureLoader.SkipSpaces,
          if_neg (by rw [hsp]; decide)]
      unfold TextureLoader.SkipCommentsAndSpaces TextureLoader.SkipCommentsLoop
      rw [e1]
      simp only [h35, if_false]
    rw [hdec, hskip]
    rfl
  · intro a b c ha
    have hlen : (TextureLoader.SkipCommentsAndSpaces [10, a, b, c]).length ≤ 2 := by
      have e1 : TextureLoader.SkipCommentsAndSpaces [10, a, b, c] =
          TextureLoader.SkipCommentsLoop 5 [a, b, c] := by
        unfold TextureLoader.SkipCommentsAndSpaces
        show TextureLoader.SkipCommentsLoop (4 + 1) [10, a, b, c] = _
        unfold TextureLoader.SkipCommentsLoop
        have e2 : TextureLoader.SkipSpaces [10, a, b, c] = TextureLoader.SkipSpaces [a, b, c] := by
          rw [TextureLoader.SkipSpaces, if_pos (by decide)]
        rw [e2]
      rw [e1]
      exact skipComments_first 4 a [b, c] ha
    rw [hdec]
    cases hb : TextureLoader.SkipCommentsAndSpaces [10, a, b, c] with
    | nil => exact ⟨_, rfl⟩
    | cons x rest =>
      rw [hb] at hlen
      simp only []
      rw [if_pos (by omega)]
      exact ⟨_, rfl⟩

/-- C36 (code at the failing input): for the 20-byte ASCII file
`"P3 65536 32768 255 0"` the header is accepted and the buffer gets
`65536 * 32768 * 4` zero bytes, but the loop bound `w * h` is the `int`
product `2^31`, which as an `int` is `-2^31`: the pixel loop does not run,
and the load succeeds with a texture whose bytes, alpha included, are all 0
and were not set from the input.  For every input, a successful load gives a
texture with positive width and height and `width * height * 4` bytes, and
every fourth byte is 255 in the binary format and, when `width * height` is
below `2^31`, in the ASCII format. -/
theorem ppm_ascii_pixel_count_overflows (ctx : LoadContext) :
    TextureLoader.wrapInt (65536 * 32768) = -2147483648 ∧
      TextureLoader.DecodePPM ppmHugeAscii ctx =
        Except.ok ⟨65536, 32768, List.replicate (65536 * 32768 * 4) 0⟩ ∧
      TextureLoader.Load ppmHugeAscii ctx =
        Except.ok (AnyAsset.FromShared
          (Payload.texture ⟨65536, 32768, List.replicate (65536 * 32768 * 4) 0⟩)) ∧
      (List.replicate (65536 * 32768 * 4) (0 : Nat))[3]? = some 0 ∧
      (∀ (bytes : ByteBuffer) (a : AnyAsset), TextureLoader.Load bytes ctx = Except.ok a →
        ∃ t : TextureAsset, a = AnyAsset.FromShared (Payload.texture t) ∧
          0 < t.width ∧ 0 < t.height ∧ t.rgba.length = t.width * t.height * 4 ∧
          ((bytes.take 2 = [80, 54] ∨ t.width * t.height < 2147483648) →
            ∀ i, i < t.width * t.height → t.rgba[4 * i + 3]? = some 255)) := by
  have hwrap : TextureLoader.wrapInt (65536 * 32768) = -2147483648 := by decide
  have hdec : TextureLoader.DecodePPM ppmHugeAscii ctx =
      Except.ok ⟨65536, 32768, List.replicate (65536 * 32768 * 4) 0⟩ := by
    have h := decodePPM_ascii
      [32, 54, 53, 53, 51, 54, 32, 51, 50, 55, 54, 56, 32, 50, 53, 53, 32, 48]
      [32, 51, 50, 55, 54, 56, 32, 50, 53, 53, 32, 48] [32, 50, 53, 53, 32, 48] [32, 48] []
      48 65536 32768 [] ctx rfl rfl rfl (by decide) (by decide) rfl
      (by rw [hwrap]; rfl)
    exact h
  refine ⟨hwrap, hdec, ?_, ?_, ?_⟩
  · unfold TextureLoader.Load
    rw [hdec]
  · rw [List.getElem?_replicate, if_pos (by norm_num)]
  · intro bytes a ha
    unfold TextureLoader.Load at ha
    cases hd : TextureLoader.DecodePPM bytes ctx with
    | error e =>
      rw [hd] at ha
      cases ha
    | ok t =>
      rw [hd] at ha
      cases ha
      exact ⟨t, rfl, decodePPM_shape bytes ctx t hd⟩

/-- C37: for every input, `SoundLoader::Load` returns, and every byte it reads
lies inside the input (a read outside it has no result in the model, and the
load always has one).  The chunk loop ends within one iteration per eight
bytes between its offset and the end of the input, from any offset. -/
theorem sound_load_reads_in_bounds (bytes : ByteBuffer) (ctx : LoadContext) :
    (∃ r, SoundLoader.Load bytes ctx = some r) ∧
      (∀ (fuel off : Nat) (f : SoundLoader.WavFields),
        SoundLoader.FmtFrom bytes f → SoundLoader.DataFrom bytes f →
        bytes.length ≤ off + 8 * fuel →
        ∃ r, SoundLoader.chunkWalk bytes ctx.resolvedPath fuel off f = some r) ∧
      (∀ i : Nat, bytes.length ≤ i → SoundLoader.readU8 bytes i = none) := by
  refine ⟨?_, ?_, ?_⟩
  · unfold SoundLoader.Load
    by_cases hn : bytes.length < 12
    · simp only [hn, if_true]
      exact ⟨_, rfl⟩
    · simp only [hn, if_false]
      obtain ⟨t1, ht1⟩ := tagAt_some bytes 0 SoundLoader.riffTag (by omega)
      obtain ⟨t2, ht2⟩ := tagAt_some bytes 8 SoundLoader.waveTag (by omega)
      simp only [ht1, ht2]
      by_cases hsig : t1 = false ∨ t2 = false
      · simp only [hsig, if_true]
        exact ⟨_, rfl⟩
      · simp only [hsig, if_false]
        obtain ⟨r, hr, hinv⟩ := chunkWalk_some bytes ctx.resolvedPath bytes.length 12
          SoundLoader.WavFields.init (Or.inl ⟨rfl, rfl, rfl, rfl⟩) (Or.inl rfl) (by omega)
        simp only [hr]
        cases r with
        | error e => exact ⟨_, rfl⟩
        | ok f =>
          simp only []
          obtain ⟨-, hd⟩ := hinv f rfl
          cases hp : f.dataPtr with
          | none =>
            simp only []
            split_ifs <;> exact ⟨_, rfl⟩
          | some d =>
            simp only []
            rcases hd with hd | ⟨c, h1, -, -, h4⟩
            · rw [hp] at hd
              cases hd
            · rw [hp] at h1
              cases h1
              obtain ⟨pcm, hpcm, -, -⟩ := readSamples_some bytes (c + 8) (f.dataSize / 2)
                (by omega)
              simp only [hpcm]
              split_ifs <;> exact ⟨_, rfl⟩
  · intro fuel off f hf hd hn
    obtain ⟨r, hr, -⟩ := chunkWalk_some bytes ctx.resolvedPath fuel off f hf hd hn
    exact ⟨r, hr⟩
  · intro i hi
    unfold SoundLoader.readU8
    rw [List.get?_eq_none.2 hi]
    rfl

/-- C38: whenever `SoundLoader::Load` succeeds, the input has at least 12 bytes,
begins with `RIFF` and has `WAVE` at offset 8; the result is a sound whose
channels and sample rate are those of a `fmt ` chunk inside the input whose
format is PCM (1) with 16 bits per sample, channels being 1 or 2; and its
`pcm16` has exactly `dataSize / 2` samples, sample `i` being the signed 16-bit
little-endian value of the bytes `2 i` and `2 i + 1` of a `data` chunk inside
the input.  An input shorter than 12 bytes fails with `DecodeFailed`, and a
longer input without the `RIFF`/`WAVE` signature fails with
`UnsupportedFormat`. -/
theorem sound_load_success (bytes : ByteBuffer) (ctx : LoadContext) (a : AnyAsset)
    (hok : SoundLoader.Load bytes ctx = some (Except.ok a)) :
    12 ≤ bytes.length ∧
      SoundLoader.tagAt bytes 0 SoundLoader.riffTag = some true ∧
      SoundLoader.tagAt bytes 8 SoundLoader.waveTag = some true ∧
      (∃ (snd : SoundAsset) (cf cd dataSize : Nat),
        a = AnyAsset.FromShared (Payload.sound snd) ∧
        SoundLoader.tagAt bytes cf SoundLoader.fmtTag = some true ∧
        SoundLoader.ReadU16LE bytes (cf + 8 + 0) = some 1 ∧
        SoundLoader.ReadU16LE bytes (cf + 8 + 14) = some 16 ∧
        SoundLoader.ReadU16LE bytes (cf + 8 + 2) = some snd.channels ∧
        (snd.channels = 1 ∨ snd.channels = 2) ∧
        SoundLoader.ReadU32LE bytes (cf + 8 + 4) = some snd.sampleRate ∧
        SoundLoader.tagAt bytes cd SoundLoader.dataTag = some true ∧
        SoundLoader.ReadU32LE bytes (cd + 4) = some dataSize ∧
        cd + 8 + dataSize ≤ bytes.length ∧
        snd.pcm16.length = dataSize / 2 ∧
        ∀ i, i < dataSize / 2 →
          ∃ u, SoundLoader.ReadU16LE bytes (cd + 8 + i * 2) = some u ∧
            snd.pcm16[i]? = some (SoundLoader.toInt16 u)) ∧
      (∀ (b2 : ByteBuffer) (ctx2 : LoadContext), b2.length < 12 →
        SoundLoader.Load b2 ctx2 =
          some (Except.error
            (AssetError.Make AssetErrorCode.DecodeFailed "WAV: file too small"
              ctx2.resolvedPath))) ∧
      (∀ (b2 : ByteBuffer) (ctx2 : LoadContext), 12 ≤ b2.length →
        ¬(SoundLoader.tagAt b2 0 SoundLoader.riffTag = some true ∧
          SoundLoader.tagAt b2 8 SoundLoader.waveTag = some true) →
        SoundLoader.Load b2 ctx2 =
          some (Except.error
            (AssetError.Make AssetErrorCode.UnsupportedFormat
              "Sound: only WAV(RIFF/WAVE) supported (PCM16)" ctx2.resolvedPath))) := by
  have hshort : ∀ (b2 : ByteBuffer) (ctx2 : LoadContext), b2.length < 12 →
      SoundLoader.Load b2 ctx2 =
        some (Except.error
          (AssetError.Make AssetErrorCode.DecodeFailed "WAV: file too small"
            ctx2.resolvedPath)) := by
    intro b2 ctx2 h
    unfold SoundLoader.Load
    rw [if_pos h]
  have hsig : ∀ (b2 : ByteBuffer) (ctx2 : LoadContext), 12 ≤ b2.length →
      ¬(SoundLoader.tagAt b2 0 SoundLoader.riffTag = some true ∧
        SoundLoader.tagAt b2 8 SoundLoader.waveTag = some true) →
      SoundLoader.Load b2 ctx2 =
        some (Except.error
          (AssetError.Make AssetErrorCode.UnsupportedFormat
            "Sound: only WAV(RIFF/WAVE) supported (PCM16)" ctx2.resolvedPath)) := by
    intro b2 ctx2 h hs
    unfold SoundLoader.Load
    rw [if_neg (by omega)]
    obtain ⟨t1, ht1⟩ := tagAt_some b2 0 SoundLoader.riffTag (by omega)
    obtain ⟨t2, ht2⟩ := tagAt_some b2 8 SoundLoader.waveTag (by omega)
    simp only [ht1, ht2]
    have : t1 = false ∨ t2 = false := by
      cases t1 <;> cases t2 <;> simp_all
    rw [if_pos this]
  have hlen : 12 ≤ bytes.length := by
    by_contra hc
    rw [hshort bytes ctx (by omega)] at hok
    cases hok
  have hsigs : SoundLoader.tagAt bytes 0 SoundLoader.riffTag = some true ∧
      SoundLoader.tagAt bytes 8 SoundLoader.waveTag = some true := by
    by_contra hc
    rw [hsig bytes ctx hlen hc] at hok
    cases hok
  refine ⟨hlen, hsigs.1, hsigs.2, ?_, hshort, hsig⟩
  unfold SoundLoader.Load at hok
  rw [if_neg (by omega)] at hok
  simp only [hsigs.1, hsigs.2] at hok
  rw [if_neg (by simp)] at hok
  obtain ⟨r, hr, hinv⟩ := chunkWalk_some bytes ctx.resolvedPath bytes.length 12
    SoundLoader.WavFields.init (Or.inl ⟨rfl, rfl, rfl, rfl⟩) (Or.inl rfl) (by omega)
  simp only [hr] at hok
  cases r with
  | error e =>
    simp only [] at hok
    cases hok
  | ok f =>
    simp only [] at hok
    obtain ⟨hf, hd⟩ := hinv f rfl
    by_cases h1 : f.audioFormat ≠ 1
    · rw [if_pos h1] at hok
      cases hok
    rw [if_neg h1] at hok
    by_cases h2 : f.channels = 0 ∨ (f.channels ≠ 1 ∧ f.channels ≠ 2)
    · rw [if_pos h2] at hok
      cases hok
    rw [if_neg h2] at hok
    by_cases h3 : f.bitsPerSample ≠ 16
    · rw [if_pos h3] at hok
      cases hok
    rw [if_neg h3] at hok
    rcases hd with hd | ⟨cd, hd1, hd2, hd3, hd4⟩
    · rw [hd] at hok
      simp only [] at hok
      cases hok
    rw [hd1] at hok
    simp only [] at hok
    by_cases h4 : f.dataSize = 0
    · rw [if_pos h4] at hok
      cases hok
    rw [if_neg h4] at hok
    by_cases h5 : f.dataSize % 2 ≠ 0
    · rw [if_pos h5] at hok
      cases hok
    rw [if_neg h5] at hok
    obtain ⟨pcm, hpcm, hpl, hps⟩ := readSamples_some bytes (cd + 8) (f.dataSize / 2)
      (by omega)
    rw [hpcm] at hok
    simp only [] at hok
    have ha : a = AnyAsset.FromShared (Payload.sound ⟨f.sampleRate, f.channels, pcm⟩) :=
      (Except.ok.inj (Option.some.inj hok)).symm
    have haf : f.audioFormat = 1 := by
      by_contra hc
      exact h1 hc
    have hbits : f.bitsPerSample = 16 := by
      by_contra hc
      exact h3 hc
    have hch : f.channels = 1 ∨ f.channels = 2 := by
      by_contra hc
      apply h2
      right
      constructor
      · intro h
        exact hc (Or.inl h)
      · intro h
        exact hc (Or.inr h)
    rcases hf with hf | ⟨cf, size, g1, g2, g3, g4, g5, g6, g7, g8⟩
    · rw [hf.1] at haf
      cases haf
    rw [haf] at g5
    rw [hbits] at g8
    exact ⟨⟨f.sampleRate, f.channels, pcm⟩, cf, cd, f.dataSize, ha, g1, g5, g8, g6, hch, g7,
      hd2, hd3, hd4, hpl, hps⟩

/-- C38 witness: the 48-byte file `wavTwoSamples` decodes to a mono sound at
44100 Hz with the samples `1` and `-1`. -/
theorem sound_load_success_witness :
    SoundLoader.Load wavTwoSamples (titleContext none) =
        some (Except.ok (AnyAsset.FromShared (Payload.sound ⟨44100, 1, [1, -1]⟩))) ∧
      12 ≤ wavTwoSamples.length ∧
      SoundLoader.tagAt wavTwoSamples 0 SoundLoader.riffTag = some true ∧
      SoundLoader.tagAt wavTwoSamples 8 SoundLoader.waveTag = some true :=
  ⟨rfl,
    (sound_load_success wavTwoSamples (titleContext none) _ rfl).1,
    (sound_load_success wavTwoSamples (titleContext none) _ rfl).2.1,
    (sound_load_success wavTwoSamples (titleContext none) _ rfl).2.2.1⟩

/-- C39: for every byte sequence `b`, `TextLoader::Load` succeeds; the text is `b`
without its first three bytes when `b` begins with the byte-order mark
`EF BB BF`, and `b` itself otherwise; a second mark is kept, and the empty
input yields the empty text. -/
theorem text_load_strips_one_mark (b : ByteBuffer) (ctx : LoadContext) :
    (∀ rest : ByteBuffer, b = 0xEF :: 0xBB :: 0xBF :: rest →
        TextLoader.Load b ctx = Except.ok (AnyAsset.FromShared (Payload.text ⟨rest⟩))) ∧
      ((¬∃ rest : ByteBuffer, b = 0xEF :: 0xBB :: 0xBF :: rest) →
        TextLoader.Load b ctx = Except.ok (AnyAsset.FromShared (Payload.text ⟨b⟩))) ∧
      (∃ t : TextAsset,
        TextLoader.Load b ctx = Except.ok (AnyAsset.FromShared (Payload.text t))) ∧
      TextLoader.Load [] ctx = Except.ok (AnyAsset.FromShared (Payload.text ⟨[]⟩)) ∧
      TextLoader.Load [0xEF, 0xBB, 0xBF, 0xEF, 0xBB, 0xBF, 0x41] ctx =
        Except.ok (AnyAsset.FromShared (Payload.text ⟨[0xEF, 0xBB, 0xBF, 0x41]⟩)) ∧
      TextLoader.Load helloBytes ctx =
        Except.ok (AnyAsset.FromShared (Payload.text ⟨helloBytes⟩)) := by
  refine ⟨?_, ?_, ?_, rfl, rfl, rfl⟩
  · intro rest hb
    subst hb
    simp [TextLoader.Load]
  · intro hno
    match b, hno with
    | [], _ => rfl
    | [_], _ => rfl
    | [_, _], _ => rfl
    | b0 :: b1 :: b2 :: rest, hno =>
      have hne : ¬(b0 = 0xEF ∧ b1 = 0xBB ∧ b2 = 0xBF) := by
        rintro ⟨h0, h1, h2⟩
        exact hno ⟨rest, by rw [h0, h1, h2]⟩
      simp [TextLoader.Load, hne]
  · match b with
    | [] => exact ⟨_, rfl⟩
    | [_] => exact ⟨_, rfl⟩
    | [_, _] => exact ⟨_, rfl⟩
    | b0 :: b1 :: b2 :: rest =>
      by_cases hm : b0 = 0xEF ∧ b1 = 0xBB ∧ b2 = 0xBF
      · exact ⟨⟨rest⟩, by simp [TextLoader.Load, hm]⟩
      · exact ⟨⟨b0 :: b1 :: b2 :: rest⟩, by simp [TextLoader.Load, hm]⟩

/-- C40 (amended): for every resolver configuration and every input, if `Resolve`
returns `Ok(r)` then `r` is a leading absolute part (nothing, `/`, `//` or a
drive letter with `:/`) followed either by nothing at all, so that `r` may be
the empty string, or by a path that, split at `/`, has no empty segment and
no segment equal to `.` or `..`; `Resolve` of the empty string fails with
`InvalidPath`. -/
theorem resolve_output_shape (opt : AssetPathResolver.Options) (p r : String)
    (hok : AssetPathResolver.Resolve opt p = Except.ok r) :
    (∃ front rest : List Char, r.data = front ++ rest ∧
        (front = [] ∨ front = ['/'] ∨ front = ['/', '/'] ∨
          ∃ c : Char, c.isAlpha = true ∧ front = [c, ':', '/']) ∧
        (rest = [] ∨
          ∀ seg ∈ AssetPathResolver.segments rest,
            seg ≠ [] ∧ seg ≠ ['.'] ∧ seg ≠ ['.', '.'])) ∧
      AssetPathResolver.Resolve opt "" =
        Except.error
          (AssetError.Make AssetErrorCode.InvalidPath "AssetPathResolver: empty path" "") := by
  refine ⟨?_, rfl⟩
  have hex : ∃ x : String, r = (AssetPathResolver.RemoveDotSegments x).1 := by
    unfold AssetPathResolver.Resolve at hok
    simp only [] at hok
    split_ifs at hok <;> exact ⟨_, (Except.ok.inj hok).symm⟩
  obtain ⟨x, hx⟩ := hex
  rw [hx]
  exact removeDotSegments_shape x

/-- C40 witness: the resolved path of `a\\b//c/./d/` under the default options. -/
theorem resolve_output_shape_witness :
    AssetPathResolver.Resolve {} "a\\\\b//c/./d/" = Except.ok "assets/a/b/c/d" ∧
      ∃ front rest : List Char, ("assets/a/b/c/d" : String).data = front ++ rest ∧
        (front = [] ∨ front = ['/'] ∨ front = ['/', '/'] ∨
          ∃ c : Char, c.isAlpha = true ∧ front = [c, ':', '/']) ∧
        (rest = [] ∨
          ∀ seg ∈ AssetPathResolver.segments rest,
            seg ≠ [] ∧ seg ≠ ['.'] ∧ seg ≠ ['.', '.']) :=
  ⟨rfl, (resolve_output_shape {} "a\\\\b//c/./d/" "assets/a/b/c/d" rfl).1⟩

/-- C40 counterexample: with the assets root `"."`, `Resolve("x/..")` returns
`Ok("")`: the joined path `./x/..` resolves to the root itself, for which
`RemoveDotSegments` returns the empty string; split at `/`, the empty string
is one empty segment, and it has no absolute part in front. -/
theorem resolve_returns_empty_path :
    AssetPathResolver.Resolve { assetsRoot := "." } "x/.." = Except.ok "" ∧
      AssetPathResolver.JoinRootAndRelative "." "x/.." = "./x/.." ∧
      AssetPathResolver.RemoveDotSegments "./x/.." = ("", false) ∧
      AssetPathResolver.segments ("" : String).data = [[]] ∧
      ([] : List Char) ∈ AssetPathResolver.segments ("" : String).data := by
  refine ⟨rfl, rfl, rfl, rfl, ?_⟩
  simp [AssetPathResolver.segments]

end Engine.Asset
